import Mathlib

/-!
# Lunix:TNG — protocol state machine, sensor store and chrdev cache

A shallow embedding of the parts of the Lunix:TNG driver that the
specification talks about:

* `lunix-protocol.c`: `set_state`, `lunix_protocol_init`,
  `lunix_protocol_parse_state`, `lunix_protocol_received_buf`,
  `uint16_from_packet`, `lunix_protocol_update_sensors`;
* `lunix-sensors.c`: `lunix_sensor_update`;
* `lunix-chrdev.c`: `lunix_chrdev_state_needs_refresh`,
  `lunix_chrdev_state_update`;
* `mk_lookup_tables.c`: `uint16_to_batt`.

Conventions.  A C `int` is an `Int`; an `unsigned char` is a `Fin 256`; a
`uint32_t` is a `Nat` reduced `% 2 ^ 32` where it is assigned from a wider
type.  An array access outside the array is a fault: the embedded function
returns `none`.  The pair `(data, *i)` of `lunix_protocol_parse_state` is
the list of bytes not yet consumed, `data[*i ..]`.  The build flag
`LUNIX_DEBUG`, which no source file defines, is a parameter of the parser;
the clock `get_seconds()` is the parameter `now` of a call.  Locks and wait
queues are not part of the embedding.
-/

namespace Lunix

/-! ## lunix-protocol.h -/

def MAX_PACKET_LEN : Int := 300
def PACKET_SIGNATURE_OFFSET : Int := 4
def NODE_OFFSET : Int := 9
def VREF_OFFSET : Int := 18
def TEMPERATURE_OFFSET : Int := 20
def LIGHT_OFFSET : Int := 22

def SEEKING_START_BYTE : Int := 1
def SEEKING_PACKET_TYPE : Int := 2
def SEEKING_DESTINATION_ADDRESS : Int := 3
def SEEKING_AM_TYPE : Int := 4
def SEEKING_AM_GROUP : Int := 5
def SEEKING_PAYLOAD_LENGTH : Int := 6
def SEEKING_PAYLOAD : Int := 7
def SEEKING_CRC : Int := 8
def SEEKING_END_BYTE : Int := 9

/-- The struct of lunix-protocol.h.  `packet` is the array
`unsigned char packet[MAX_PACKET_LEN]`; an access at a computed index goes
through `packet_load` or `packet_store`, which check the index, and the
dispatcher reads it at constant offsets below `MAX_PACKET_LEN`. -/
structure lunix_protocol_state_struct where
  state : Int
  bytes_read : Int
  bytes_to_read : Int
  pos : Int
  next_is_special : Fin 256
  payload_length : Fin 256
  packet : Int → Fin 256

/-- The store `state->packet[idx] = v`; `none` when `idx` is outside the array. -/
def packet_store (packet : Int → Fin 256) (idx : Int) (v : Fin 256) :
    Option (Int → Fin 256) :=
  if 0 ≤ idx ∧ idx < MAX_PACKET_LEN then
    some (fun k => if k = idx then v else packet k)
  else none

/-- The read `state->packet[idx]`; `none` when `idx` is outside the array. -/
def packet_load (packet : Int → Fin 256) (idx : Int) : Option (Fin 256) :=
  if 0 ≤ idx ∧ idx < MAX_PACKET_LEN then some (packet idx) else none

/-! ## lunix.h, lunix-sensors.c -/

def LUNIX_MSR_MAGIC : Nat := 0xF00DF00D

def BATT : Nat := 0
def TEMP : Nat := 1
def LIGHT : Nat := 2
def N_LUNIX_MSR : Nat := 3

/-- The page header `struct lunix_msr_data_struct`, with `values[0]`. -/
structure lunix_msr_data_struct where
  magic : Nat
  last_update : Nat
  values0 : Nat
  deriving DecidableEq, Repr

/-- The three measurement pages `msr_data[BATT]`, `msr_data[TEMP]`,
`msr_data[LIGHT]` of `struct lunix_sensor_struct`. -/
structure lunix_sensor_struct where
  batt : lunix_msr_data_struct
  temp : lunix_msr_data_struct
  light : lunix_msr_data_struct
  deriving DecidableEq, Repr

/-- The access `s->msr_data[type]`; `none` outside `0 .. N_LUNIX_MSR - 1`. -/
def msr_data (s : lunix_sensor_struct) (type : Nat) : Option lunix_msr_data_struct :=
  if type = BATT then some s.batt
  else if type = TEMP then some s.temp
  else if type = LIGHT then some s.light
  else none

/-- The function `lunix_sensor_update`; `now` is the value returned by `get_seconds()`,
truncated to the `uint32_t` field `last_update`. -/
def lunix_sensor_update (s : lunix_sensor_struct) (batt temp light : Nat) (now : Nat) :
    lunix_sensor_struct :=
  { s with
    batt := { s.batt with values0 := batt, magic := LUNIX_MSR_MAGIC, last_update := now % 2 ^ 32 },
    temp := { s.temp with values0 := temp, magic := LUNIX_MSR_MAGIC, last_update := now % 2 ^ 32 },
    light := { s.light with values0 := light, magic := LUNIX_MSR_MAGIC,
                            last_update := now % 2 ^ 32 } }

/-! ## lunix-protocol.c -/

/-- The call `uint16_from_packet(&state->packet[off])`: two bytes, little-endian. -/
def uint16_from_packet (packet : Int → Fin 256) (off : Int) : Nat :=
  (packet off).val + 256 * (packet (off + 1)).val

/-- The function `lunix_protocol_update_sensors`.  `lunix_sensor_cnt` is the module
parameter, `lunix_sensors` the table; `lunix_sensors[nodeid - 1]` outside
the table is a fault. -/
def lunix_protocol_update_sensors (lunix_sensor_cnt : Int)
    (state : lunix_protocol_state_struct) (lunix_sensors : List lunix_sensor_struct)
    (now : Nat) : Option (List lunix_sensor_struct) :=
  if (0x0B : Fin 256) = state.packet PACKET_SIGNATURE_OFFSET then
    let nodeid := uint16_from_packet state.packet NODE_OFFSET
    let batt := uint16_from_packet state.packet VREF_OFFSET
    let temp := uint16_from_packet state.packet TEMPERATURE_OFFSET
    let light := uint16_from_packet state.packet LIGHT_OFFSET
    if nodeid > 0 ∧ (nodeid : Int) ≤ lunix_sensor_cnt then
      match lunix_sensors.get? (nodeid - 1) with
      | none => none
      | some s =>
        some (lunix_sensors.set (nodeid - 1) (lunix_sensor_update s batt temp light now))
    else some lunix_sensors
  else some lunix_sensors

/-- The helper `set_state` of lunix-protocol.c. -/
def set_state (statep : lunix_protocol_state_struct) (state btr br : Int) :
    lunix_protocol_state_struct :=
  { statep with state := state, bytes_to_read := btr, bytes_read := br }

/-- The function `lunix_protocol_init`; the packet bytes are left as they are. -/
def lunix_protocol_init (state : lunix_protocol_state_struct) :
    lunix_protocol_state_struct :=
  set_state { state with pos := 0, next_is_special := 0 } SEEKING_START_BYTE 1 0

/-- One run of the `while` loop body after a byte has been stored:
`++state->pos; ++state->bytes_read;`. -/
def stored (st : lunix_protocol_state_struct) (packet : Int → Fin 256) :
    lunix_protocol_state_struct :=
  { st with packet := packet, pos := st.pos + 1, bytes_read := st.bytes_read + 1 }

/-- The function `lunix_protocol_parse_state`.  The list is `data[*i ..]`; the result is
the return value, the state and `data[*i ..]` on return.  `iter` is the
local counter, used only when the build sets `LUNIX_DEBUG`. -/
def lunix_protocol_parse_state (LUNIX_DEBUG : Bool) (use_specials : Int) :
    Nat → lunix_protocol_state_struct → List (Fin 256) →
      Option (Int × lunix_protocol_state_struct × List (Fin 256))
  | _, st, [] => some (if st.bytes_read = st.bytes_to_read then 1 else 0, st, [])
  | iter, st, d :: rest =>
    if st.bytes_read < st.bytes_to_read then
      if LUNIX_DEBUG = true ∧ iter + 1 = 50 then some (-1, st, d :: rest)
      else if st.pos = MAX_PACKET_LEN then some (-1, { st with pos := 0 }, d :: rest)
      else if use_specials = 1 then
        if st.next_is_special ≠ 0 then
          match (if (0x7E : Fin 256) = st.next_is_special
                  then packet_store st.packet st.pos d else some st.packet) with
          | none => none
          | some p1 =>
            match (if (0x7D : Fin 256) = st.next_is_special
                    then packet_store p1 st.pos (d ^^^ 0x20) else some p1) with
            | none => none
            | some p2 =>
              lunix_protocol_parse_state LUNIX_DEBUG use_specials (iter + 1)
                { stored st p2 with next_is_special := 0 } rest
        else if (0x7E : Fin 256) = d ∨ (0x7D : Fin 256) = d then
          lunix_protocol_parse_state LUNIX_DEBUG use_specials (iter + 1)
            { st with next_is_special := d } rest
        else
          match packet_store st.packet st.pos d with
          | none => none
          | some p =>
            lunix_protocol_parse_state LUNIX_DEBUG use_specials (iter + 1) (stored st p) rest
      else
        match packet_store st.packet st.pos d with
        | none => none
        | some p =>
          lunix_protocol_parse_state LUNIX_DEBUG use_specials (iter + 1) (stored st p) rest
    else some (if st.bytes_read = st.bytes_to_read then 1 else 0, st, d :: rest)

/-- One statement
`if (state->state == tag) if (lunix_protocol_parse_state(.., use_specials) == 1) done;`
of `lunix_protocol_received_buf`, on the pair of the state and `buf[i ..]`. -/
def phase (LUNIX_DEBUG : Bool) (tag use_specials : Int)
    (done : lunix_protocol_state_struct → Option lunix_protocol_state_struct)
    (c : lunix_protocol_state_struct × List (Fin 256)) :
    Option (lunix_protocol_state_struct × List (Fin 256)) :=
  if c.1.state = tag then
    match lunix_protocol_parse_state LUNIX_DEBUG use_specials 0 c.1 c.2 with
    | none => none
    | some (r, st, rest) =>
      if r = 1 then (done st).map (fun s => (s, rest)) else some (st, rest)
  else some c

/-- The completion of SEEKING_PAYLOAD_LENGTH:
`payload_length = state->packet[state->pos - 1]; set_state(state, SEEKING_PAYLOAD, payload_length, 0);` -/
def payload_length_done (st : lunix_protocol_state_struct) :
    Option lunix_protocol_state_struct :=
  (packet_load st.packet (st.pos - 1)).map
    (fun payload_length => set_state st SEEKING_PAYLOAD (payload_length.val : Int) 0)

/-- The first eight `if` statements of `lunix_protocol_received_buf`
(SEEKING_START_BYTE to SEEKING_CRC). -/
def received_buf_fields (LUNIX_DEBUG : Bool) (state : lunix_protocol_state_struct)
    (buf : List (Fin 256)) : Option (lunix_protocol_state_struct × List (Fin 256)) :=
  (((((((phase LUNIX_DEBUG SEEKING_START_BYTE 0
      (fun s => some (set_state s SEEKING_PACKET_TYPE 1 0)) (state, buf)).bind
    (phase LUNIX_DEBUG SEEKING_PACKET_TYPE 0
      (fun s => some (set_state s SEEKING_DESTINATION_ADDRESS 2 0)))).bind
    (phase LUNIX_DEBUG SEEKING_DESTINATION_ADDRESS 1
      (fun s => some (set_state s SEEKING_AM_TYPE 1 0)))).bind
    (phase LUNIX_DEBUG SEEKING_AM_TYPE 1
      (fun s => some (set_state s SEEKING_AM_GROUP 1 0)))).bind
    (phase LUNIX_DEBUG SEEKING_AM_GROUP 1
      (fun s => some (set_state s SEEKING_PAYLOAD_LENGTH 1 0)))).bind
    (phase LUNIX_DEBUG SEEKING_PAYLOAD_LENGTH 1 payload_length_done)).bind
    (phase LUNIX_DEBUG SEEKING_PAYLOAD 1
      (fun s => some (set_state s SEEKING_CRC 2 0)))).bind
    (phase LUNIX_DEBUG SEEKING_CRC 1
      (fun s => some (set_state s SEEKING_END_BYTE 1 0)))

/-- The result of one call of `lunix_protocol_received_buf`: the parser
state and the sensor table on return, and, when the call reached
`lunix_protocol_update_sensors`, the parser state that was passed to it. -/
structure received where
  state : lunix_protocol_state_struct
  lunix_sensors : List lunix_sensor_struct
  dispatched : Option lunix_protocol_state_struct

/-- The function `lunix_protocol_received_buf`, on the globals `lunix_sensor_cnt` and
`lunix_sensors`; `now` is what `get_seconds()` returns during the call. -/
def lunix_protocol_received_buf (LUNIX_DEBUG : Bool) (lunix_sensor_cnt : Int) (now : Nat)
    (state : lunix_protocol_state_struct) (lunix_sensors : List lunix_sensor_struct)
    (buf : List (Fin 256)) : Option received :=
  match received_buf_fields LUNIX_DEBUG state buf with
  | none => none
  | some (st8, rest8) =>
    if st8.state = SEEKING_END_BYTE then
      match lunix_protocol_parse_state LUNIX_DEBUG 0 0 st8 rest8 with
      | none => none
      | some (r, st9, _) =>
        if r = 1 then
          match lunix_protocol_update_sensors lunix_sensor_cnt st9 lunix_sensors now with
          | none => none
          | some sensors =>
            some { state := set_state { st9 with pos := 0, next_is_special := 0 }
                     SEEKING_START_BYTE 1 0,
                   lunix_sensors := sensors, dispatched := some st9 }
        else some { state := st9, lunix_sensors := lunix_sensors, dispatched := none }
    else some { state := st8, lunix_sensors := lunix_sensors, dispatched := none }

/-- Feeding a list of buffers, one call of `lunix_protocol_received_buf`
each; a buffer comes with the clock value of its call.  The result carries
the states handed to the dispatcher, in order. -/
def feed (LUNIX_DEBUG : Bool) (lunix_sensor_cnt : Int) :
    lunix_protocol_state_struct → List lunix_sensor_struct →
      List (Nat × List (Fin 256)) →
      Option (lunix_protocol_state_struct × List lunix_sensor_struct ×
        List lunix_protocol_state_struct)
  | st, sensors, [] => some (st, sensors, [])
  | st, sensors, (now, buf) :: chunks =>
    match lunix_protocol_received_buf LUNIX_DEBUG lunix_sensor_cnt now st sensors buf with
    | none => none
    | some r =>
      match feed LUNIX_DEBUG lunix_sensor_cnt r.state r.lunix_sensors chunks with
      | none => none
      | some (st', sensors', ds) => some (st', sensors', r.dispatched.toList ++ ds)

/-! ## mk_lookup_tables.c -/

/-- The function `uint16_to_batt`.  For `value != 0` the result is the floating-point
expression `(long)(1.223 * (1023.0 / value) * 1000)`, taken as the
parameter `batt_fp`.  For `value == 0` the assignment `d = -0` stores the
integer constant `0`, negated, in the double, and `(long)(d * 1000)` is 0. -/
def uint16_to_batt (batt_fp : Nat → Int) (value : Nat) : Int :=
  if value ≠ 0 then batt_fp value else 0

/-- The three arrays `long lookup_voltage[65536]`, `lookup_temperature[65536]`
and `lookup_light[65536]` of the generated header lunix-lookup.h, which
mk_lookup_tables.c prints. -/
structure lookup_tables where
  lookup_voltage : Nat → Int
  lookup_temperature : Nat → Int
  lookup_light : Nat → Int

/-- The read `table[data]` of an array of 65536 entries. -/
def lookup_load (table : Nat → Int) (data : Nat) : Option Int :=
  if data < 65536 then some (table data) else none

/-! ## lunix-chrdev.h, lunix-chrdev.c -/

def LUNIX_CHRDEV_BUFSZ : Nat := 200
def EAGAIN : Int := 11

/-- The struct of lunix-chrdev.h.  `sensor` is the index of the record
in `lunix_sensors` that the pointer `state->sensor` refers to; `lock` is the
semaphore as a flag, `true` when it is held. -/
structure lunix_chrdev_state_struct where
  type : Nat
  sensor : Nat
  buf_lim : Int
  buf_data : List (Fin 256)
  buf_timestamp : Nat
  lock : Bool := false

/-- The bytes of a string of ASCII characters. -/
def ascii (s : String) : List (Fin 256) := s.toList.map (fun c => Fin.ofNat c.toNat)

/-- The conversion of a `long` to an `int` (32 bits, two's complement). -/
def int_of_long (x : Int) : Int := (x + 2 ^ 31) % 2 ^ 32 - 2 ^ 31

/-- The text that `"%d.%d\n"` prints for `int_part` and `dec_part`. -/
def printf_d_d (int_part dec_part : Int) : List (Fin 256) :=
  ascii (toString int_part ++ "." ++ toString dec_part ++ "\n")

/-- The call `snprintf(buf, size, ..)` printing `text`: at most `size - 1`
bytes and a terminating 0 are written at the start of `buf`; the return
value is the length of the whole text. -/
def snprintf (buf : List (Fin 256)) (size : Nat) (text : List (Fin 256)) :
    List (Fin 256) × Int :=
  if size = 0 then (buf, (text.length : Int))
  else
    let w := text.take (size - 1) ++ [0]
    (w ++ buf.drop w.length, (text.length : Int))

/-- Lines 95 to 98 of lunix-chrdev.c: the text printed for a table entry. -/
def lunix_chrdev_format (looked_up : Int) : List (Fin 256) :=
  let int_part := int_of_long (Int.tdiv looked_up 1000)
  let dec_part := int_of_long (Int.tmod looked_up 1000)
  printf_d_d int_part dec_part

/-- The function `lunix_chrdev_state_needs_refresh`, reading the record of the handle in
the table `lunix_sensors`. -/
def lunix_chrdev_state_needs_refresh (lunix_sensors : List lunix_sensor_struct)
    (state : lunix_chrdev_state_struct) : Option Int :=
  match lunix_sensors.get? state.sensor with
  | none => none
  | some sensor =>
    match msr_data sensor state.type with
    | none => none
    | some msr => if state.buf_timestamp = msr.last_update then some 0 else some 1

/-- The function `lunix_chrdev_state_update`: the return value and the handle on return. -/
def lunix_chrdev_state_update (tables : lookup_tables)
    (lunix_sensors : List lunix_sensor_struct) (state : lunix_chrdev_state_struct) :
    Option (Int × lunix_chrdev_state_struct) :=
  match lunix_chrdev_state_needs_refresh lunix_sensors state with
  | none => none
  | some r =>
    if r = 0 then some (-EAGAIN, state)
    else
      match lunix_sensors.get? state.sensor with
      | none => none
      | some sensor =>
        match msr_data sensor state.type with
        | none => none
        | some msr =>
          let data := msr.values0
          match (if state.type = BATT then lookup_load tables.lookup_voltage data
                 else if state.type = TEMP then lookup_load tables.lookup_temperature data
                 else if state.type = LIGHT then lookup_load tables.lookup_light data
                 else none) with
          | none => none
          | some looked_up =>
            let r := snprintf state.buf_data LUNIX_CHRDEV_BUFSZ (lunix_chrdev_format looked_up)
            some (0, { state with buf_timestamp := msr.last_update,
                                  buf_data := r.1, buf_lim := r.2 })

/-! ## Sample data -/

/-- An all-zero parser structure (the global `lunix_protocol_state` at load). -/
def zero_state : lunix_protocol_state_struct :=
  { state := 0, bytes_read := 0, bytes_to_read := 0, pos := 0, next_is_special := 0,
    payload_length := 0, packet := fun _ => 0 }

def zero_msr : lunix_msr_data_struct := { magic := LUNIX_MSR_MAGIC, last_update := 0, values0 := 0 }

/-- A sensor as `lunix_sensor_init` leaves it: zeroed pages with the magic set. -/
def zero_sensor : lunix_sensor_struct := { batt := zero_msr, temp := zero_msr, light := zero_msr }

/-- A 27-byte frame for node `node` (payload of 17 bytes, AM type 0x0B) with
raw values `b`, `t`, `l` below 256. -/
def sample_frame (node b t l : Fin 256) : List (Fin 256) :=
  [0x7E, 0x42, 0xFF, 0xFF, 0x0B, 0x01, 17,
   0, 0, node, 0, 0, 0, 0, 0, 0, 0, 0, b, 0, t, 0, l, 0,
   0xAA, 0xBB, 0x7E]

/-! ## The wire encoding of a frame, following the specification -/

/-- A frame `START, TYPE, DEST(2), AM_TYPE, AM_GROUP, LEN, PAYLOAD, CRC(2), END`;
the LEN byte is the length of the payload. -/
structure frame where
  start : Fin 256
  type : Fin 256
  dest0 : Fin 256
  dest1 : Fin 256
  am_type : Fin 256
  am_group : Fin 256
  payload : List (Fin 256)
  crc0 : Fin 256
  crc1 : Fin 256
  stop : Fin 256
  len_ok : payload.length < 256

/-- The LEN byte of a frame. -/
def frame.len (f : frame) : Fin 256 := ⟨f.payload.length, f.len_ok⟩

/-- The fields DEST to CRC of a frame, unescaped. -/
def frame.body (f : frame) : List (Fin 256) :=
  [f.dest0, f.dest1, f.am_type, f.am_group, f.len] ++ f.payload ++ [f.crc0, f.crc1]

/-- The unescaped bytes of a frame. -/
def frame.bytes (f : frame) : List (Fin 256) :=
  [f.start, f.type] ++ f.body ++ [f.stop]

/-- A byte 0x7E or 0x7D is sent as 0x7D followed by the byte XOR 0x20, any
other byte verbatim. -/
def escape (b : Fin 256) : List (Fin 256) :=
  if b = 0x7E ∨ b = 0x7D then [0x7D, b ^^^ 0x20] else [b]

def escape_all (bs : List (Fin 256)) : List (Fin 256) := (bs.map escape).flatten

/-- The wire bytes of a frame: DEST to CRC escaped, the rest verbatim. -/
def frame.wire (f : frame) : List (Fin 256) :=
  [f.start, f.type] ++ escape_all f.body ++ [f.stop]

/-- The frame of `sample_frame`, with the escape-significant bytes 0x7E and
0x7D among its payload and CRC bytes. -/
def sample : frame :=
  { start := 0x7E, type := 0x42, dest0 := 0x7D, dest1 := 0xFF, am_type := 0x0B,
    am_group := 0x7E,
    payload := [0, 0, 1, 0, 0, 0, 0, 0, 0, 0, 0, 0x7E, 0, 0x7D, 0, 30, 0],
    crc0 := 0x7D, crc1 := 0x7E, stop := 0x7E, len_ok := by decide }

/-! ## Predicates used in the proofs -/

/-- The parser has accumulated exactly the bytes `l`: `pos` is their number
and `packet[0 .. pos)` holds them. -/
def Holds (st : lunix_protocol_state_struct) (l : List (Fin 256)) : Prop :=
  st.pos = (l.length : Int) ∧ ∀ k : Nat, k < l.length → l.get? k = some (st.packet (k : Int))

/-- The invariant of the parser, on the fields `state`, `bytes_read`,
`bytes_to_read` and `pos`: the counters are ordered, and `pos` minus the
bytes read in the current field is at most the offset at which the field of
the state starts. -/
def Inv_fields (state bytes_read bytes_to_read pos : Int) : Prop :=
  0 ≤ bytes_read ∧ bytes_read ≤ bytes_to_read ∧ bytes_read ≤ pos ∧
  ((state = 1 ∧ bytes_to_read = 1 ∧ pos - bytes_read ≤ 0) ∨
   (state = 2 ∧ bytes_to_read = 1 ∧ pos - bytes_read ≤ 1) ∨
   (state = 3 ∧ bytes_to_read = 2 ∧ pos - bytes_read ≤ 2) ∨
   (state = 4 ∧ bytes_to_read = 1 ∧ pos - bytes_read ≤ 4) ∨
   (state = 5 ∧ bytes_to_read = 1 ∧ pos - bytes_read ≤ 5) ∨
   (state = 6 ∧ bytes_to_read = 1 ∧ pos - bytes_read ≤ 6) ∨
   (state = 7 ∧ bytes_to_read ≤ 255 ∧ pos - bytes_read ≤ 7) ∨
   (state = 8 ∧ bytes_to_read = 2 ∧ pos - bytes_read ≤ 262) ∨
   (state = 9 ∧ bytes_to_read = 1 ∧ pos - bytes_read ≤ 264))

/-- The invariant of the parser between and inside calls. -/
def Inv (st : lunix_protocol_state_struct) : Prop :=
  Inv_fields st.state st.bytes_read st.bytes_to_read st.pos

/-! ## lunix-chrdev.c: open and read -/

def ERESTARTSYS : Int := 512
def EFAULT : Int := 14
def EINTR : Int := 4

/-- The result of a call that may sleep: `fault` is an access outside an
array or through a null pointer, `sleeping` a call that has not returned
when the answers of the environment end. -/
inductive outcome (α : Type) where
  | fault : outcome α
  | sleeping : outcome α
  | returned : α → outcome α

/-- The answer of the environment to one `wait_event_interruptible`: a
signal, or a wake-up after the line discipline has made the calls
`lunix_sensor_update(&lunix_sensors[node], batt, temp, light)` listed, each
with the clock value of its call, as `(node, batt, temp, light, now)`. -/
inductive wait_answer where
  | signal : wait_answer
  | woken : List (Nat × Nat × Nat × Nat × Nat) → wait_answer

/-- One call `lunix_sensor_update(&lunix_sensors[node], ..)` of the line
discipline on the table. -/
def ingest (lunix_sensors : List lunix_sensor_struct) (u : Nat × Nat × Nat × Nat × Nat) :
    List lunix_sensor_struct :=
  match lunix_sensors.get? u.1 with
  | none => lunix_sensors
  | some s => lunix_sensors.set u.1 (lunix_sensor_update s u.2.1 u.2.2.1 u.2.2.2.1 u.2.2.2.2)

/-- The call `down_interruptible(&state->lock)`, giving the return value and
the flag.  A free semaphore is taken at once.  On a held one the caller
sleeps: `signal` says whether a signal ends the sleep, with a nonzero return
value, or the holder hands the semaphore over. -/
def down_interruptible (lock : Bool) (signal : Bool) : Int × Bool :=
  if lock = false then (0, true)
  else if signal = true then (-EINTR, lock)
  else (0, true)

/-- The call `up(&state->lock)`. -/
def up (_lock : Bool) : Bool := false

/-- The conversion of a `size_t` to a `ssize_t` (64 bits, two's complement). -/
def ssize_of_size (cnt : Nat) : Int := ((cnt : Int) + 2 ^ 63) % 2 ^ 64 - 2 ^ 63

/-- The call `copy_to_user(usrbuf, from, n)`: whether it fails (a nonzero
return value) and the bytes the caller receives.  Nothing is to be copied
for `n = 0`; a negative `n` is a size above the user address space; `fails`
says whether the user buffer is bad.  Reading `from` past its end is a
fault. -/
def copy_to_user (fails : Bool) (src : List (Fin 256)) (n : Int) :
    Option (Bool × Option (List (Fin 256))) :=
  if n = 0 then some (false, some [])
  else if n < 0 ∨ fails = true then some (true, none)
  else if n.toNat ≤ src.length then some (false, some (src.take n.toNat))
  else none

/-- What a call of `lunix_chrdev_read` leaves: the return value, the handle,
`*f_pos`, the bytes copied to the caller if any, the table, and the answers
of the environment that the call has not used. -/
structure read_result where
  ret : Int
  state : lunix_chrdev_state_struct
  f_pos : Int
  usrbuf : Option (List (Fin 256))
  lunix_sensors : List lunix_sensor_struct
  waits : List wait_answer

/-- Lines 203 to 225 of lunix-chrdev.c: the end-of-file test, disabled by
`&& false`, the copy to the caller and the label `out`. -/
def lunix_chrdev_read_copy (copy_fails : Bool) (lunix_sensors : List lunix_sensor_struct)
    (waits : List wait_answer) (state : lunix_chrdev_state_struct) (cnt : Nat)
    (f_pos : Int) : outcome read_result :=
  if f_pos = state.buf_lim ∧ False then
    outcome.returned { ret := 0, state := { state with lock := up state.lock },
                       f_pos := f_pos, usrbuf := none, lunix_sensors := lunix_sensors,
                       waits := waits }
  else
    let size := if ssize_of_size cnt > state.buf_lim then state.buf_lim else ssize_of_size cnt
    match copy_to_user copy_fails state.buf_data size with
    | none => outcome.fault
    | some (failed, out) =>
      if failed = true then
        outcome.returned { ret := -EFAULT, state := { state with lock := up state.lock },
                           f_pos := f_pos, usrbuf := out, lunix_sensors := lunix_sensors,
                           waits := waits }
      else
        outcome.returned { ret := f_pos + size, state := { state with lock := up state.lock },
                           f_pos := 0, usrbuf := out, lunix_sensors := lunix_sensors,
                           waits := waits }

/-- What one test of the `while` condition leads to: the end of the call,
or a call of `wait_event_interruptible` with the handle given. -/
inductive loop_test where
  | done : outcome read_result → loop_test
  | wait : lunix_chrdev_state_struct → loop_test

/-- Lines 185 to 193: the test `lunix_chrdev_state_update(state) == -EAGAIN`
of the `while` loop, entered with the semaphore held.  When it fails the
function goes on after the loop; when it holds the semaphore is released,
and the call returns -EAGAIN with O_NONBLOCK or goes on to wait. -/
def lunix_chrdev_read_test (tables : lookup_tables) (O_NONBLOCK copy_fails : Bool)
    (cnt : Nat) (f_pos : Int) (waits : List wait_answer)
    (lunix_sensors : List lunix_sensor_struct) (state : lunix_chrdev_state_struct) :
    loop_test :=
  match lunix_chrdev_state_update tables lunix_sensors state with
  | none => loop_test.done outcome.fault
  | some (r, state1) =>
    if r = -EAGAIN then
      if O_NONBLOCK = true then
        loop_test.done (outcome.returned
          { ret := -EAGAIN, state := { state1 with lock := up state1.lock },
            f_pos := f_pos, usrbuf := none, lunix_sensors := lunix_sensors,
            waits := waits })
      else loop_test.wait { state1 with lock := up state1.lock }
    else loop_test.done (lunix_chrdev_read_copy copy_fails lunix_sensors waits state1 cnt f_pos)

/-- The `while` loop of lines 185 to 200, entered with the semaphore held,
followed by the rest of the function.  A call of
`wait_event_interruptible` takes the next answer of the environment; with
no answer left the call stays asleep. -/
def lunix_chrdev_read_loop (tables : lookup_tables) (O_NONBLOCK signal copy_fails : Bool)
    (cnt : Nat) (f_pos : Int) :
    List wait_answer → List lunix_sensor_struct → lunix_chrdev_state_struct →
      outcome read_result
  | [], lunix_sensors, state =>
    match lunix_chrdev_read_test tables O_NONBLOCK copy_fails cnt f_pos [] lunix_sensors
        state with
    | loop_test.done o => o
    | loop_test.wait _ => outcome.sleeping
  | wait_answer.signal :: ws, lunix_sensors, state =>
    match lunix_chrdev_read_test tables O_NONBLOCK copy_fails cnt f_pos
        (wait_answer.signal :: ws) lunix_sensors state with
    | loop_test.done o => o
    | loop_test.wait state2 =>
      outcome.returned { ret := -ERESTARTSYS, state := state2, f_pos := f_pos,
                         usrbuf := none, lunix_sensors := lunix_sensors, waits := ws }
  | wait_answer.woken updates :: ws, lunix_sensors, state =>
    match lunix_chrdev_read_test tables O_NONBLOCK copy_fails cnt f_pos
        (wait_answer.woken updates :: ws) lunix_sensors state with
    | loop_test.done o => o
    | loop_test.wait state2 =>
      if (down_interruptible state2.lock signal).1 ≠ 0 then
        outcome.returned { ret := -ERESTARTSYS,
                           state := { state2 with
                             lock := (down_interruptible state2.lock signal).2 },
                           f_pos := f_pos, usrbuf := none,
                           lunix_sensors := updates.foldl ingest lunix_sensors,
                           waits := ws }
      else
        lunix_chrdev_read_loop tables O_NONBLOCK signal copy_fails cnt f_pos ws
          (updates.foldl ingest lunix_sensors)
          { state2 with lock := (down_interruptible state2.lock signal).2 }

/-- The function `lunix_chrdev_read`.  `O_NONBLOCK` says whether the flag is
set in `filp->f_flags`; `signal`, `copy_fails` and `waits` are the answers
of the environment to `down_interruptible` on a held semaphore, to
`copy_to_user` and to the calls of `wait_event_interruptible`. -/
def lunix_chrdev_read (tables : lookup_tables) (O_NONBLOCK signal copy_fails : Bool)
    (waits : List wait_answer) (lunix_sensors : List lunix_sensor_struct)
    (state : lunix_chrdev_state_struct) (cnt : Nat) (f_pos : Int) : outcome read_result :=
  match lunix_sensors.get? state.sensor with
  | none => outcome.fault
  | some sensor =>
    match msr_data sensor state.type with
    | none => outcome.fault
    | some _ =>
      if (down_interruptible state.lock signal).1 ≠ 0 then
        outcome.returned { ret := -ERESTARTSYS,
                           state := { state with
                             lock := (down_interruptible state.lock signal).2 },
                           f_pos := f_pos, usrbuf := none, lunix_sensors := lunix_sensors,
                           waits := waits }
      else if f_pos = 0 then
        lunix_chrdev_read_loop tables O_NONBLOCK signal copy_fails cnt f_pos waits
          lunix_sensors { state with lock := (down_interruptible state.lock signal).2 }
      else
        lunix_chrdev_read_copy copy_fails lunix_sensors waits
          { state with lock := (down_interruptible state.lock signal).2 } cnt f_pos

/-- The minors for which `lunix_chrdev_init` calls `lunix_setup_cdev`, that
is `cdev_add(dev, MKDEV(LUNIX_CHRDEV_MAJOR, minor), 1)`: `i * 8 + j` for
`i < lunix_sensor_cnt` and `j < 3`.  An open of a device node reaches
`lunix_chrdev_open` for a minor that a `cdev_add` covers. -/
def lunix_chrdev_init_minors (lunix_sensor_cnt : Int) : List Nat :=
  ((List.range lunix_sensor_cnt.toNat).map
    (fun i => (List.range 3).map (fun j => i * 8 + j))).flatten

/-- The function `lunix_chrdev_open` on the minor of the inode: the return
value and the handle stored in `filp->private_data`.  `kmalloc` is the
`buf_data` part of the block that `kmalloc` returns, `none` for NULL; the
code does not test the pointer before it writes `dev->type`. -/
def lunix_chrdev_open (minor : Nat) (kmalloc : Option (List (Fin 256))) :
    Option (Int × lunix_chrdev_state_struct) :=
  let type := minor &&& 7
  let sensor_index := (minor - type) >>> 3
  match kmalloc with
  | none => none
  | some mem =>
    some (0, { type := type, sensor := sensor_index, buf_lim := 1,
                buf_data := mem.set 0 0, buf_timestamp := 0, lock := false })

/-! ## Locks as flags: the spinlock of a record -/

/-- The call `spin_lock(&sensor->lock)` on the flag: `none` when the
spinlock is held, where the caller spins and does not return. -/
def spin_lock (lock : Bool) : Option Bool := if lock = true then none else some true

/-- The call `spin_unlock(&sensor->lock)`. -/
def spin_unlock (_lock : Bool) : Bool := false

/-- The function `lunix_sensor_update` with the spinlock of the record as a
flag: the flag and the record on return. -/
def lunix_sensor_update_locked (lock : Bool) (s : lunix_sensor_struct)
    (batt temp light : Nat) (now : Nat) : Option (Bool × lunix_sensor_struct) :=
  match spin_lock lock with
  | none => none
  | some l1 => some (spin_unlock l1, lunix_sensor_update s batt temp light now)

/-- The function `lunix_chrdev_state_update` with the spinlock of the record
as a flag: the flag, the return value and the handle on return.  The
return of -EAGAIN comes before `spin_lock`. -/
def lunix_chrdev_state_update_locked (lock : Bool) (tables : lookup_tables)
    (lunix_sensors : List lunix_sensor_struct) (state : lunix_chrdev_state_struct) :
    Option (Bool × Int × lunix_chrdev_state_struct) :=
  match lunix_chrdev_state_needs_refresh lunix_sensors state with
  | none => none
  | some r =>
    if r = 0 then some (lock, -EAGAIN, state)
    else
      match spin_lock lock with
      | none => none
      | some l1 =>
        match lunix_sensors.get? state.sensor with
        | none => none
        | some sensor =>
          match msr_data sensor state.type with
          | none => none
          | some msr =>
            let l2 := spin_unlock l1
            let data := msr.values0
            match (if state.type = BATT then lookup_load tables.lookup_voltage data
                   else if state.type = TEMP then lookup_load tables.lookup_temperature data
                   else if state.type = LIGHT then lookup_load tables.lookup_light data
                   else none) with
            | none => none
            | some looked_up =>
              let r := snprintf state.buf_data LUNIX_CHRDEV_BUFSZ
                (lunix_chrdev_format looked_up)
              some (l2, 0, { state with buf_timestamp := msr.last_update,
                                        buf_data := r.1, buf_lim := r.2 })

/-! ## lunix-sensors.c, lunix-module.c: allocation -/

def ENOMEM : Int := 12

/-- The allocator: the addresses in use and the number of requests made. -/
structure allocator where
  live : List Nat
  requests : Nat
  deriving DecidableEq, Repr

/-- An address that is not in use: one above the largest one in use. -/
def fresh (live : List Nat) : Nat := live.foldl max 0 + 1

/-- A request (`get_zeroed_page`, `kzalloc`, `kmalloc`): the address, 0 for
NULL, and the allocator.  `fails n` says whether request number `n` fails. -/
def allocate (fails : Nat → Bool) (a : allocator) : Nat × allocator :=
  if fails a.requests = true then (0, { a with requests := a.requests + 1 })
  else (fresh a.live, { live := fresh a.live :: a.live, requests := a.requests + 1 })

/-- The calls `free_page` and `kfree`. -/
def release (a : allocator) (p : Nat) : allocator := { a with live := a.live.erase p }

/-- The second loop of `lunix_sensor_init`, with `n` pages still to get:
the return value, the pointers `msr_data` and the allocator. -/
def lunix_sensor_init_pages (fails : Nat → Bool) :
    Nat → Nat → List Nat → allocator → Int × List Nat × allocator
  | 0, _, msr_data, a => (0, msr_data, a)
  | n + 1, i, msr_data, a =>
    if (allocate fails a).1 = 0 then (-ENOMEM, msr_data, (allocate fails a).2)
    else lunix_sensor_init_pages fails n (i + 1) (msr_data.set i (allocate fails a).1)
      (allocate fails a).2

/-- The function `lunix_sensor_init` on the pointers of a record: all three
are set to NULL, then one page is requested for each. -/
def lunix_sensor_init (fails : Nat → Bool) (a : allocator) : Int × List Nat × allocator :=
  lunix_sensor_init_pages fails N_LUNIX_MSR 0 (List.replicate N_LUNIX_MSR 0) a

/-- The function `lunix_sensor_destroy`: every page with a pointer other
than NULL is freed. -/
def lunix_sensor_destroy (msr_data : List Nat) (a : allocator) : allocator :=
  msr_data.foldl (fun a p => if p ≠ 0 then release a p else a) a

/-- The first loop of `lunix_module_init`, with `n` records still to
initialise: the return value of the last `lunix_sensor_init`, the records
`0 .. si_done` that were initialised, and the allocator. -/
def lunix_module_init_sensors (fails : Nat → Bool) :
    Nat → List (List Nat) → allocator → Int × List (List Nat) × allocator
  | 0, done, a => (0, done, a)
  | n + 1, done, a =>
    if (lunix_sensor_init fails a).1 < 0 then
      ((lunix_sensor_init fails a).1, done, (lunix_sensor_init fails a).2.2)
    else
      lunix_module_init_sensors fails n (done ++ [(lunix_sensor_init fails a).2.1])
        (lunix_sensor_init fails a).2.2

/-- The loop at the label `out_with_sensors`: `lunix_sensor_destroy` for the
records `si_done` down to 0. -/
def lunix_module_destroy_sensors (done : List (List Nat)) (a : allocator) : allocator :=
  done.reverse.foldl (fun a msr_data => lunix_sensor_destroy msr_data a) a

/-- The function `lunix_chrdev_init`, as far as `lunix_module_init` sees it:
the block `lunix_states` is requested, its pointer is not tested, and the
return value is 0 or the negative one of `register_chrdev_region`. -/
def lunix_chrdev_init (fails : Nat → Bool) (region_ret : Int) (a : allocator) :
    Int × allocator :=
  if region_ret < 0 then (region_ret, (allocate fails a).2) else (0, (allocate fails a).2)

/-- The function `lunix_module_init`: the return value and the allocator.
`ldisc_ret` is the return value of `lunix_ldisc_init`, `region_ret` the one
of `register_chrdev_region`.  For a negative `lunix_sensor_cnt` the size
given to `kzalloc` is out of range and the pointer is NULL. -/
def lunix_module_init (fails : Nat → Bool) (lunix_sensor_cnt : Int)
    (ldisc_ret region_ret : Int) (a : allocator) : Int × allocator :=
  if lunix_sensor_cnt < 0 then (-ENOMEM, a)
  else if (allocate fails a).1 = 0 then (-ENOMEM, (allocate fails a).2)
  else
    let r := lunix_module_init_sensors fails lunix_sensor_cnt.toNat [] (allocate fails a).2
    if r.1 < 0 then
      (r.1, release (lunix_module_destroy_sensors r.2.1 r.2.2) (allocate fails a).1)
    else if ldisc_ret < 0 then
      (ldisc_ret, release (lunix_module_destroy_sensors r.2.1 r.2.2) (allocate fails a).1)
    else if (lunix_chrdev_init fails region_ret r.2.2).1 < 0 then
      ((lunix_chrdev_init fails region_ret r.2.2).1,
        release (lunix_module_destroy_sensors r.2.1 (lunix_chrdev_init fails region_ret r.2.2).2)
          (allocate fails a).1)
    else (0, (lunix_chrdev_init fails region_ret r.2.2).2)

/-! ## The parser as a list of phases (used in the proofs) -/

/-- The body of the `while` loop of `lunix_protocol_parse_state` for the
byte `d`, after the tests on `iter` and on `pos`. -/
def loop_body (use_specials : Int) (st : lunix_protocol_state_struct) (d : Fin 256) :
    Option lunix_protocol_state_struct :=
  if use_specials = 1 then
    if st.next_is_special ≠ 0 then
      match (if (0x7E : Fin 256) = st.next_is_special
              then packet_store st.packet st.pos d else some st.packet) with
      | none => none
      | some p1 =>
        match (if (0x7D : Fin 256) = st.next_is_special
                then packet_store p1 st.pos (d ^^^ 0x20) else some p1) with
        | none => none
        | some p2 => some { stored st p2 with next_is_special := 0 }
    else if (0x7E : Fin 256) = d ∨ (0x7D : Fin 256) = d then
      some { st with next_is_special := d }
    else
      match packet_store st.packet st.pos d with
      | none => none
      | some p => some (stored st p)
  else
    match packet_store st.packet st.pos d with
    | none => none
    | some p => some (stored st p)

/-- The parameters of one `if` statement of `lunix_protocol_received_buf`. -/
structure phase_spec where
  tag : Int
  use_specials : Int
  done : lunix_protocol_state_struct → Option lunix_protocol_state_struct

/-- The first eight `if` statements, in their order. -/
def field_phases : List phase_spec :=
  [ { tag := SEEKING_START_BYTE, use_specials := 0,
      done := fun s => some (set_state s SEEKING_PACKET_TYPE 1 0) },
    { tag := SEEKING_PACKET_TYPE, use_specials := 0,
      done := fun s => some (set_state s SEEKING_DESTINATION_ADDRESS 2 0) },
    { tag := SEEKING_DESTINATION_ADDRESS, use_specials := 1,
      done := fun s => some (set_state s SEEKING_AM_TYPE 1 0) },
    { tag := SEEKING_AM_TYPE, use_specials := 1,
      done := fun s => some (set_state s SEEKING_AM_GROUP 1 0) },
    { tag := SEEKING_AM_GROUP, use_specials := 1,
      done := fun s => some (set_state s SEEKING_PAYLOAD_LENGTH 1 0) },
    { tag := SEEKING_PAYLOAD_LENGTH, use_specials := 1, done := payload_length_done },
    { tag := SEEKING_PAYLOAD, use_specials := 1,
      done := fun s => some (set_state s SEEKING_CRC 2 0) },
    { tag := SEEKING_CRC, use_specials := 1,
      done := fun s => some (set_state s SEEKING_END_BYTE 1 0) } ]

/-- A list of `if` statements run one after the other. -/
def run_phases (LUNIX_DEBUG : Bool) :
    List phase_spec → lunix_protocol_state_struct × List (Fin 256) →
      Option (lunix_protocol_state_struct × List (Fin 256))
  | [], c => some c
  | p :: ps, c =>
    (phase LUNIX_DEBUG p.tag p.use_specials p.done c).bind (run_phases LUNIX_DEBUG ps)

/-- A phase whose completion keeps the invariant and moves to a later state. -/
def phase_ok (p : phase_spec) : Prop :=
  ∀ s, Inv s → s.state = p.tag → s.bytes_read = s.bytes_to_read →
    ∃ s', p.done s = some s' ∧ Inv s' ∧ p.tag < s'.state

/-! ## A short frame -/

/-- A 14-byte frame for node 1 (AM type 0x0B, payload of 4 bytes holding the
node id at offsets 9 and 10): it ends before the offsets 18 to 23 at which
`lunix_protocol_update_sensors` reads the three raw values. -/
def short_frame : List (Fin 256) :=
  [0x7E, 0x42, 0xFF, 0xFF, 0x0B, 0x01, 4,
   0, 0, 1, 0,
   0xAA, 0xBB, 0x7E]

/-! ## An over-long frame -/

/-- One call on the record of a handle or on the handle:
`lunix_sensor_update(s, batt, temp, light)` with its `uint16_t` arguments
and the clock value read in the call, or `lunix_chrdev_state_update(state)`. -/
inductive event where
  | update (batt temp light : Fin 65536) (now : Nat)
  | refresh

/-- The table, the handle, and whether `lunix_chrdev_state_update` has
returned 0 on the handle so far. -/
structure session where
  lunix_sensors : List lunix_sensor_struct
  state : lunix_chrdev_state_struct
  refreshed : Bool

/-- One event: an update acts on the record of the handle, a refresh on
the handle. -/
def run_event (tables : lookup_tables) (s : session) : event → Option session
  | event.update batt temp light now =>
    match s.lunix_sensors.get? s.state.sensor with
    | none => none
    | some rec =>
      some { s with
        lunix_sensors :=
          s.lunix_sensors.set s.state.sensor
            (lunix_sensor_update rec batt.val temp.val light.val now) }
  | event.refresh =>
    match lunix_chrdev_state_update tables s.lunix_sensors s.state with
    | none => none
    | some (ret, state) =>
      some { s with state := state, refreshed := s.refreshed || decide (ret = 0) }

/-- A sequence of events, in order. -/
def run_events (tables : lookup_tables) : session → List event → Option session
  | s, [] => some s
  | s, e :: es =>
    match run_event tables s e with
    | none => none
    | some s1 => run_events tables s1 es

/-- Every update of the sequence writes a 32-bit timestamp later than the
one the record holds before it (`prev` at the start): no two updates fall
within one clock second. -/
def seconds_increase : Nat → List event → Prop
  | _, [] => True
  | prev, event.update _ _ _ now :: es =>
    prev < now % 2 ^ 32 ∧ seconds_increase (now % 2 ^ 32) es
  | prev, event.refresh :: es => seconds_increase prev es

/-- The table entry that `lunix_chrdev_state_update` reads for the raw value
`data` of a quantity `type` among BATT, TEMP and LIGHT. -/
def table_entry (tables : lookup_tables) (type data : Nat) : Int :=
  if type = BATT then tables.lookup_voltage data
  else if type = TEMP then tables.lookup_temperature data
  else tables.lookup_light data

/-- The handle holds the text `text`: `buf_lim` is its length and
`buf_data` starts with it. -/
def cached (state : lunix_chrdev_state_struct) (text : List (Fin 256)) : Prop :=
  state.buf_lim = (text.length : Int) ∧ state.buf_data.take text.length = text

/-! ## The printed text fits the buffer -/

theorem ascii_length (s : String) : (ascii s).length = s.length := by
  unfold ascii
  rw [List.length_map]
  rfl

theorem toString_int_length (i : Int) (h1 : -2 ^ 31 ≤ i) (h2 : i < 2 ^ 31) :
    (toString i).length ≤ 11 := by
  cases i with
  | ofNat n =>
    have hn : n < 10 ^ 10 := by
      have : (n : Int) < 2 ^ 31 := h2
      omega
    have := Nat.repr_length n 10 (by norm_num) hn
    show (Nat.repr n).length ≤ 11
    omega
  | negSucc n =>
    have hn : n + 1 < 10 ^ 10 := by
      have : -2 ^ 31 ≤ Int.negSucc n := h1
      rw [Int.negSucc_eq] at this
      omega
    have := Nat.repr_length (n + 1) 10 (by norm_num) hn
    show ("-" ++ Nat.repr (n + 1)).length ≤ 11
    rw [String.length_append]
    have : "-".length = 1 := rfl
    omega

theorem int_of_long_bounds (x : Int) : -2 ^ 31 ≤ int_of_long x ∧ int_of_long x < 2 ^ 31 := by
  unfold int_of_long
  omega

theorem lunix_chrdev_format_length (v : Int) : (lunix_chrdev_format v).length ≤ 24 := by
  unfold lunix_chrdev_format printf_d_d
  simp only [ascii_length, String.length_append]
  have h1 := toString_int_length _ (int_of_long_bounds (Int.tdiv v 1000)).1 (int_of_long_bounds (Int.tdiv v 1000)).2
  have h2 := toString_int_length _ (int_of_long_bounds (Int.tmod v 1000)).1 (int_of_long_bounds (Int.tmod v 1000)).2
  have : ".".length = 1 := rfl
  have : "\n".length = 1 := rfl
  omega

theorem snprintf_fits (buf text : List (Fin 256)) (h : text.length < LUNIX_CHRDEV_BUFSZ) :
    (snprintf buf LUNIX_CHRDEV_BUFSZ text).1.take text.length = text ∧
    (snprintf buf LUNIX_CHRDEV_BUFSZ text).2 = text.length := by
  have hsz : LUNIX_CHRDEV_BUFSZ ≠ 0 := by decide
  have h' : text.length ≤ LUNIX_CHRDEV_BUFSZ - 1 := by omega
  unfold snprintf
  rw [if_neg hsz]
  refine ⟨?_, rfl⟩
  show List.take text.length (List.take (LUNIX_CHRDEV_BUFSZ - 1) text ++ [0] ++ _) = text
  rw [List.take_of_length_le h', List.append_assoc, List.take_left']
  rfl

/-! ## Update then refresh -/

/-- The page of quantity `q` of a record after `lunix_sensor_update`. -/
theorem msr_data_update (rec : lunix_sensor_struct) (b t l now q : Nat)
    (hq : q = BATT ∨ q = TEMP ∨ q = LIGHT) :
    msr_data (lunix_sensor_update rec b t l now) q =
      some { magic := LUNIX_MSR_MAGIC, last_update := now % 2 ^ 32,
             values0 := if q = BATT then b else if q = TEMP then t else l } := by
  rcases hq with h | h | h <;> subst h <;> simp [msr_data, lunix_sensor_update, BATT, TEMP, LIGHT]

/-- C3: after `lunix_sensor_update` on the record of a handle whose
`buf_timestamp` is below the timestamp written, `needs_refresh` returns 1,
and `lunix_chrdev_state_update` returns 0, sets `buf_timestamp` to the new
timestamp and stores, through `snprintf`, the text of the table entry of the
handle's quantity at the raw value just written: the first `buf_lim` bytes
of `buf_data` are that text. -/
theorem update_then_refresh (tables : lookup_tables)
    (lunix_sensors : List lunix_sensor_struct) (h : lunix_chrdev_state_struct)
    (rec : lunix_sensor_struct) (b t l now : Nat)
    (hrec : lunix_sensors.get? h.sensor = some rec)
    (hq : h.type = BATT ∨ h.type = TEMP ∨ h.type = LIGHT)
    (hb : b < 65536) (ht : t < 65536) (hl : l < 65536)
    (hts : h.buf_timestamp < now % 2 ^ 32) :
    let sensors := lunix_sensors.set h.sensor (lunix_sensor_update rec b t l now)
    let looked_up :=
      if h.type = BATT then tables.lookup_voltage b
      else if h.type = TEMP then tables.lookup_temperature t
      else tables.lookup_light l
    lunix_chrdev_state_needs_refresh sensors h = some 1 ∧
    ∃ h', lunix_chrdev_state_update tables sensors h = some (0, h') ∧
      h'.buf_timestamp = now % 2 ^ 32 ∧
      h'.type = h.type ∧ h'.sensor = h.sensor ∧
      h'.buf_lim = ((lunix_chrdev_format looked_up).length : Int) ∧
      h'.buf_data.take (lunix_chrdev_format looked_up).length =
        lunix_chrdev_format looked_up := by
  intro sensors looked_up
  have hlt : h.sensor < lunix_sensors.length := by
    rcases Nat.lt_or_ge h.sensor lunix_sensors.length with hlt | hge
    · exact hlt
    · rw [List.get?_eq_none.mpr hge] at hrec
      cases hrec
  have hget : sensors.get? h.sensor = some (lunix_sensor_update rec b t l now) := by
    simp only [sensors]
    rw [List.get?_eq_getElem?, List.getElem?_set_self hlt]
  have hne : h.buf_timestamp ≠ now % 2 ^ 32 := Nat.ne_of_lt hts
  have hneed : lunix_chrdev_state_needs_refresh sensors h = some 1 := by
    unfold lunix_chrdev_state_needs_refresh
    rw [hget]
    simp only [msr_data_update rec b t l now h.type hq]
    exact if_neg hne
  refine ⟨hneed, ?_⟩
  have hfit : (lunix_chrdev_format looked_up).length < LUNIX_CHRDEV_BUFSZ := by
    have := lunix_chrdev_format_length looked_up
    have : LUNIX_CHRDEV_BUFSZ = 200 := rfl
    omega
  have hsn := snprintf_fits h.buf_data (lunix_chrdev_format looked_up) hfit
  have hload :
      (if h.type = BATT then lookup_load tables.lookup_voltage
            (if h.type = BATT then b else if h.type = TEMP then t else l)
       else if h.type = TEMP then lookup_load tables.lookup_temperature
            (if h.type = BATT then b else if h.type = TEMP then t else l)
       else if h.type = LIGHT then lookup_load tables.lookup_light
            (if h.type = BATT then b else if h.type = TEMP then t else l)
       else none) = some looked_up := by
    simp only [looked_up]
    rcases hq with hq | hq | hq <;> rw [hq] <;>
      simp [lookup_load, BATT, TEMP, LIGHT, hb, ht, hl]
  refine ⟨{ h with buf_timestamp := now % 2 ^ 32,
                   buf_data := (snprintf h.buf_data LUNIX_CHRDEV_BUFSZ
                     (lunix_chrdev_format looked_up)).1,
                   buf_lim := (snprintf h.buf_data LUNIX_CHRDEV_BUFSZ
                     (lunix_chrdev_format looked_up)).2 }, ?_, rfl, rfl, rfl, hsn.2, hsn.1⟩
  unfold lunix_chrdev_state_update
  rw [hneed]
  simp only [hget, msr_data_update rec b t l now h.type hq, hload]
  simp

/-- A table of two records and a TEMP handle on the second one, refreshed
after an update with raw temperature 512. -/
theorem update_then_refresh_witness :
    (5 : Nat) < 1000 % 2 ^ 32 ∧
    lunix_chrdev_state_needs_refresh
      ([zero_sensor, zero_sensor].set 1 (lunix_sensor_update zero_sensor 400 512 7 1000))
      { type := TEMP, sensor := 1, buf_lim := 1, buf_data := List.replicate 200 0,
        buf_timestamp := 5 }
      = some 1 :=
  ⟨by decide,
   (update_then_refresh
      { lookup_voltage := fun _ => 0, lookup_temperature := fun n => 25000 + n,
        lookup_light := fun _ => 0 }
      [zero_sensor, zero_sensor]
      { type := TEMP, sensor := 1, buf_lim := 1, buf_data := List.replicate 200 0,
        buf_timestamp := 5 }
      zero_sensor 400 512 7 1000 rfl (Or.inr (Or.inl rfl))
      (by decide) (by decide) (by decide) (by decide)).1⟩

/-! ## The text format -/

set_option maxRecDepth 8000 in
/-- C4: the code prints the two parts with `"%d.%d\n"`, neither padded to
three digits nor made absolute.  A BATT handle on a record with raw battery
value 1244, whose table entry is 1005, is refreshed to the text `"1.5\n"`
with `buf_lim` 4, not `"1.005\n"`; the entry -272150 is printed as
`"-272.-150\n"`. -/
theorem format_without_padding :
    (∃ h', lunix_chrdev_state_update
        { lookup_voltage := fun n => if n = 1244 then 1005 else 0,
          lookup_temperature := fun _ => 0, lookup_light := fun _ => 0 }
        [lunix_sensor_update zero_sensor 1244 0 0 1000]
        { type := BATT, sensor := 0, buf_lim := 1, buf_data := List.replicate 200 0,
          buf_timestamp := 0 }
        = some (0, h') ∧ h'.buf_lim = 4 ∧ h'.buf_data.length = 200 ∧
        h'.buf_data.take 5 = ascii "1.5\n" ++ [0]) ∧
    lunix_chrdev_format 1005 = ascii "1.5\n" ∧
    lunix_chrdev_format 1005 ≠ ascii "1.005\n" ∧
    lunix_chrdev_format (-272150) = ascii "-272.-150\n" ∧
    lunix_chrdev_format (-272150) ≠ ascii "-272.150\n" := by
  refine ⟨⟨_, rfl, ?_, ?_, ?_⟩, ?_, ?_, ?_, ?_⟩ <;> decide

/-- C5, as stated, fails: for raw battery code 0 the text is not `"-0.000\n"`. -/
theorem batt_zero_text_counterexample :
    ¬ (lunix_chrdev_format (uint16_to_batt (fun _ => 1223) 0) = ascii "-0.000\n") := by
  decide

/-- C5, amended: for raw battery code 0, `uint16_to_batt` yields the
milli-unit value 0, and the formatting step yields a text that begins with
`"0."` without a minus sign, has only zeros for fraction digits and ends
with the newline. -/
theorem batt_zero_text (batt_fp : Nat → Int) :
    uint16_to_batt batt_fp 0 = 0 ∧
    ∃ k, 0 < k ∧
      lunix_chrdev_format (uint16_to_batt batt_fp 0) =
        ascii "0." ++ List.replicate k (Fin.ofNat '0'.toNat) ++ ascii "\n" := by
  have h0 : uint16_to_batt batt_fp 0 = 0 := by simp [uint16_to_batt]
  refine ⟨h0, 1, Nat.one_pos, ?_⟩
  rw [h0]
  decide

/-! ## The dispatcher -/

/-- C6: a frame with signature byte 0x0B at offset 4 and a node id `id`
at offset 9 with `1 ≤ id ≤ lunix_sensor_cnt` updates the record `id - 1`
with the little-endian values at offsets 18, 20 and 22 and the clock value,
and leaves every other record as it was. -/
theorem dispatch_accepted (lunix_sensor_cnt : Int) (st : lunix_protocol_state_struct)
    (lunix_sensors : List lunix_sensor_struct) (now : Nat)
    (hlen : (lunix_sensors.length : Int) = lunix_sensor_cnt)
    (hsig : st.packet 4 = 0x0B)
    (hid1 : 1 ≤ (st.packet 9).val + 256 * (st.packet 10).val)
    (hid2 : (((st.packet 9).val + 256 * (st.packet 10).val : Nat) : Int) ≤ lunix_sensor_cnt) :
    ∃ old sensors,
      lunix_sensors.get? ((st.packet 9).val + 256 * (st.packet 10).val - 1) = some old ∧
      lunix_protocol_update_sensors lunix_sensor_cnt st lunix_sensors now = some sensors ∧
      sensors.length = lunix_sensors.length ∧
      sensors.get? ((st.packet 9).val + 256 * (st.packet 10).val - 1) =
        some (lunix_sensor_update old
          ((st.packet 18).val + 256 * (st.packet 19).val)
          ((st.packet 20).val + 256 * (st.packet 21).val)
          ((st.packet 22).val + 256 * (st.packet 23).val) now) ∧
      (∀ new, sensors.get? ((st.packet 9).val + 256 * (st.packet 10).val - 1) = some new →
        new.batt.values0 = (st.packet 18).val + 256 * (st.packet 19).val ∧
        new.temp.values0 = (st.packet 20).val + 256 * (st.packet 21).val ∧
        new.light.values0 = (st.packet 22).val + 256 * (st.packet 23).val ∧
        new.batt.last_update = now % 2 ^ 32 ∧ new.temp.last_update = now % 2 ^ 32 ∧
        new.light.last_update = now % 2 ^ 32) ∧
      ∀ j, j ≠ (st.packet 9).val + 256 * (st.packet 10).val - 1 →
        sensors.get? j = lunix_sensors.get? j := by
  have hidx : (st.packet 9).val + 256 * (st.packet 10).val - 1 < lunix_sensors.length := by
    omega
  have hget : lunix_sensors.get? ((st.packet 9).val + 256 * (st.packet 10).val - 1) =
      some (lunix_sensors.get ⟨_, hidx⟩) := List.get?_eq_get hidx
  have hres : lunix_protocol_update_sensors lunix_sensor_cnt st lunix_sensors now =
      some (lunix_sensors.set ((st.packet 9).val + 256 * (st.packet 10).val - 1)
        (lunix_sensor_update (lunix_sensors.get ⟨_, hidx⟩)
          ((st.packet 18).val + 256 * (st.packet 19).val)
          ((st.packet 20).val + 256 * (st.packet 21).val)
          ((st.packet 22).val + 256 * (st.packet 23).val) now)) := by
    unfold lunix_protocol_update_sensors
    have hs : (0x0B : Fin 256) = st.packet PACKET_SIGNATURE_OFFSET := hsig.symm
    have hc : uint16_from_packet st.packet NODE_OFFSET > 0 ∧
        ((uint16_from_packet st.packet NODE_OFFSET : Nat) : Int) ≤ lunix_sensor_cnt :=
      ⟨hid1, hid2⟩
    rw [if_pos hs]
    simp only []
    rw [if_pos hc]
    show (match lunix_sensors.get? ((st.packet 9).val + 256 * (st.packet 10).val - 1) with
      | none => none
      | some s => _) = _
    rw [hget]
    rfl
  have hnew : (lunix_sensors.set ((st.packet 9).val + 256 * (st.packet 10).val - 1)
        (lunix_sensor_update (lunix_sensors.get ⟨_, hidx⟩)
          ((st.packet 18).val + 256 * (st.packet 19).val)
          ((st.packet 20).val + 256 * (st.packet 21).val)
          ((st.packet 22).val + 256 * (st.packet 23).val) now)).get?
        ((st.packet 9).val + 256 * (st.packet 10).val - 1) =
      some (lunix_sensor_update (lunix_sensors.get ⟨_, hidx⟩)
          ((st.packet 18).val + 256 * (st.packet 19).val)
          ((st.packet 20).val + 256 * (st.packet 21).val)
          ((st.packet 22).val + 256 * (st.packet 23).val) now) := by
    rw [List.get?_eq_getElem?, List.getElem?_set_self hidx]
  refine ⟨_, _, hget, hres, List.length_set .., hnew, ?_, ?_⟩
  · intro new hn
    rw [hnew] at hn
    cases hn
    exact ⟨rfl, rfl, rfl, rfl, rfl, rfl⟩
  · intro j hj
    rw [List.get?_eq_getElem?, List.get?_eq_getElem?, List.getElem?_set_ne (Ne.symm hj)]

/-- A frame for node 2 fed to the dispatcher of a table of two records. -/
theorem dispatch_accepted_witness :
    ∃ sensors,
      lunix_protocol_update_sensors 2
        { zero_state with packet := fun k => (sample_frame 2 10 20 30).getD k.toNat 0 }
        [zero_sensor, zero_sensor] 77 = some sensors ∧
      sensors.get? 0 = some zero_sensor ∧
      sensors.get? 1 = some (lunix_sensor_update zero_sensor 10 20 30 77) := by
  obtain ⟨old, sensors, hold, hres, -, hnew, -, hrest⟩ :=
    dispatch_accepted 2
      { zero_state with packet := fun k => (sample_frame 2 10 20 30).getD k.toNat 0 }
      [zero_sensor, zero_sensor] 77 rfl (by decide) (by decide) (by decide)
  cases hold
  exact ⟨sensors, hres, hrest 0 (by decide), hnew⟩

/-- C7: a frame whose signature byte at offset 4 is not 0x0B, or whose
node id is 0 or above `lunix_sensor_cnt`, leaves the whole table as it was;
the call makes no table access (a faulting one would give `none`), whatever
the size of the table. -/
theorem dispatch_dropped (lunix_sensor_cnt : Int) (st : lunix_protocol_state_struct)
    (lunix_sensors : List lunix_sensor_struct) (now : Nat)
    (h : st.packet 4 ≠ 0x0B ∨ (st.packet 9).val + 256 * (st.packet 10).val = 0 ∨
         lunix_sensor_cnt < (((st.packet 9).val + 256 * (st.packet 10).val : Nat) : Int)) :
    lunix_protocol_update_sensors lunix_sensor_cnt st lunix_sensors now =
      some lunix_sensors := by
  unfold lunix_protocol_update_sensors
  by_cases hs : (0x0B : Fin 256) = st.packet PACKET_SIGNATURE_OFFSET
  · rw [if_pos hs]
    have hc : ¬ (uint16_from_packet st.packet NODE_OFFSET > 0 ∧
        ((uint16_from_packet st.packet NODE_OFFSET : Nat) : Int) ≤ lunix_sensor_cnt) := by
      rintro ⟨h1, h2⟩
      have e : uint16_from_packet st.packet NODE_OFFSET =
          (st.packet 9).val + 256 * (st.packet 10).val := rfl
      rw [e] at h1 h2
      rcases h with h | h | h
      · exact h hs.symm
      · omega
      · omega
    simp only []
    rw [if_neg hc]
  · rw [if_neg hs]

/-- A frame for node 3 in a table of two records is dropped. -/
theorem dispatch_dropped_witness :
    lunix_protocol_update_sensors 2
        { zero_state with packet := fun k => (sample_frame 3 10 20 30).getD k.toNat 0 }
        [zero_sensor, zero_sensor] 77 =
      some [zero_sensor, zero_sensor] :=
  dispatch_dropped 2
    { zero_state with packet := fun k => (sample_frame 3 10 20 30).getD k.toNat 0 }
    [zero_sensor, zero_sensor] 77 (Or.inr (Or.inr (by decide)))

/-! ## The parser: bounds -/

theorem packet_store_some (packet : Int → Fin 256) (idx : Int) (v : Fin 256)
    (h0 : 0 ≤ idx) (h1 : idx < 300) :
    packet_store packet idx v = some (fun k => if k = idx then v else packet k) := by
  unfold packet_store MAX_PACKET_LEN
  rw [if_pos ⟨h0, h1⟩]

theorem Inv_pos (st : lunix_protocol_state_struct) (h : Inv st) :
    0 ≤ st.pos ∧ st.pos ≤ 265 := by
  obtain ⟨h1, h2, h3, h4⟩ := h
  rcases h4 with h | h | h | h | h | h | h | h | h <;> omega

theorem Inv_stored (st : lunix_protocol_state_struct) (p : Int → Fin 256) (n : Fin 256)
    (h : Inv st) (hlt : st.bytes_read < st.bytes_to_read) :
    Inv { stored st p with next_is_special := n } ∧ Inv (stored st p) := by
  have key : Inv_fields st.state (st.bytes_read + 1) st.bytes_to_read (st.pos + 1) := by
    obtain ⟨h1, h2, h3, h4⟩ := h
    refine ⟨by omega, by omega, by omega, ?_⟩
    rcases h4 with ⟨a, b, c⟩ | ⟨a, b, c⟩ | ⟨a, b, c⟩ | ⟨a, b, c⟩ | ⟨a, b, c⟩ | ⟨a, b, c⟩ |
      ⟨a, b, c⟩ | ⟨a, b, c⟩ | ⟨a, b, c⟩
    · exact Or.inl ⟨a, b, by omega⟩
    · exact Or.inr (Or.inl ⟨a, b, by omega⟩)
    · exact Or.inr (Or.inr (Or.inl ⟨a, b, by omega⟩))
    · exact Or.inr (Or.inr (Or.inr (Or.inl ⟨a, b, by omega⟩)))
    · exact Or.inr (Or.inr (Or.inr (Or.inr (Or.inl ⟨a, b, by omega⟩))))
    · exact Or.inr (Or.inr (Or.inr (Or.inr (Or.inr (Or.inl ⟨a, b, by omega⟩)))))
    · exact Or.inr (Or.inr (Or.inr (Or.inr (Or.inr (Or.inr (Or.inl ⟨a, b, by omega⟩))))))
    · exact Or.inr (Or.inr (Or.inr (Or.inr (Or.inr (Or.inr (Or.inr
        (Or.inl ⟨a, b, by omega⟩)))))))
    · exact Or.inr (Or.inr (Or.inr (Or.inr (Or.inr (Or.inr (Or.inr
        (Or.inr ⟨a, b, by omega⟩)))))))
  exact ⟨key, key⟩

theorem parse_state_inv (LUNIX_DEBUG : Bool) (use_specials : Int) (data : List (Fin 256)) :
    ∀ (iter : Nat) (st : lunix_protocol_state_struct), Inv st →
      ∃ r st' rest, lunix_protocol_parse_state LUNIX_DEBUG use_specials iter st data =
          some (r, st', rest) ∧ Inv st' ∧ st'.state = st.state ∧
          (r = 1 → st'.bytes_read = st'.bytes_to_read) := by
  induction data with
  | nil =>
    intro iter st h
    refine ⟨_, st, [], rfl, h, rfl, ?_⟩
    intro hr
    by_cases e : st.bytes_read = st.bytes_to_read
    · exact e
    · rw [if_neg e] at hr
      cases hr
  | cons d rest ih =>
    intro iter st h
    have hp := Inv_pos st h
    unfold lunix_protocol_parse_state
    by_cases hlt : st.bytes_read < st.bytes_to_read
    · rw [if_pos hlt]
      have hpos : st.pos < 300 := by omega
      have hne : ¬ st.pos = MAX_PACKET_LEN := by unfold MAX_PACKET_LEN; omega
      by_cases hd : LUNIX_DEBUG = true ∧ iter + 1 = 50
      · rw [if_pos hd]
        exact ⟨_, st, _, rfl, h, rfl, by intro hr; cases hr⟩
      · rw [if_neg hd, if_neg hne]
        have hs := fun p n => Inv_stored st p n h hlt
        by_cases hu : use_specials = 1
        · rw [if_pos hu]
          by_cases hn : st.next_is_special ≠ 0
          · rw [if_pos hn]
            by_cases h7e : (0x7E : Fin 256) = st.next_is_special
            · have h7d : ¬ (0x7D : Fin 256) = st.next_is_special := by
                rw [← h7e]; decide
              simp only [if_pos h7e, if_neg h7d, packet_store_some _ _ _ hp.1 hpos]
              obtain ⟨r, st', rest', e, hi, hst, hr⟩ := ih (iter + 1) _ (hs _ 0).1
              exact ⟨r, st', rest', e, hi, hst, hr⟩
            · by_cases h7d : (0x7D : Fin 256) = st.next_is_special
              · simp only [if_neg h7e, if_pos h7d, packet_store_some _ _ _ hp.1 hpos]
                obtain ⟨r, st', rest', e, hi, hst, hr⟩ := ih (iter + 1) _ (hs _ 0).1
                exact ⟨r, st', rest', e, hi, hst, hr⟩
              · simp only [if_neg h7e, if_neg h7d]
                obtain ⟨r, st', rest', e, hi, hst, hr⟩ := ih (iter + 1) _ (hs _ 0).1
                exact ⟨r, st', rest', e, hi, hst, hr⟩
          · rw [if_neg hn]
            by_cases hsp : (0x7E : Fin 256) = d ∨ (0x7D : Fin 256) = d
            · rw [if_pos hsp]
              have hi' : Inv { st with next_is_special := d } := h
              obtain ⟨r, st', rest', e, hi, hst, hr⟩ := ih (iter + 1) _ hi'
              exact ⟨r, st', rest', e, hi, hst, hr⟩
            · rw [if_neg hsp, packet_store_some _ _ _ hp.1 hpos]
              obtain ⟨r, st', rest', e, hi, hst, hr⟩ := ih (iter + 1) _ (hs _ 0).2
              exact ⟨r, st', rest', e, hi, hst, hr⟩
        · rw [if_neg hu, packet_store_some _ _ _ hp.1 hpos]
          obtain ⟨r, st', rest', e, hi, hst, hr⟩ := ih (iter + 1) _ (hs _ 0).2
          exact ⟨r, st', rest', e, hi, hst, hr⟩
    · rw [if_neg hlt]
      refine ⟨_, st, _, rfl, h, rfl, ?_⟩
      intro hr
      by_cases e : st.bytes_read = st.bytes_to_read
      · exact e
      · rw [if_neg e] at hr
        cases hr

theorem update_sensors_total (lunix_sensor_cnt : Int) (st : lunix_protocol_state_struct)
    (lunix_sensors : List lunix_sensor_struct) (now : Nat)
    (hlen : (lunix_sensors.length : Int) = lunix_sensor_cnt) :
    ∃ sensors, lunix_protocol_update_sensors lunix_sensor_cnt st lunix_sensors now =
        some sensors ∧ sensors.length = lunix_sensors.length := by
  unfold lunix_protocol_update_sensors
  by_cases hs : (0x0B : Fin 256) = st.packet PACKET_SIGNATURE_OFFSET
  · rw [if_pos hs]
    simp only []
    by_cases hc : uint16_from_packet st.packet NODE_OFFSET > 0 ∧
        ((uint16_from_packet st.packet NODE_OFFSET : Nat) : Int) ≤ lunix_sensor_cnt
    · rw [if_pos hc]
      have hidx : uint16_from_packet st.packet NODE_OFFSET - 1 < lunix_sensors.length := by
        omega
      rw [List.get?_eq_get hidx]
      exact ⟨_, rfl, List.length_set ..⟩
    · rw [if_neg hc]
      exact ⟨_, rfl, rfl⟩
  · rw [if_neg hs]
    exact ⟨_, rfl, rfl⟩

theorem phase_inv (LUNIX_DEBUG : Bool) (tag use_specials : Int)
    (done : lunix_protocol_state_struct → Option lunix_protocol_state_struct)
    (hdone : ∀ s, Inv s → s.state = tag → s.bytes_read = s.bytes_to_read →
      ∃ s', done s = some s' ∧ Inv s')
    (c : lunix_protocol_state_struct × List (Fin 256)) (h : Inv c.1) :
    ∃ c', phase LUNIX_DEBUG tag use_specials done c = some c' ∧ Inv c'.1 := by
  unfold phase
  by_cases ht : c.1.state = tag
  · rw [if_pos ht]
    obtain ⟨r, st', rest, e, hi, hst, hr⟩ :=
      parse_state_inv LUNIX_DEBUG use_specials c.2 0 c.1 h
    rw [e]
    by_cases h1 : r = 1
    · obtain ⟨s', es, hs'⟩ := hdone st' hi (hst.trans ht) (hr h1)
      simp only [if_pos h1, es]
      exact ⟨_, rfl, hs'⟩
    · simp only [if_neg h1]
      exact ⟨_, rfl, hi⟩
  · rw [if_neg ht]
    exact ⟨c, rfl, h⟩

theorem Inv_set_state (s : lunix_protocol_state_struct) (tag btr : Int)
    (h : Inv_fields tag 0 btr s.pos) : Inv (set_state s tag btr 0) := h

theorem received_buf_fields_inv (LUNIX_DEBUG : Bool) (st : lunix_protocol_state_struct)
    (buf : List (Fin 256)) (h : Inv st) :
    ∃ c, received_buf_fields LUNIX_DEBUG st buf = some c ∧ Inv c.1 := by
  unfold received_buf_fields
  obtain ⟨c1, e1, h1⟩ := phase_inv LUNIX_DEBUG SEEKING_START_BYTE 0
    (fun s => some (set_state s SEEKING_PACKET_TYPE 1 0))
    (fun s hs ht hb => ⟨_, rfl, Inv_set_state s _ _ (by
      have hp := Inv_pos s hs
      obtain ⟨a1, a2, a3, a4⟩ := hs
      unfold SEEKING_START_BYTE at ht
      refine ⟨le_refl _, by omega, hp.1, Or.inr (Or.inl ⟨rfl, rfl, ?_⟩)⟩
      rcases a4 with a | a | a | a | a | a | a | a | a <;> omega)⟩) (st, buf) h
  obtain ⟨c2, e2, h2⟩ := phase_inv LUNIX_DEBUG SEEKING_PACKET_TYPE 0
    (fun s => some (set_state s SEEKING_DESTINATION_ADDRESS 2 0))
    (fun s hs ht hb => ⟨_, rfl, Inv_set_state s _ _ (by
      have hp := Inv_pos s hs
      obtain ⟨a1, a2, a3, a4⟩ := hs
      unfold SEEKING_PACKET_TYPE at ht
      refine ⟨le_refl _, by omega, hp.1, Or.inr (Or.inr (Or.inl ⟨rfl, rfl, ?_⟩))⟩
      rcases a4 with a | a | a | a | a | a | a | a | a <;> omega)⟩) c1 h1
  obtain ⟨c3, e3, h3⟩ := phase_inv LUNIX_DEBUG SEEKING_DESTINATION_ADDRESS 1
    (fun s => some (set_state s SEEKING_AM_TYPE 1 0))
    (fun s hs ht hb => ⟨_, rfl, Inv_set_state s _ _ (by
      have hp := Inv_pos s hs
      obtain ⟨a1, a2, a3, a4⟩ := hs
      unfold SEEKING_DESTINATION_ADDRESS at ht
      refine ⟨le_refl _, by omega, hp.1, Or.inr (Or.inr (Or.inr (Or.inl ⟨rfl, rfl, ?_⟩)))⟩
      rcases a4 with a | a | a | a | a | a | a | a | a <;> omega)⟩) c2 h2
  obtain ⟨c4, e4, h4⟩ := phase_inv LUNIX_DEBUG SEEKING_AM_TYPE 1
    (fun s => some (set_state s SEEKING_AM_GROUP 1 0))
    (fun s hs ht hb => ⟨_, rfl, Inv_set_state s _ _ (by
      have hp := Inv_pos s hs
      obtain ⟨a1, a2, a3, a4⟩ := hs
      unfold SEEKING_AM_TYPE at ht
      refine ⟨le_refl _, by omega, hp.1,
        Or.inr (Or.inr (Or.inr (Or.inr (Or.inl ⟨rfl, rfl, ?_⟩))))⟩
      rcases a4 with a | a | a | a | a | a | a | a | a <;> omega)⟩) c3 h3
  obtain ⟨c5, e5, h5⟩ := phase_inv LUNIX_DEBUG SEEKING_AM_GROUP 1
    (fun s => some (set_state s SEEKING_PAYLOAD_LENGTH 1 0))
    (fun s hs ht hb => ⟨_, rfl, Inv_set_state s _ _ (by
      have hp := Inv_pos s hs
      obtain ⟨a1, a2, a3, a4⟩ := hs
      unfold SEEKING_AM_GROUP at ht
      refine ⟨le_refl _, by omega, hp.1,
        Or.inr (Or.inr (Or.inr (Or.inr (Or.inr (Or.inl ⟨rfl, rfl, ?_⟩)))))⟩
      rcases a4 with a | a | a | a | a | a | a | a | a <;> omega)⟩) c4 h4
  obtain ⟨c6, e6, h6⟩ := phase_inv LUNIX_DEBUG SEEKING_PAYLOAD_LENGTH 1 payload_length_done
    (fun s hs ht hb => by
      have hp := Inv_pos s hs
      obtain ⟨a1, a2, a3, a4⟩ := hs
      unfold SEEKING_PAYLOAD_LENGTH at ht
      have hpos : 1 ≤ s.pos ∧ s.pos ≤ 7 := by
        rcases a4 with a | a | a | a | a | a | a | a | a <;> omega
      have hl : packet_load s.packet (s.pos - 1) = some (s.packet (s.pos - 1)) := by
        unfold packet_load MAX_PACKET_LEN
        rw [if_pos ⟨by omega, by omega⟩]
      refine ⟨set_state s SEEKING_PAYLOAD ((s.packet (s.pos - 1)).val : Int) 0, ?_, ?_⟩
      · unfold payload_length_done
        rw [hl]
        rfl
      · have hv := (s.packet (s.pos - 1)).isLt
        exact Inv_set_state s _ _ ⟨le_refl _, by omega, hp.1,
          Or.inr (Or.inr (Or.inr (Or.inr (Or.inr (Or.inr (Or.inl
            ⟨rfl, by omega, by omega⟩))))))⟩) c5 h5
  obtain ⟨c7, e7, h7⟩ := phase_inv LUNIX_DEBUG SEEKING_PAYLOAD 1
    (fun s => some (set_state s SEEKING_CRC 2 0))
    (fun s hs ht hb => ⟨_, rfl, Inv_set_state s _ _ (by
      have hp := Inv_pos s hs
      obtain ⟨a1, a2, a3, a4⟩ := hs
      unfold SEEKING_PAYLOAD at ht
      refine ⟨le_refl _, by omega, hp.1,
        Or.inr (Or.inr (Or.inr (Or.inr (Or.inr (Or.inr (Or.inr (Or.inl ⟨rfl, rfl, ?_⟩)))))))⟩
      rcases a4 with a | a | a | a | a | a | a | a | a <;> omega)⟩) c6 h6
  obtain ⟨c8, e8, h8⟩ := phase_inv LUNIX_DEBUG SEEKING_CRC 1
    (fun s => some (set_state s SEEKING_END_BYTE 1 0))
    (fun s hs ht hb => ⟨_, rfl, Inv_set_state s _ _ (by
      have hp := Inv_pos s hs
      obtain ⟨a1, a2, a3, a4⟩ := hs
      unfold SEEKING_CRC at ht
      refine ⟨le_refl _, by omega, hp.1,
        Or.inr (Or.inr (Or.inr (Or.inr (Or.inr (Or.inr (Or.inr (Or.inr ⟨rfl, rfl, ?_⟩)))))))⟩
      rcases a4 with a | a | a | a | a | a | a | a | a <;> omega)⟩) c7 h7
  rw [e1, Option.some_bind, e2, Option.some_bind, e3, Option.some_bind, e4, Option.some_bind,
    e5, Option.some_bind, e6, Option.some_bind, e7, Option.some_bind, e8]
  exact ⟨c8, rfl, h8⟩

theorem Inv_init (s : lunix_protocol_state_struct) : Inv (lunix_protocol_init s) :=
  ⟨le_refl _, show (0 : Int) ≤ 1 by decide, le_refl _, Or.inl ⟨rfl, rfl, le_refl _⟩⟩

theorem received_buf_inv (LUNIX_DEBUG : Bool) (lunix_sensor_cnt : Int) (now : Nat)
    (st : lunix_protocol_state_struct) (lunix_sensors : List lunix_sensor_struct)
    (buf : List (Fin 256)) (h : Inv st)
    (hlen : (lunix_sensors.length : Int) = lunix_sensor_cnt) :
    ∃ r, lunix_protocol_received_buf LUNIX_DEBUG lunix_sensor_cnt now st lunix_sensors buf =
        some r ∧ Inv r.state ∧ (r.lunix_sensors.length : Int) = lunix_sensor_cnt := by
  unfold lunix_protocol_received_buf
  obtain ⟨⟨st8, rest8⟩, e8, h8⟩ := received_buf_fields_inv LUNIX_DEBUG st buf h
  rw [e8]
  simp only []
  by_cases ht : st8.state = SEEKING_END_BYTE
  · rw [if_pos ht]
    obtain ⟨r, st9, rest9, e9, h9, -, -⟩ := parse_state_inv LUNIX_DEBUG 0 rest8 0 st8 h8
    rw [e9]
    simp only []
    by_cases h1 : r = 1
    · rw [if_pos h1]
      obtain ⟨sn, es, hsn⟩ := update_sensors_total lunix_sensor_cnt st9 lunix_sensors now hlen
      rw [es]
      exact ⟨_, rfl, Inv_init st9, by rw [← hlen]; exact congrArg Nat.cast hsn⟩
    · rw [if_neg h1]
      exact ⟨_, rfl, h9, hlen⟩
  · rw [if_neg ht]
    exact ⟨_, rfl, h8, hlen⟩

theorem feed_inv (LUNIX_DEBUG : Bool) (lunix_sensor_cnt : Int)
    (chunks : List (Nat × List (Fin 256))) :
    ∀ (st : lunix_protocol_state_struct) (lunix_sensors : List lunix_sensor_struct),
      Inv st → (lunix_sensors.length : Int) = lunix_sensor_cnt →
      ∃ st' sensors ds, feed LUNIX_DEBUG lunix_sensor_cnt st lunix_sensors chunks =
          some (st', sensors, ds) ∧ Inv st' ∧ (sensors.length : Int) = lunix_sensor_cnt := by
  induction chunks with
  | nil =>
    intro st sn h hlen
    exact ⟨st, sn, [], rfl, h, hlen⟩
  | cons c chunks ih =>
    intro st sn h hlen
    obtain ⟨now, buf⟩ := c
    obtain ⟨r, er, hr, hl⟩ := received_buf_inv LUNIX_DEBUG lunix_sensor_cnt now st sn buf h hlen
    obtain ⟨st', sn', ds, ef, hf, hl'⟩ := ih r.state r.lunix_sensors hr hl
    unfold feed
    rw [er]
    simp only []
    rw [ef]
    exact ⟨st', sn', _, rfl, hf, hl'⟩

/-- C9: from `lunix_protocol_init`, any sequence of calls of
`lunix_protocol_received_buf` on arbitrary buffers runs without a fault (a
store `packet[pos] = ..` with `pos` outside `0 .. 299`, or a read of
`packet[pos - 1]` outside the array, would make the result `none`), and in
the state reached `0 ≤ pos ≤ MAX_PACKET_LEN`; in fact `pos ≤ 265`. -/
theorem buffer_bound (LUNIX_DEBUG : Bool) (lunix_sensor_cnt : Int)
    (s0 : lunix_protocol_state_struct) (lunix_sensors : List lunix_sensor_struct)
    (chunks : List (Nat × List (Fin 256)))
    (hlen : (lunix_sensors.length : Int) = lunix_sensor_cnt) :
    ∃ st sensors ds,
      feed LUNIX_DEBUG lunix_sensor_cnt (lunix_protocol_init s0) lunix_sensors chunks =
        some (st, sensors, ds) ∧
      0 ≤ st.pos ∧ st.pos ≤ MAX_PACKET_LEN ∧ st.pos ≤ 265 := by
  obtain ⟨st, sn, ds, e, hi, -⟩ :=
    feed_inv LUNIX_DEBUG lunix_sensor_cnt chunks (lunix_protocol_init s0) lunix_sensors
      (Inv_init s0) hlen
  have hp := Inv_pos st hi
  refine ⟨st, sn, ds, e, hp.1, ?_, hp.2⟩
  unfold MAX_PACKET_LEN
  omega

/-- Three buffers cutting a frame inside its escaped body, fed to a table of one record. -/
theorem buffer_bound_witness :
    ∃ st sensors ds,
      feed false 1 (lunix_protocol_init zero_state) [zero_sensor]
        [(10, sample.wire.take 5), (11, (sample.wire.drop 5).take 20),
         (12, sample.wire.drop 25)] = some (st, sensors, ds) ∧
      0 ≤ st.pos ∧ st.pos ≤ MAX_PACKET_LEN ∧ st.pos ≤ 265 :=
  buffer_bound false 1 zero_state [zero_sensor] _ rfl

/-! ## Phases that are skipped -/

theorem phase_skip (LUNIX_DEBUG : Bool) (tag use_specials : Int)
    (done : lunix_protocol_state_struct → Option lunix_protocol_state_struct)
    (c : lunix_protocol_state_struct × List (Fin 256)) (h : c.1.state ≠ tag) :
    phase LUNIX_DEBUG tag use_specials done c = some c := by
  unfold phase
  rw [if_neg h]

theorem fields_skip (LUNIX_DEBUG : Bool) (st : lunix_protocol_state_struct)
    (buf : List (Fin 256)) (htag : st.state = SEEKING_END_BYTE) :
    received_buf_fields LUNIX_DEBUG st buf = some (st, buf) := by
  have hk := fun tag us done (h : st.state ≠ tag) =>
    phase_skip LUNIX_DEBUG tag us done (st, buf) h
  unfold received_buf_fields
  rw [hk, Option.some_bind, hk, Option.some_bind, hk, Option.some_bind, hk,
      Option.some_bind, hk, Option.some_bind, hk, Option.some_bind, hk,
      Option.some_bind, hk]
  all_goals (rw [htag]; decide)


/-! ## The START and END bytes -/

theorem parse_state_nil (LUNIX_DEBUG : Bool) (use_specials : Int) (iter : Nat)
    (st : lunix_protocol_state_struct) :
    lunix_protocol_parse_state LUNIX_DEBUG use_specials iter st [] =
      some (if st.bytes_read = st.bytes_to_read then 1 else 0, st, []) := by
  unfold lunix_protocol_parse_state
  rfl

/-- With `use_specials == 0`, a field of one byte takes the next byte as it is. -/
theorem parse_state_raw_byte (LUNIX_DEBUG : Bool) (st : lunix_protocol_state_struct)
    (b : Fin 256) (rest : List (Fin 256))
    (hbr : st.bytes_read = 0) (hbtr : st.bytes_to_read = 1)
    (hpos : 0 ≤ st.pos ∧ st.pos < MAX_PACKET_LEN) :
    lunix_protocol_parse_state LUNIX_DEBUG 0 0 st (b :: rest) =
      some (1, stored st (fun k => if k = st.pos then b else st.packet k), rest) := by
  have hd : ¬ (LUNIX_DEBUG = true ∧ 0 + 1 = 50) := by
    rintro ⟨-, h⟩
    omega
  have hlt : st.bytes_read < st.bytes_to_read := by omega
  have hne : ¬ st.pos = MAX_PACKET_LEN := by omega
  have hst : packet_store st.packet st.pos b =
      some (fun k => if k = st.pos then b else st.packet k) := by
    unfold packet_store
    rw [if_pos hpos]
  have hfin : ∀ l : List (Fin 256),
      lunix_protocol_parse_state LUNIX_DEBUG 0 (0 + 1)
        (stored st (fun k => if k = st.pos then b else st.packet k)) l =
      some (1, stored st (fun k => if k = st.pos then b else st.packet k), l) := by
    intro l
    have e : (stored st (fun k => if k = st.pos then b else st.packet k)).bytes_read =
        (stored st (fun k => if k = st.pos then b else st.packet k)).bytes_to_read := by
      show st.bytes_read + 1 = st.bytes_to_read
      omega
    cases l with
    | nil => rw [parse_state_nil, if_pos e]
    | cons x l =>
      unfold lunix_protocol_parse_state
      rw [if_neg (by rw [e]; exact lt_irrefl _), if_pos e]
  unfold lunix_protocol_parse_state
  rw [if_pos hlt, if_neg hd, if_neg hne, if_neg (by decide), hst]
  exact hfin rest

theorem phase_stall (LUNIX_DEBUG : Bool) (tag use_specials : Int)
    (done : lunix_protocol_state_struct → Option lunix_protocol_state_struct)
    (st : lunix_protocol_state_struct) (ht : st.state = tag)
    (hne : st.bytes_read ≠ st.bytes_to_read) :
    phase LUNIX_DEBUG tag use_specials done (st, []) = some (st, []) := by
  unfold phase
  rw [if_pos ht, parse_state_nil, if_neg hne]
  rfl

/-- C10, as stated, fails: the byte 0x00 fed to a parser in SEEK_START
moves it to SEEKING_PACKET_TYPE, and a frame whose START and END bytes are
0x00 is handed to the dispatcher and updates the record of its node. -/
theorem literal_markers_counterexample :
    ((lunix_protocol_received_buf false 1 0 (lunix_protocol_init zero_state)
        [zero_sensor] [0x00]).map (fun r => r.state.state))
      = some SEEKING_PACKET_TYPE ∧
    ((lunix_protocol_received_buf false 1 5 (lunix_protocol_init zero_state) [zero_sensor]
        [0x00, 0x42, 0xFF, 0xFF, 0x0B, 0x01, 17,
         0, 0, 1, 0, 0, 0, 0, 0, 0, 0, 0, 10, 0, 20, 0, 30, 0,
         0xAA, 0xBB, 0x00]).map (fun r => (r.dispatched.isSome, r.lunix_sensors)))
      = some (true, [lunix_sensor_update zero_sensor 10 20 30 5]) := by
  constructor <;> decide

/-- C10, amended: the START and END fields are taken verbatim, without
un-escaping and without a comparison with 0x7E.  For every byte `b`, a
parser in SEEK_START that is fed `b` stores it and moves to SEEK_TYPE; a
parser in SEEK_END that is fed `b` stores it, hands the frame to the
dispatcher and is reset to SEEK_START. -/
theorem markers_taken_verbatim (LUNIX_DEBUG : Bool) (lunix_sensor_cnt : Int) (now : Nat)
    (st : lunix_protocol_state_struct) (lunix_sensors : List lunix_sensor_struct)
    (b : Fin 256)
    (hbr : st.bytes_read = 0) (hbtr : st.bytes_to_read = 1)
    (hpos : 0 ≤ st.pos ∧ st.pos < MAX_PACKET_LEN)
    (hlen : (lunix_sensors.length : Int) = lunix_sensor_cnt) :
    (st.state = SEEKING_START_BYTE →
      ∃ r, lunix_protocol_received_buf LUNIX_DEBUG lunix_sensor_cnt now st lunix_sensors [b] =
          some r ∧
        r.state = set_state (stored st (fun k => if k = st.pos then b else st.packet k))
          SEEKING_PACKET_TYPE 1 0 ∧
        r.lunix_sensors = lunix_sensors ∧ r.dispatched = none) ∧
    (st.state = SEEKING_END_BYTE →
      ∃ r sensors, lunix_protocol_received_buf LUNIX_DEBUG lunix_sensor_cnt now st
          lunix_sensors [b] = some r ∧
        r.dispatched = some (stored st (fun k => if k = st.pos then b else st.packet k)) ∧
        lunix_protocol_update_sensors lunix_sensor_cnt
          (stored st (fun k => if k = st.pos then b else st.packet k)) lunix_sensors now =
          some sensors ∧
        r.lunix_sensors = sensors ∧
        r.state.state = SEEKING_START_BYTE ∧ r.state.bytes_to_read = 1 ∧
        r.state.bytes_read = 0 ∧ r.state.pos = 0 ∧ r.state.next_is_special = 0) := by
  constructor
  · intro htag
    have h1 : phase LUNIX_DEBUG SEEKING_START_BYTE 0
        (fun s => some (set_state s SEEKING_PACKET_TYPE 1 0)) (st, [b]) =
        some (set_state (stored st (fun k => if k = st.pos then b else st.packet k))
          SEEKING_PACKET_TYPE 1 0, []) := by
      unfold phase
      rw [if_pos htag, parse_state_raw_byte LUNIX_DEBUG st b [] hbr hbtr hpos]
      rfl
    have h2 : phase LUNIX_DEBUG SEEKING_PACKET_TYPE 0
        (fun s => some (set_state s SEEKING_DESTINATION_ADDRESS 2 0))
        (set_state (stored st (fun k => if k = st.pos then b else st.packet k))
          SEEKING_PACKET_TYPE 1 0, []) =
        some (set_state (stored st (fun k => if k = st.pos then b else st.packet k))
          SEEKING_PACKET_TYPE 1 0, []) := by
      exact phase_stall LUNIX_DEBUG _ _ _ _ rfl (show (0 : Int) ≠ 1 by decide)
    have hk := fun tag us done (h : SEEKING_PACKET_TYPE ≠ tag) =>
      phase_skip LUNIX_DEBUG tag us done
        (set_state (stored st (fun k => if k = st.pos then b else st.packet k))
          SEEKING_PACKET_TYPE 1 0, []) h
    have hf : received_buf_fields LUNIX_DEBUG st [b] =
        some (set_state (stored st (fun k => if k = st.pos then b else st.packet k))
          SEEKING_PACKET_TYPE 1 0, []) := by
      unfold received_buf_fields
      rw [h1, Option.some_bind, h2, Option.some_bind, hk, Option.some_bind, hk,
        Option.some_bind, hk, Option.some_bind, hk, Option.some_bind, hk, Option.some_bind, hk]
      all_goals decide
    unfold lunix_protocol_received_buf
    rw [hf]
    exact ⟨_, rfl, rfl, rfl, rfl⟩
  · intro htag
    obtain ⟨sensors, es, -⟩ := update_sensors_total lunix_sensor_cnt
      (stored st (fun k => if k = st.pos then b else st.packet k)) lunix_sensors now hlen
    unfold lunix_protocol_received_buf
    rw [fields_skip LUNIX_DEBUG st _ htag]
    simp only [if_pos htag, parse_state_raw_byte LUNIX_DEBUG st b [] hbr hbtr hpos, es,
      if_true]
    exact ⟨_, sensors, rfl, rfl, rfl, rfl, rfl, rfl, rfl, rfl, rfl⟩

/-- The byte 0x55 fed to the initial parser. -/
theorem markers_taken_verbatim_witness :
    ∃ r, lunix_protocol_received_buf false 1 0 (lunix_protocol_init zero_state)
        [zero_sensor] [0x55] = some r ∧
      r.state.state = SEEKING_PACKET_TYPE ∧ r.state.packet 0 = 0x55 := by
  obtain ⟨r, e, hs, -, -⟩ :=
    (markers_taken_verbatim false 1 0 (lunix_protocol_init zero_state) [zero_sensor] 0x55
      rfl rfl (by decide) rfl).1 rfl
  exact ⟨r, e, by rw [hs]; rfl, by rw [hs]; rfl⟩

/-! ## Un-escaping a field -/

set_option maxRecDepth 8000 in
theorem xor_twice (b : Fin 256) : (b ^^^ 0x20) ^^^ 0x20 = b := by
  revert b
  decide

theorem parse_state_done (LUNIX_DEBUG : Bool) (use_specials : Int) (iter : Nat)
    (st : lunix_protocol_state_struct) (l : List (Fin 256))
    (e : st.bytes_read = st.bytes_to_read) :
    lunix_protocol_parse_state LUNIX_DEBUG use_specials iter st l = some (1, st, l) := by
  cases l with
  | nil => rw [parse_state_nil, if_pos e]
  | cons x l =>
    unfold lunix_protocol_parse_state
    rw [if_neg (by rw [e]; exact lt_irrefl _), if_pos e]

theorem step_plain (iter : Nat) (st : lunix_protocol_state_struct) (d : Fin 256)
    (rest : List (Fin 256)) (hlt : st.bytes_read < st.bytes_to_read)
    (hpos : 0 ≤ st.pos ∧ st.pos < MAX_PACKET_LEN) (hn : st.next_is_special = 0)
    (hd : ¬ ((0x7E : Fin 256) = d ∨ (0x7D : Fin 256) = d)) :
    lunix_protocol_parse_state false 1 iter st (d :: rest) =
      lunix_protocol_parse_state false 1 (iter + 1)
        (stored st (fun k => if k = st.pos then d else st.packet k)) rest := by
  have hst : packet_store st.packet st.pos d =
      some (fun k => if k = st.pos then d else st.packet k) := by
    unfold packet_store
    rw [if_pos hpos]
  have hne : ¬ st.pos = MAX_PACKET_LEN := by omega
  conv_lhs => unfold lunix_protocol_parse_state
  rw [if_pos hlt, if_neg (by rintro ⟨h, -⟩; cases h), if_neg hne, if_pos rfl,
    if_neg (by rw [hn]; exact fun h => h rfl), if_neg hd, hst]

theorem step_escape (iter : Nat) (st : lunix_protocol_state_struct) (d : Fin 256)
    (rest : List (Fin 256)) (hlt : st.bytes_read < st.bytes_to_read)
    (hpos : st.pos < MAX_PACKET_LEN) (hn : st.next_is_special = 0)
    (hd : (0x7E : Fin 256) = d ∨ (0x7D : Fin 256) = d) :
    lunix_protocol_parse_state false 1 iter st (d :: rest) =
      lunix_protocol_parse_state false 1 (iter + 1) { st with next_is_special := d } rest := by
  have hne : ¬ st.pos = MAX_PACKET_LEN := by omega
  conv_lhs => unfold lunix_protocol_parse_state
  rw [if_pos hlt, if_neg (by rintro ⟨h, -⟩; cases h), if_neg hne, if_pos rfl,
    if_neg (by rw [hn]; exact fun h => h rfl), if_pos hd]

theorem step_escaped_7d (iter : Nat) (st : lunix_protocol_state_struct) (d : Fin 256)
    (rest : List (Fin 256)) (hlt : st.bytes_read < st.bytes_to_read)
    (hpos : 0 ≤ st.pos ∧ st.pos < MAX_PACKET_LEN) (hn : st.next_is_special = 0x7D) :
    lunix_protocol_parse_state false 1 iter st (d :: rest) =
      lunix_protocol_parse_state false 1 (iter + 1)
        { stored st (fun k => if k = st.pos then d ^^^ 0x20 else st.packet k) with
          next_is_special := 0 } rest := by
  have hst : packet_store st.packet st.pos (d ^^^ 0x20) =
      some (fun k => if k = st.pos then d ^^^ 0x20 else st.packet k) := by
    unfold packet_store
    rw [if_pos hpos]
  have hne : ¬ st.pos = MAX_PACKET_LEN := by omega
  conv_lhs => unfold lunix_protocol_parse_state
  rw [if_pos hlt, if_neg (by rintro ⟨h, -⟩; cases h), if_neg hne, if_pos rfl,
    if_pos (by rw [hn]; decide)]
  simp only [hn, if_neg (show ¬ (0x7E : Fin 256) = 0x7D by decide), if_true, hst]

theorem Holds_push (st st' : lunix_protocol_state_struct) (l : List (Fin 256)) (b : Fin 256)
    (h : Holds st l) (hp : st'.pos = st.pos + 1)
    (hk : st'.packet = fun k => if k = st.pos then b else st.packet k) :
    Holds st' (l ++ [b]) := by
  obtain ⟨h1, h2⟩ := h
  refine ⟨?_, ?_⟩
  · rw [hp, h1, List.length_append]
    simp
  · intro k hk'
    rw [hk]
    rw [List.length_append, List.length_singleton] at hk'
    by_cases e : k = l.length
    · subst e
      have : ((l.length : Nat) : Int) = st.pos := h1.symm
      simp [this]
    · have hlt : k < l.length := by omega
      have hne : ¬ ((k : Nat) : Int) = st.pos := by rw [h1]; omega
      simp only [if_neg hne]
      rw [List.get?_eq_getElem?, List.getElem?_append_left hlt, ← List.get?_eq_getElem?]
      exact h2 k hlt

theorem escape_all_cons (b : Fin 256) (bs : List (Fin 256)) :
    escape_all (b :: bs) = escape b ++ escape_all bs := by
  simp [escape_all]

theorem escape_all_append (as bs : List (Fin 256)) :
    escape_all (as ++ bs) = escape_all as ++ escape_all bs := by
  simp [escape_all]

/-- A field of `bs.length` bytes with escape processing: from the escaped
bytes of `bs` the loop stores `bs` itself and returns 1 with the bytes after
the field left over. -/
theorem parse_state_escaped (bs : List (Fin 256)) :
    ∀ (iter : Nat) (st : lunix_protocol_state_struct) (l tail : List (Fin 256)),
      Holds st l → st.next_is_special = 0 →
      st.bytes_read + (bs.length : Int) = st.bytes_to_read →
      l.length + bs.length ≤ 300 →
      ∃ st', lunix_protocol_parse_state false 1 iter st (escape_all bs ++ tail) =
          some (1, st', tail) ∧
        Holds st' (l ++ bs) ∧ st'.state = st.state ∧ st'.next_is_special = 0 ∧
        st'.bytes_read = st.bytes_to_read ∧ st'.bytes_to_read = st.bytes_to_read := by
  induction bs with
  | nil =>
    intro iter st l tail hH hn hbr hroom
    refine ⟨st, ?_, ?_, rfl, hn, ?_, rfl⟩
    · have e : st.bytes_read = st.bytes_to_read := by simpa using hbr
      exact parse_state_done false 1 iter st _ e
    · simpa using hH
    · simpa using hbr
  | cons b bs ih =>
    intro iter st l tail hH hn hbr hroom
    rw [List.length_cons] at hbr hroom
    have hlt : st.bytes_read < st.bytes_to_read := by push_cast at hbr; omega
    have hpos : 0 ≤ st.pos ∧ st.pos < MAX_PACKET_LEN := by
      unfold MAX_PACKET_LEN
      rw [hH.1]
      omega
    rw [escape_all_cons, List.append_assoc]
    unfold escape
    by_cases hb : b = 0x7E ∨ b = 0x7D
    · rw [if_pos hb]
      show ∃ st', lunix_protocol_parse_state false 1 iter st
        (0x7D :: (b ^^^ 0x20) :: (escape_all bs ++ tail)) = _ ∧ _
      rw [step_escape iter st 0x7D _ hlt hpos.2 hn (Or.inr rfl),
        step_escaped_7d (iter + 1) { st with next_is_special := 0x7D } (b ^^^ 0x20) _ hlt hpos
          rfl, xor_twice]
      obtain ⟨st', e, hH', hs', hn', hb', hbt'⟩ := ih (iter + 1 + 1)
        { stored { st with next_is_special := 0x7D }
            (fun k => if k = st.pos then b else st.packet k) with next_is_special := 0 }
        (l ++ [b]) tail (Holds_push st _ l b hH rfl rfl) rfl
        (by show st.bytes_read + 1 + (bs.length : Int) = st.bytes_to_read
            push_cast at hbr; omega)
        (by rw [List.length_append, List.length_singleton]; omega)
      refine ⟨st', e, ?_, hs', hn', hb', hbt'⟩
      rw [List.append_assoc] at hH'
      exact hH'
    · rw [if_neg hb]
      show ∃ st', lunix_protocol_parse_state false 1 iter st
        (b :: (escape_all bs ++ tail)) = _ ∧ _
      rw [step_plain iter st b _ hlt hpos hn
        (by rintro (h | h); exact hb (Or.inl h.symm); exact hb (Or.inr h.symm))]
      obtain ⟨st', e, hH', hs', hn', hb', hbt'⟩ := ih (iter + 1)
        (stored st (fun k => if k = st.pos then b else st.packet k))
        (l ++ [b]) tail (Holds_push st _ l b hH rfl rfl) hn
        (by show st.bytes_read + 1 + (bs.length : Int) = st.bytes_to_read
            push_cast at hbr; omega)
        (by rw [List.length_append, List.length_singleton]; omega)
      refine ⟨st', e, ?_, hs', hn', hb', hbt'⟩
      rw [List.append_assoc] at hH'
      exact hH'

theorem Holds_set_state (s : lunix_protocol_state_struct) (l : List (Fin 256))
    (tag btr br : Int) (h : Holds s l) : Holds (set_state s tag btr br) l := h

theorem phase_escaped (tag tag' btr' : Int) (st : lunix_protocol_state_struct)
    (l bs tail : List (Fin 256)) (ht : st.state = tag) (hH : Holds st l)
    (hn : st.next_is_special = 0) (hbr : st.bytes_read = 0)
    (hbtr : st.bytes_to_read = (bs.length : Int)) (hroom : l.length + bs.length ≤ 300) :
    ∃ s', phase false tag 1 (fun s => some (set_state s tag' btr' 0))
        (st, escape_all bs ++ tail) = some (s', tail) ∧
      Holds s' (l ++ bs) ∧ s'.state = tag' ∧ s'.next_is_special = 0 ∧
      s'.bytes_read = 0 ∧ s'.bytes_to_read = btr' := by
  obtain ⟨st', e, hH', -, hn', -, -⟩ := parse_state_escaped bs 0 st l tail hH hn
    (by rw [hbr, hbtr]; omega) hroom
  refine ⟨set_state st' tag' btr' 0, ?_, Holds_set_state st' _ _ _ _ hH', rfl, hn', rfl, rfl⟩
  unfold phase
  rw [if_pos ht, e]
  rfl

theorem phase_raw (LUNIX_DEBUG : Bool) (tag tag' btr' : Int)
    (st : lunix_protocol_state_struct) (l : List (Fin 256)) (b : Fin 256)
    (tail : List (Fin 256)) (ht : st.state = tag) (hH : Holds st l)
    (hbr : st.bytes_read = 0) (hbtr : st.bytes_to_read = 1) (hroom : l.length < 300) :
    ∃ s', phase LUNIX_DEBUG tag 0 (fun s => some (set_state s tag' btr' 0))
        (st, b :: tail) = some (s', tail) ∧
      Holds s' (l ++ [b]) ∧ s'.state = tag' ∧ s'.next_is_special = st.next_is_special ∧
      s'.bytes_read = 0 ∧ s'.bytes_to_read = btr' := by
  have hpos : 0 ≤ st.pos ∧ st.pos < MAX_PACKET_LEN := by
    unfold MAX_PACKET_LEN
    rw [hH.1]
    omega
  refine ⟨set_state (stored st (fun k => if k = st.pos then b else st.packet k)) tag' btr' 0,
    ?_, Holds_push st _ l b hH rfl rfl, rfl, rfl, rfl, rfl⟩
  unfold phase
  rw [if_pos ht, parse_state_raw_byte LUNIX_DEBUG st b tail hbr hbtr hpos]
  rfl

theorem phase_len (st : lunix_protocol_state_struct) (l : List (Fin 256)) (len : Fin 256)
    (tail : List (Fin 256)) (ht : st.state = SEEKING_PAYLOAD_LENGTH) (hH : Holds st l)
    (hn : st.next_is_special = 0) (hbr : st.bytes_read = 0) (hbtr : st.bytes_to_read = 1)
    (hroom : l.length < 300) :
    ∃ s', phase false SEEKING_PAYLOAD_LENGTH 1 payload_length_done
        (st, escape_all [len] ++ tail) = some (s', tail) ∧
      Holds s' (l ++ [len]) ∧ s'.state = SEEKING_PAYLOAD ∧ s'.next_is_special = 0 ∧
      s'.bytes_read = 0 ∧ s'.bytes_to_read = (len.val : Int) := by
  obtain ⟨st', e, hH', -, hn', -, -⟩ := parse_state_escaped [len] 0 st l tail hH hn
    (by rw [hbr, hbtr]; rfl) (by rw [List.length_singleton]; omega)
  have hp : st'.pos - 1 = (l.length : Int) := by
    rw [hH'.1, List.length_append, List.length_singleton]
    push_cast
    omega
  have hv : st'.packet (l.length : Int) = len := by
    have := hH'.2 l.length (by rw [List.length_append, List.length_singleton]; omega)
    rw [List.get?_eq_getElem?, List.getElem?_append_right (le_refl _)] at this
    simp at this
    exact this.symm
  have hl : packet_load st'.packet (st'.pos - 1) = some len := by
    unfold packet_load MAX_PACKET_LEN
    rw [hp, if_pos ⟨by omega, by omega⟩, hv]
  refine ⟨set_state st' SEEKING_PAYLOAD (len.val : Int) 0, ?_,
    Holds_set_state st' _ _ _ _ hH', rfl, hn', rfl, rfl⟩
  unfold phase
  rw [if_pos ht, e]
  simp only [if_true, payload_length_done, hl]
  rfl

theorem Holds_range (st : lunix_protocol_state_struct) (l : List (Fin 256)) (h : Holds st l) :
    (List.range l.length).map (fun (k : Nat) => st.packet (k : Int)) = l := by
  apply List.ext_getElem?
  intro k
  by_cases hk : k < l.length
  · have := h.2 k hk
    rw [List.get?_eq_getElem?] at this
    rw [this, List.getElem?_map, List.getElem?_range hk]
    rfl
  · have hk' : l.length ≤ k := by omega
    rw [List.getElem?_eq_none hk', List.getElem?_eq_none (by simpa using hk')]

theorem wire_fields (f : frame) :
    f.wire = f.start :: f.type :: (escape_all [f.dest0, f.dest1] ++ (escape_all [f.am_type] ++
      (escape_all [f.am_group] ++ (escape_all [f.len] ++ (escape_all f.payload ++
        (escape_all [f.crc0, f.crc1] ++ [f.stop])))))) := by
  simp [frame.wire, frame.body, escape_all]

theorem bytes_fields (f : frame) :
    f.bytes = (((((((([] ++ [f.start]) ++ [f.type]) ++ [f.dest0, f.dest1]) ++ [f.am_type]) ++
      [f.am_group]) ++ [f.len]) ++ f.payload) ++ [f.crc0, f.crc1]) ++ [f.stop] := by
  simp [frame.bytes, frame.body]

/-! ## The escape round trip -/

/-- C2: the wire bytes of a frame (the bytes 0x7E and 0x7D of DEST to CRC
sent as 0x7D and the byte XOR 0x20), fed in one call to a parser in its
initial state, are handed to the dispatcher with `pos` the length of the
frame and `packet[0 .. pos)` the unescaped bytes of the frame. -/
theorem escape_round_trip (lunix_sensor_cnt : Int) (now : Nat)
    (s0 : lunix_protocol_state_struct) (lunix_sensors : List lunix_sensor_struct)
    (f : frame) (hlen : (lunix_sensors.length : Int) = lunix_sensor_cnt) :
    ∃ r d, lunix_protocol_received_buf false lunix_sensor_cnt now (lunix_protocol_init s0)
        lunix_sensors f.wire = some r ∧
      r.dispatched = some d ∧ d.pos = (f.bytes.length : Int) ∧
      (List.range f.bytes.length).map (fun (k : Nat) => d.packet (k : Int)) = f.bytes := by
  have hl := f.len_ok
  have hH0 : Holds (lunix_protocol_init s0) [] := ⟨rfl, fun k hk => absurd hk (Nat.not_lt_zero k)⟩
  obtain ⟨s1, e1, H1, t1, n1, r1, b1⟩ := phase_raw false SEEKING_START_BYTE
    SEEKING_PACKET_TYPE 1 (lunix_protocol_init s0) [] f.start
    (f.type :: (escape_all [f.dest0, f.dest1] ++ (escape_all [f.am_type] ++
      (escape_all [f.am_group] ++ (escape_all [f.len] ++ (escape_all f.payload ++
        (escape_all [f.crc0, f.crc1] ++ [f.stop]))))))) rfl hH0 rfl rfl (by simp)
  obtain ⟨s2, e2, H2, t2, n2, r2, b2⟩ := phase_raw false SEEKING_PACKET_TYPE
    SEEKING_DESTINATION_ADDRESS 2 s1 _ f.type
    (escape_all [f.dest0, f.dest1] ++ (escape_all [f.am_type] ++
      (escape_all [f.am_group] ++ (escape_all [f.len] ++ (escape_all f.payload ++
        (escape_all [f.crc0, f.crc1] ++ [f.stop])))))) t1 H1 r1 b1 (by simp)
  have n2' : s2.next_is_special = 0 := by rw [n2, n1]; rfl
  obtain ⟨s3, e3, H3, t3, n3, r3, b3⟩ := phase_escaped SEEKING_DESTINATION_ADDRESS
    SEEKING_AM_TYPE 1 s2 _ [f.dest0, f.dest1]
    (escape_all [f.am_type] ++
      (escape_all [f.am_group] ++ (escape_all [f.len] ++ (escape_all f.payload ++
        (escape_all [f.crc0, f.crc1] ++ [f.stop]))))) t2 H2 n2' r2 b2 (by simp)
  obtain ⟨s4, e4, H4, t4, n4, r4, b4⟩ := phase_escaped SEEKING_AM_TYPE
    SEEKING_AM_GROUP 1 s3 _ [f.am_type]
    (escape_all [f.am_group] ++ (escape_all [f.len] ++ (escape_all f.payload ++
        (escape_all [f.crc0, f.crc1] ++ [f.stop])))) t3 H3 n3 r3 b3 (by simp)
  obtain ⟨s5, e5, H5, t5, n5, r5, b5⟩ := phase_escaped SEEKING_AM_GROUP
    SEEKING_PAYLOAD_LENGTH 1 s4 _ [f.am_group]
    (escape_all [f.len] ++ (escape_all f.payload ++
        (escape_all [f.crc0, f.crc1] ++ [f.stop]))) t4 H4 n4 r4 b4 (by simp)
  obtain ⟨s6, e6, H6, t6, n6, r6, b6⟩ := phase_len s5 _ f.len
    (escape_all f.payload ++ (escape_all [f.crc0, f.crc1] ++ [f.stop])) t5 H5 n5 r5 b5
    (by simp)
  obtain ⟨s7, e7, H7, t7, n7, r7, b7⟩ := phase_escaped SEEKING_PAYLOAD
    SEEKING_CRC 2 s6 _ f.payload
    (escape_all [f.crc0, f.crc1] ++ [f.stop]) t6 H6 n6 r6 b6 (by simp; omega)
  obtain ⟨s8, e8, H8, t8, n8, r8, b8⟩ := phase_escaped SEEKING_CRC
    SEEKING_END_BYTE 1 s7 _ [f.crc0, f.crc1] [f.stop] t7 H7 n7 r7 b7 (by simp; omega)
  have hf : received_buf_fields false (lunix_protocol_init s0) f.wire = some (s8, [f.stop]) := by
    unfold received_buf_fields
    rw [wire_fields, e1, Option.some_bind, e2, Option.some_bind, e3, Option.some_bind, e4,
      Option.some_bind, e5, Option.some_bind, e6, Option.some_bind, e7, Option.some_bind, e8]
  have hpos8 : 0 ≤ s8.pos ∧ s8.pos < MAX_PACKET_LEN := by
    unfold MAX_PACKET_LEN
    rw [H8.1]
    simp
    omega
  have H9 : Holds (stored s8 (fun k => if k = s8.pos then f.stop else s8.packet k)) f.bytes := by
    rw [bytes_fields]
    exact Holds_push s8 _ _ f.stop H8 rfl rfl
  obtain ⟨sensors, es, -⟩ := update_sensors_total lunix_sensor_cnt
    (stored s8 (fun k => if k = s8.pos then f.stop else s8.packet k)) lunix_sensors now hlen
  refine ⟨{ state := set_state
              { stored s8 (fun k => if k = s8.pos then f.stop else s8.packet k) with
                pos := 0, next_is_special := 0 } SEEKING_START_BYTE 1 0,
            lunix_sensors := sensors,
            dispatched := some (stored s8 (fun k => if k = s8.pos then f.stop else s8.packet k)) },
    stored s8 (fun k => if k = s8.pos then f.stop else s8.packet k), ?_, rfl, H9.1,
    Holds_range _ _ H9⟩
  unfold lunix_protocol_received_buf
  rw [hf]
  simp only [if_pos t8, parse_state_raw_byte false s8 f.stop [] r8 b8 hpos8, es, if_true]

/-- The frame `sample`, with 0x7E and 0x7D in DEST, AM_GROUP, payload and CRC. -/
theorem escape_round_trip_witness :
    ∃ r d, lunix_protocol_received_buf false 1 0 (lunix_protocol_init zero_state)
        [zero_sensor] sample.wire = some r ∧
      r.dispatched = some d ∧ d.pos = (sample.bytes.length : Int) ∧
      (List.range sample.bytes.length).map (fun (k : Nat) => d.packet (k : Int)) =
        sample.bytes :=
  escape_round_trip 1 0 zero_state [zero_sensor] sample rfl

/-! ## Chunk boundaries -/

/-- C1: two frames, for node 1 and for node 2, in one buffer: the call
handles the first frame and drops the bytes after its END byte, so that
one frame is dispatched and the record of node 2 stays as it was; the same
bytes fed as two buffers, one frame each, dispatch both frames and update
both records. -/
theorem two_frames_in_one_call :
    ((feed false 2 (lunix_protocol_init zero_state) [zero_sensor, zero_sensor]
        [(100, sample_frame 1 10 20 30 ++ sample_frame 2 11 21 31)]).map
      (fun r => (r.1.state, r.1.pos, r.2.1, r.2.2.length)))
      = some (SEEKING_START_BYTE, 0,
          [lunix_sensor_update zero_sensor 10 20 30 100, zero_sensor], 1) ∧
    ((feed false 2 (lunix_protocol_init zero_state) [zero_sensor, zero_sensor]
        [(100, sample_frame 1 10 20 30), (100, sample_frame 2 11 21 31)]).map
      (fun r => (r.1.state, r.1.pos, r.2.1, r.2.2.length)))
      = some (SEEKING_START_BYTE, 0,
          [lunix_sensor_update zero_sensor 10 20 30 100,
           lunix_sensor_update zero_sensor 11 21 31 100], 2) := by
  constructor <;> decide

/-! ## The reset after a frame -/

/-- C11: whenever a call of `lunix_protocol_received_buf` completes the
SEEK_END field, i.e. hands a state `d` to the dispatcher, the parser on
return is `lunix_protocol_init` of that state: state tag
SEEKING_START_BYTE, `bytes_to_read` 1, `bytes_read` 0, `pos` 0 and
`next_is_special` 0, whatever the signature byte and the node id of the
frame are. -/
theorem reset_after_frame (LUNIX_DEBUG : Bool) (lunix_sensor_cnt : Int) (now : Nat)
    (st : lunix_protocol_state_struct) (lunix_sensors : List lunix_sensor_struct)
    (buf : List (Fin 256)) (r : received) (d : lunix_protocol_state_struct)
    (h : lunix_protocol_received_buf LUNIX_DEBUG lunix_sensor_cnt now st lunix_sensors buf =
      some r)
    (hd : r.dispatched = some d) :
    r.state = lunix_protocol_init d ∧
    r.state.state = SEEKING_START_BYTE ∧ r.state.bytes_to_read = 1 ∧
    r.state.bytes_read = 0 ∧ r.state.pos = 0 ∧ r.state.next_is_special = 0 ∧
    r.state.state = (lunix_protocol_init st).state ∧
    r.state.bytes_to_read = (lunix_protocol_init st).bytes_to_read ∧
    r.state.bytes_read = (lunix_protocol_init st).bytes_read ∧
    r.state.pos = (lunix_protocol_init st).pos ∧
    r.state.next_is_special = (lunix_protocol_init st).next_is_special := by
  unfold lunix_protocol_received_buf at h
  cases hf : received_buf_fields LUNIX_DEBUG st buf with
  | none => rw [hf] at h; cases h
  | some c =>
    obtain ⟨st8, rest8⟩ := c
    rw [hf] at h
    simp only [] at h
    by_cases ht : st8.state = SEEKING_END_BYTE
    · rw [if_pos ht] at h
      cases hp : lunix_protocol_parse_state LUNIX_DEBUG 0 0 st8 rest8 with
      | none => rw [hp] at h; cases h
      | some q =>
        obtain ⟨r1, st9, rest9⟩ := q
        rw [hp] at h
        simp only [] at h
        by_cases h1 : r1 = 1
        · rw [if_pos h1] at h
          cases hu : lunix_protocol_update_sensors lunix_sensor_cnt st9 lunix_sensors now with
          | none => rw [hu] at h; cases h
          | some sensors =>
            rw [hu] at h
            simp only [Option.some.injEq] at h
            subst h
            simp only [Option.some.injEq] at hd
            subst hd
            exact ⟨rfl, rfl, rfl, rfl, rfl, rfl, rfl, rfl, rfl, rfl, rfl⟩
        · rw [if_neg h1] at h
          simp only [Option.some.injEq] at h
          subst h
          cases hd
    · rw [if_neg ht] at h
      simp only [Option.some.injEq] at h
      subst h
      cases hd

/-- A frame for node 3, out of range in a table of one record: it is handed
to the dispatcher, dropped, and the parser is reset. -/
theorem reset_after_frame_witness :
    ∃ r d, lunix_protocol_received_buf false 1 0 (lunix_protocol_init zero_state)
        [zero_sensor] (sample_frame 3 10 20 30) = some r ∧
      r.dispatched = some d ∧ r.lunix_sensors = [zero_sensor] ∧
      r.state = lunix_protocol_init d ∧ r.state.pos = 0 := by
  have hev : (lunix_protocol_received_buf false 1 0 (lunix_protocol_init zero_state)
      [zero_sensor] (sample_frame 3 10 20 30)).map
        (fun r => (r.dispatched.isSome, r.lunix_sensors)) = some (true, [zero_sensor]) := by
    decide
  cases hr : lunix_protocol_received_buf false 1 0 (lunix_protocol_init zero_state)
      [zero_sensor] (sample_frame 3 10 20 30) with
  | none => rw [hr] at hev; cases hev
  | some r =>
    rw [hr] at hev
    simp only [Option.map_some', Option.some.injEq, Prod.mk.injEq] at hev
    cases hd : r.dispatched with
    | none => rw [hd] at hev; exact absurd hev.1 (by decide)
    | some d =>
      have hres := reset_after_frame false 1 0 (lunix_protocol_init zero_state) [zero_sensor]
        (sample_frame 3 10 20 30) r d hr hd
      exact ⟨r, d, rfl, hd, hev.2, hres.1, hres.2.2.2.2.1⟩

/-! ## The atomic group of a record -/

/-- C12: in every record reached from the record that `lunix_sensor_init`
leaves (zeroed pages with the magic set) by a sequence of
`lunix_sensor_update` calls, the three slots carry the same `last_update`;
and after `lunix_sensor_update(s, batt, temp, light)` the slots hold `batt`,
`temp` and `light` and the one timestamp `now % 2 ^ 32`, `now` being the
clock value read in the call. -/
theorem atomic_group :
    (∀ updates : List (Nat × Nat × Nat × Nat),
      (updates.foldl (fun s u => lunix_sensor_update s u.1 u.2.1 u.2.2.1 u.2.2.2)
          zero_sensor).batt.last_update =
        (updates.foldl (fun s u => lunix_sensor_update s u.1 u.2.1 u.2.2.1 u.2.2.2)
          zero_sensor).temp.last_update ∧
      (updates.foldl (fun s u => lunix_sensor_update s u.1 u.2.1 u.2.2.1 u.2.2.2)
          zero_sensor).temp.last_update =
        (updates.foldl (fun s u => lunix_sensor_update s u.1 u.2.1 u.2.2.1 u.2.2.2)
          zero_sensor).light.last_update) ∧
    (∀ (s : lunix_sensor_struct) (batt temp light now : Nat),
      (lunix_sensor_update s batt temp light now).batt.values0 = batt ∧
      (lunix_sensor_update s batt temp light now).temp.values0 = temp ∧
      (lunix_sensor_update s batt temp light now).light.values0 = light ∧
      (lunix_sensor_update s batt temp light now).batt.last_update = now % 2 ^ 32 ∧
      (lunix_sensor_update s batt temp light now).temp.last_update = now % 2 ^ 32 ∧
      (lunix_sensor_update s batt temp light now).light.last_update = now % 2 ^ 32) := by
  have key : ∀ (updates : List (Nat × Nat × Nat × Nat)) (s0 : lunix_sensor_struct),
      s0.batt.last_update = s0.temp.last_update ∧ s0.temp.last_update = s0.light.last_update →
      (updates.foldl (fun s u => lunix_sensor_update s u.1 u.2.1 u.2.2.1 u.2.2.2)
          s0).batt.last_update =
        (updates.foldl (fun s u => lunix_sensor_update s u.1 u.2.1 u.2.2.1 u.2.2.2)
          s0).temp.last_update ∧
      (updates.foldl (fun s u => lunix_sensor_update s u.1 u.2.1 u.2.2.1 u.2.2.2)
          s0).temp.last_update =
        (updates.foldl (fun s u => lunix_sensor_update s u.1 u.2.1 u.2.2.1 u.2.2.2)
          s0).light.last_update := by
    intro updates
    induction updates with
    | nil => intro s0 h; exact h
    | cons u us ih =>
      intro s0 _
      rw [List.foldl_cons]
      exact ih _ ⟨rfl, rfl⟩
  exact ⟨fun updates => key updates zero_sensor ⟨rfl, rfl⟩,
    fun s b t l now => ⟨rfl, rfl, rfl, rfl, rfl, rfl⟩⟩

/-! ## Reading a handle -/

theorem state_eta_lock (s : lunix_chrdev_state_struct) (b : Bool) (h : s.lock = b) :
    { s with lock := b } = s := by
  cases s
  simp only at h
  subst h
  rfl

theorem state_update_cases (tables : lookup_tables) (lunix_sensors : List lunix_sensor_struct)
    (st st' : lunix_chrdev_state_struct) (r : Int)
    (h : lunix_chrdev_state_update tables lunix_sensors st = some (r, st')) :
    (r = -EAGAIN ∧ st' = st ∧ lunix_chrdev_state_needs_refresh lunix_sensors st = some 0) ∨
    (r = 0 ∧ st'.lock = st.lock ∧ st'.type = st.type ∧ st'.sensor = st.sensor ∧
      lunix_chrdev_state_needs_refresh lunix_sensors st ≠ some 0) := by
  unfold lunix_chrdev_state_update at h
  cases hn : lunix_chrdev_state_needs_refresh lunix_sensors st with
  | none => rw [hn] at h; cases h
  | some n =>
    rw [hn] at h
    simp only [] at h
    by_cases h0 : n = 0
    · rw [if_pos h0] at h
      simp only [Option.some.injEq, Prod.mk.injEq] at h
      exact Or.inl ⟨h.1.symm, h.2.symm, by rw [h0]⟩
    · rw [if_neg h0] at h
      right
      cases hg : lunix_sensors.get? st.sensor with
      | none => rw [hg] at h; cases h
      | some sensor =>
        rw [hg] at h
        simp only [] at h
        cases hm : msr_data sensor st.type with
        | none => rw [hm] at h; cases h
        | some msr =>
          rw [hm] at h
          simp only [] at h
          split at h
          · cases h
          · simp only [Option.some.injEq, Prod.mk.injEq] at h
            obtain ⟨h1, h2⟩ := h
            subst h2
            exact ⟨h1.symm, rfl, rfl, rfl, by
              intro hc
              simp only [Option.some.injEq] at hc
              exact h0 hc⟩

theorem read_loop_nil (tables : lookup_tables) (O_NONBLOCK signal copy_fails : Bool)
    (cnt : Nat) (f_pos : Int) (lunix_sensors : List lunix_sensor_struct)
    (state : lunix_chrdev_state_struct) :
    lunix_chrdev_read_loop tables O_NONBLOCK signal copy_fails cnt f_pos []
        lunix_sensors state =
      match lunix_chrdev_read_test tables O_NONBLOCK copy_fails cnt f_pos [] lunix_sensors
          state with
      | loop_test.done o => o
      | loop_test.wait _ => outcome.sleeping := by
  rfl

theorem read_loop_signal (tables : lookup_tables) (O_NONBLOCK signal copy_fails : Bool)
    (cnt : Nat) (f_pos : Int) (ws : List wait_answer)
    (lunix_sensors : List lunix_sensor_struct) (state : lunix_chrdev_state_struct) :
    lunix_chrdev_read_loop tables O_NONBLOCK signal copy_fails cnt f_pos
        (wait_answer.signal :: ws) lunix_sensors state =
      match lunix_chrdev_read_test tables O_NONBLOCK copy_fails cnt f_pos
          (wait_answer.signal :: ws) lunix_sensors state with
      | loop_test.done o => o
      | loop_test.wait state2 =>
        outcome.returned { ret := -ERESTARTSYS, state := state2, f_pos := f_pos,
                           usrbuf := none, lunix_sensors := lunix_sensors, waits := ws } := by
  rfl

theorem read_loop_woken (tables : lookup_tables) (O_NONBLOCK signal copy_fails : Bool)
    (cnt : Nat) (f_pos : Int) (updates : List (Nat × Nat × Nat × Nat × Nat))
    (ws : List wait_answer)
    (lunix_sensors : List lunix_sensor_struct) (state : lunix_chrdev_state_struct) :
    lunix_chrdev_read_loop tables O_NONBLOCK signal copy_fails cnt f_pos
        (wait_answer.woken updates :: ws) lunix_sensors state =
      match lunix_chrdev_read_test tables O_NONBLOCK copy_fails cnt f_pos
          (wait_answer.woken updates :: ws) lunix_sensors state with
      | loop_test.done o => o
      | loop_test.wait state2 =>
        if (down_interruptible state2.lock signal).1 ≠ 0 then
          outcome.returned { ret := -ERESTARTSYS,
                             state := { state2 with
                               lock := (down_interruptible state2.lock signal).2 },
                             f_pos := f_pos, usrbuf := none,
                             lunix_sensors := updates.foldl ingest lunix_sensors,
                             waits := ws }
        else
          lunix_chrdev_read_loop tables O_NONBLOCK signal copy_fails cnt f_pos ws
            (updates.foldl ingest lunix_sensors)
            { state2 with lock := (down_interruptible state2.lock signal).2 } := by
  rfl

/-- With O_NONBLOCK the loop ends at its first test. -/
theorem read_loop_nonblock (tables : lookup_tables) (signal copy_fails : Bool)
    (cnt : Nat) (f_pos : Int) (waits : List wait_answer)
    (lunix_sensors : List lunix_sensor_struct) (state : lunix_chrdev_state_struct)
    (o : outcome read_result)
    (h : lunix_chrdev_read_test tables true copy_fails cnt f_pos waits lunix_sensors state =
      loop_test.done o) :
    lunix_chrdev_read_loop tables true signal copy_fails cnt f_pos waits lunix_sensors state =
      o := by
  cases waits with
  | nil => rw [read_loop_nil, h]
  | cons w ws =>
    cases w with
    | signal => rw [read_loop_signal, h]
    | woken u => rw [read_loop_woken, h]

theorem down_free (signal : Bool) : down_interruptible false signal = (0, true) := rfl

/-- C13: a handle with a free semaphore whose `buf_timestamp` is the
timestamp of its record, read at position 0 with O_NONBLOCK set: the call
returns -EAGAIN, which differs from -ERESTARTSYS and -EFAULT, uses no answer
of the environment (it does not wait), copies nothing to the caller and
leaves the handle and the position as they were. -/
theorem nonblocking_read (tables : lookup_tables) (signal copy_fails : Bool)
    (waits : List wait_answer) (lunix_sensors : List lunix_sensor_struct)
    (h : lunix_chrdev_state_struct) (cnt : Nat)
    (rec : lunix_sensor_struct) (msr : lunix_msr_data_struct)
    (hrec : lunix_sensors.get? h.sensor = some rec)
    (hmsr : msr_data rec h.type = some msr)
    (hts : h.buf_timestamp = msr.last_update)
    (hfree : h.lock = false) :
    ∃ r, lunix_chrdev_read tables true signal copy_fails waits lunix_sensors h cnt 0 =
        outcome.returned r ∧
      r.ret = -EAGAIN ∧ r.ret ≠ -ERESTARTSYS ∧ r.ret ≠ -EFAULT ∧
      r.waits = waits ∧ r.usrbuf = none ∧ r.state = h ∧ r.f_pos = 0 ∧
      r.lunix_sensors = lunix_sensors := by
  have hneed : ∀ b : Bool,
      lunix_chrdev_state_needs_refresh lunix_sensors { h with lock := b } = some 0 := by
    intro b
    unfold lunix_chrdev_state_needs_refresh
    simp only [hrec, hmsr, if_pos hts]
  have hupd : lunix_chrdev_state_update tables lunix_sensors { h with lock := true } =
      some (-EAGAIN, { h with lock := true }) := by
    unfold lunix_chrdev_state_update
    rw [hneed true]
    rfl
  refine ⟨{ ret := -EAGAIN, state := { h with lock := false }, f_pos := 0, usrbuf := none,
            lunix_sensors := lunix_sensors, waits := waits }, ?_, rfl,
          show (-EAGAIN : Int) ≠ -ERESTARTSYS by decide,
          show (-EAGAIN : Int) ≠ -EFAULT by decide,
          rfl, rfl, state_eta_lock h false hfree, rfl, rfl⟩
  unfold lunix_chrdev_read
  rw [hrec]
  simp only [hmsr, hfree, down_free]
  apply read_loop_nonblock
  unfold lunix_chrdev_read_test
  rw [hupd]
  rfl

/-- A TEMP handle refreshed at timestamp 1000, on a record last updated at 1000. -/
theorem nonblocking_read_witness :
    ∃ r, lunix_chrdev_read
        { lookup_voltage := fun _ => 0, lookup_temperature := fun n => 25000 + n,
          lookup_light := fun _ => 0 }
        true false false [] [lunix_sensor_update zero_sensor 400 512 7 1000]
        { type := TEMP, sensor := 0, buf_lim := 7, buf_data := List.replicate 200 0,
          buf_timestamp := 1000 } 64 0 = outcome.returned r ∧
      r.ret = -EAGAIN ∧ r.usrbuf = none ∧ r.f_pos = 0 := by
  obtain ⟨r, e, h1, -, -, -, h2, -, h3, -⟩ := nonblocking_read
    { lookup_voltage := fun _ => 0, lookup_temperature := fun n => 25000 + n,
      lookup_light := fun _ => 0 }
    false false [] [lunix_sensor_update zero_sensor 400 512 7 1000]
    { type := TEMP, sensor := 0, buf_lim := 7, buf_data := List.replicate 200 0,
      buf_timestamp := 1000 } 64
    (lunix_sensor_update zero_sensor 400 512 7 1000)
    (lunix_sensor_update zero_sensor 400 512 7 1000).temp rfl rfl (by decide) rfl
  exact ⟨r, e, h1, h2, h3⟩

theorem copy_to_user_cases (fails : Bool) (src : List (Fin 256)) (n : Int) (failed : Bool)
    (out : Option (List (Fin 256)))
    (h : copy_to_user fails src n = some (failed, out)) :
    (failed = true ∧ out = none) ∨
    (failed = false ∧ 0 ≤ n ∧ out = some (src.take n.toNat)) := by
  unfold copy_to_user at h
  split at h
  · next h0 =>
    simp only [Option.some.injEq, Prod.mk.injEq] at h
    subst h0
    exact Or.inr ⟨h.1.symm, le_refl _, by rw [← h.2]; rfl⟩
  · split at h
    · simp only [Option.some.injEq, Prod.mk.injEq] at h
      exact Or.inl ⟨h.1.symm, h.2.symm⟩
    · next h1 =>
      split at h
      · simp only [Option.some.injEq, Prod.mk.injEq] at h
        exact Or.inr ⟨h.1.symm, by omega, h.2.symm⟩
      · cases h

theorem read_copy_cases (copy_fails : Bool) (lunix_sensors : List lunix_sensor_struct)
    (waits : List wait_answer) (st : lunix_chrdev_state_struct) (cnt : Nat) (f_pos : Int)
    (r : read_result)
    (h : lunix_chrdev_read_copy copy_fails lunix_sensors waits st cnt f_pos =
      outcome.returned r) :
    r.state = { st with lock := false } ∧ r.lunix_sensors = lunix_sensors ∧
    r.waits = waits ∧
    ((r.ret = -EFAULT ∧ r.f_pos = f_pos ∧ r.usrbuf = none) ∨
     (r.ret = f_pos + (if ssize_of_size cnt > st.buf_lim then st.buf_lim
                        else ssize_of_size cnt) ∧
      r.f_pos = 0 ∧
      0 ≤ (if ssize_of_size cnt > st.buf_lim then st.buf_lim else ssize_of_size cnt) ∧
      r.usrbuf = some (st.buf_data.take
        (if ssize_of_size cnt > st.buf_lim then st.buf_lim else ssize_of_size cnt).toNat))) := by
  unfold lunix_chrdev_read_copy at h
  rw [if_neg (fun hc => hc.2)] at h
  simp only [] at h
  generalize (if ssize_of_size cnt > st.buf_lim then st.buf_lim else ssize_of_size cnt) =
    size at h ⊢
  cases hc : copy_to_user copy_fails st.buf_data size with
  | none => rw [hc] at h; cases h
  | some q =>
    obtain ⟨failed, out⟩ := q
    rw [hc] at h
    rcases copy_to_user_cases copy_fails st.buf_data size failed out hc with ⟨h1, h2⟩ |
      ⟨h1, h2, h3⟩
    · subst h1
      subst h2
      simp only [if_true, outcome.returned.injEq] at h
      subst h
      exact ⟨rfl, rfl, rfl, Or.inl ⟨rfl, rfl, rfl⟩⟩
    · subst h1
      subst h3
      simp only [Bool.false_eq_true, if_false, outcome.returned.injEq] at h
      subst h
      exact ⟨rfl, rfl, rfl, Or.inr ⟨rfl, rfl, h2, rfl⟩⟩

theorem read_loop_cases (tables : lookup_tables) (O_NONBLOCK signal copy_fails : Bool)
    (cnt : Nat) (f_pos : Int) (state : lunix_chrdev_state_struct)
    (hlock : state.lock = true) (waits : List wait_answer) :
    ∀ (lunix_sensors : List lunix_sensor_struct) (r : read_result),
      lunix_chrdev_read_loop tables O_NONBLOCK signal copy_fails cnt f_pos waits
        lunix_sensors state = outcome.returned r →
      ((r.ret = -EAGAIN ∨ r.ret = -ERESTARTSYS) ∧ r.usrbuf = none ∧ r.f_pos = f_pos ∧
        r.state = { state with lock := false }) ∨
      (∃ state1, lunix_chrdev_state_update tables r.lunix_sensors state = some (0, state1) ∧
        lunix_chrdev_read_copy copy_fails r.lunix_sensors r.waits state1 cnt f_pos =
          outcome.returned r) := by
  have htest : ∀ (ws : List wait_answer) (sensors : List lunix_sensor_struct),
      (∃ o, lunix_chrdev_read_test tables O_NONBLOCK copy_fails cnt f_pos ws sensors state =
          loop_test.done o ∧
        ∀ r, o = outcome.returned r →
          ((r.ret = -EAGAIN ∨ r.ret = -ERESTARTSYS) ∧ r.usrbuf = none ∧ r.f_pos = f_pos ∧
            r.state = { state with lock := false }) ∨
          (∃ state1, lunix_chrdev_state_update tables r.lunix_sensors state =
              some (0, state1) ∧
            lunix_chrdev_read_copy copy_fails r.lunix_sensors r.waits state1 cnt f_pos =
              outcome.returned r)) ∨
      lunix_chrdev_read_test tables O_NONBLOCK copy_fails cnt f_pos ws sensors state =
        loop_test.wait { state with lock := false } := by
    intro ws sensors
    unfold lunix_chrdev_read_test
    cases hu : lunix_chrdev_state_update tables sensors state with
    | none =>
      left
      exact ⟨_, rfl, fun r hr => by cases hr⟩
    | some q =>
      obtain ⟨ret, state1⟩ := q
      rcases state_update_cases tables sensors state state1 ret hu with ⟨h1, h2, -⟩ |
        ⟨h1, -, -, -, -⟩
      · subst h1
        subst h2
        simp only [if_true]
        by_cases hnb : O_NONBLOCK = true
        · left
          rw [if_pos hnb]
          refine ⟨_, rfl, fun r hr => ?_⟩
          simp only [outcome.returned.injEq] at hr
          subst hr
          exact Or.inl ⟨Or.inl rfl, rfl, rfl, rfl⟩
        · right
          rw [if_neg hnb]
          rfl
      · subst h1
        left
        simp only []
        rw [if_neg (show ¬ (0 : Int) = -EAGAIN by decide)]
        refine ⟨_, rfl, fun r hr => Or.inr ⟨state1, ?_, ?_⟩⟩
        · have := (read_copy_cases copy_fails sensors ws state1 cnt f_pos r hr).2.1
          rw [this]
          exact hu
        · have h3 := (read_copy_cases copy_fails sensors ws state1 cnt f_pos r hr).2.1
          have h4 := (read_copy_cases copy_fails sensors ws state1 cnt f_pos r hr).2.2.1
          rw [h3, h4]
          exact hr
  induction waits with
  | nil =>
    intro sensors r h
    rw [read_loop_nil] at h
    rcases htest [] sensors with ⟨o, e, ho⟩ | e
    · rw [e] at h
      exact ho r h
    · rw [e] at h
      cases h
  | cons w ws ih =>
    intro sensors r h
    cases w with
    | signal =>
      rw [read_loop_signal] at h
      rcases htest (wait_answer.signal :: ws) sensors with ⟨o, e, ho⟩ | e
      · rw [e] at h
        exact ho r h
      · rw [e] at h
        simp only [outcome.returned.injEq] at h
        subst h
        exact Or.inl ⟨Or.inr rfl, rfl, rfl, rfl⟩
    | woken updates =>
      rw [read_loop_woken] at h
      rcases htest (wait_answer.woken updates :: ws) sensors with ⟨o, e, ho⟩ | e
      · rw [e] at h
        exact ho r h
      · rw [e] at h
        simp only [down_free] at h
        rw [if_neg (fun hc => hc rfl)] at h
        have hs : ({ { state with lock := false } with lock := true } :
            lunix_chrdev_state_struct) = state := state_eta_lock state true hlock
        rw [hs] at h
        exact ih _ r h

/-- Every return of `lunix_chrdev_read` entered with the semaphore free:
either an early one, or the copy after a refresh at position 0, or the copy
alone at another position. -/
theorem read_cases (tables : lookup_tables) (O_NONBLOCK signal copy_fails : Bool)
    (waits : List wait_answer) (lunix_sensors : List lunix_sensor_struct)
    (h : lunix_chrdev_state_struct) (cnt : Nat) (f_pos : Int) (r : read_result)
    (hfree : h.lock = false)
    (hr : lunix_chrdev_read tables O_NONBLOCK signal copy_fails waits lunix_sensors h cnt
      f_pos = outcome.returned r) :
    (f_pos = 0 ∧
      (((r.ret = -EAGAIN ∨ r.ret = -ERESTARTSYS) ∧ r.usrbuf = none ∧ r.f_pos = f_pos ∧
          r.state = h) ∨
       (∃ state1, lunix_chrdev_state_update tables r.lunix_sensors { h with lock := true } =
            some (0, state1) ∧
          lunix_chrdev_read_copy copy_fails r.lunix_sensors r.waits state1 cnt f_pos =
            outcome.returned r))) ∨
    (f_pos ≠ 0 ∧
      lunix_chrdev_read_copy copy_fails lunix_sensors waits { h with lock := true } cnt f_pos =
        outcome.returned r) := by
  unfold lunix_chrdev_read at hr
  cases hg : lunix_sensors.get? h.sensor with
  | none => rw [hg] at hr; cases hr
  | some sensor =>
    rw [hg] at hr
    simp only [] at hr
    cases hm : msr_data sensor h.type with
    | none => rw [hm] at hr; cases hr
    | some msr =>
      rw [hm] at hr
      simp only [hfree, down_free] at hr
      rw [if_neg (fun hc => hc rfl)] at hr
      by_cases hp : f_pos = 0
      · rw [if_pos hp] at hr
        left
        refine ⟨hp, ?_⟩
        rcases read_loop_cases tables O_NONBLOCK signal copy_fails cnt f_pos
          { h with lock := true } rfl waits lunix_sensors r hr with ⟨h1, h2, h3, h4⟩ | h1
        · left
          refine ⟨h1, h2, h3, ?_⟩
          rw [h4]
          exact state_eta_lock h false hfree
        · exact Or.inr h1
      · rw [if_neg hp] at hr
        exact Or.inr ⟨hp, hr⟩

set_option maxRecDepth 8000 in
/-- C15: a TEMP handle whose text after the refresh is `"25.123\n"`, read
with `cnt = 3`: the call returns 3 with the bytes `"25."` and leaves the
position at 0, not at 3.  A second read at that position with O_NONBLOCK
and no new measurement returns -EAGAIN and delivers nothing; after a new
measurement with text `"26.505\n"` it delivers `"26."`.  The bytes `".12"`
that follow the ones delivered first are never delivered. -/
theorem partial_read_rewinds :
    ∃ r1, lunix_chrdev_read
        { lookup_voltage := fun _ => 0, lookup_temperature := fun n => 25000 + n,
          lookup_light := fun _ => 0 }
        false false false [] [lunix_sensor_update zero_sensor 400 123 7 1000]
        { type := TEMP, sensor := 0, buf_lim := 1, buf_data := List.replicate 200 0,
          buf_timestamp := 0 } 3 0 = outcome.returned r1 ∧
      r1.ret = 3 ∧ r1.usrbuf = some (ascii "25.") ∧ r1.state.buf_lim = 7 ∧
      r1.state.buf_data.take 7 = ascii "25.123\n" ∧ r1.f_pos = 0 ∧
      (∃ r2, lunix_chrdev_read
          { lookup_voltage := fun _ => 0, lookup_temperature := fun n => 25000 + n,
            lookup_light := fun _ => 0 }
          true false false [] [lunix_sensor_update zero_sensor 400 123 7 1000]
          r1.state 3 r1.f_pos = outcome.returned r2 ∧
        r2.ret = -EAGAIN ∧ r2.usrbuf = none) ∧
      (∃ r3, lunix_chrdev_read
          { lookup_voltage := fun _ => 0, lookup_temperature := fun n => 25000 + n,
            lookup_light := fun _ => 0 }
          true false false [] [lunix_sensor_update zero_sensor 400 1505 7 1001]
          r1.state 3 r1.f_pos = outcome.returned r3 ∧
        r3.ret = 3 ∧ r3.usrbuf = some (ascii "26.")) := by
  refine ⟨_, rfl, ?_, ?_, ?_, ?_, ?_, ⟨_, rfl, ?_, ?_⟩, ⟨_, rfl, ?_, ?_⟩⟩ <;> decide

/-- C16: after a successful `lunix_chrdev_read`, whatever the position and
the count it was called with, the position is 0 and the semaphore is free;
and a read entered at that position delivers bytes only after
`lunix_chrdev_state_update` has run on the handle and returned 0 in that
call: the data had to be fresh, the handle on return is the refreshed one,
and the bytes are taken from its text. -/
theorem auto_rewind (tables : lookup_tables) (O_NONBLOCK signal copy_fails : Bool)
    (waits : List wait_answer) (lunix_sensors : List lunix_sensor_struct)
    (h : lunix_chrdev_state_struct) (cnt : Nat) (f_pos : Int) (r1 : read_result)
    (hfree : h.lock = false)
    (hr : lunix_chrdev_read tables O_NONBLOCK signal copy_fails waits lunix_sensors h cnt
      f_pos = outcome.returned r1)
    (hok : 0 ≤ r1.ret) :
    r1.f_pos = 0 ∧ r1.state.lock = false ∧
    ∀ (O_NONBLOCK2 signal2 copy_fails2 : Bool) (waits2 : List wait_answer)
      (lunix_sensors2 : List lunix_sensor_struct) (cnt2 : Nat) (r2 : read_result),
      lunix_chrdev_read tables O_NONBLOCK2 signal2 copy_fails2 waits2 lunix_sensors2
        r1.state cnt2 r1.f_pos = outcome.returned r2 →
      0 ≤ r2.ret →
      ∃ refreshed,
        lunix_chrdev_state_update tables r2.lunix_sensors { r1.state with lock := true } =
          some (0, refreshed) ∧
        lunix_chrdev_state_needs_refresh r2.lunix_sensors r1.state ≠ some 0 ∧
        r2.state = { refreshed with lock := false } ∧
        r2.usrbuf = some (refreshed.buf_data.take r2.ret.toNat) := by
  have key : r1.f_pos = 0 ∧ r1.state.lock = false := by
    rcases read_cases tables O_NONBLOCK signal copy_fails waits lunix_sensors h cnt f_pos r1
      hfree hr with ⟨-, ⟨h1, -⟩ | ⟨state1, -, hc⟩⟩ | ⟨-, hc⟩
    · rcases h1 with h1 | h1 <;> rw [h1] at hok <;> exact absurd hok (by decide)
    · obtain ⟨hs, -, -, hcase⟩ := read_copy_cases copy_fails _ _ state1 cnt f_pos r1 hc
      rcases hcase with ⟨he, -, -⟩ | ⟨-, hp, -, -⟩
      · rw [he] at hok
        exact absurd hok (by decide)
      · exact ⟨hp, by rw [hs]⟩
    · obtain ⟨hs, -, -, hcase⟩ := read_copy_cases copy_fails _ _ _ cnt f_pos r1 hc
      rcases hcase with ⟨he, -, -⟩ | ⟨-, hp, -, -⟩
      · rw [he] at hok
        exact absurd hok (by decide)
      · exact ⟨hp, by rw [hs]⟩
  refine ⟨key.1, key.2, ?_⟩
  intro nb2 sig2 cf2 waits2 sensors2 cnt2 r2 hr2 hok2
  rw [key.1] at hr2
  rcases read_cases tables nb2 sig2 cf2 waits2 sensors2 r1.state cnt2 0 r2 key.2 hr2
    with ⟨-, ⟨h1, -⟩ | ⟨state1, hu, hc⟩⟩ | ⟨hne, -⟩
  · rcases h1 with h1 | h1 <;> rw [h1] at hok2 <;> exact absurd hok2 (by decide)
  · obtain ⟨hs, -, -, hcase⟩ := read_copy_cases cf2 _ _ state1 cnt2 0 r2 hc
    rcases hcase with ⟨he, -, -⟩ | ⟨hret, -, -, hbuf⟩
    · rw [he] at hok2
      exact absurd hok2 (by decide)
    · refine ⟨state1, hu, ?_, hs, ?_⟩
      · rcases state_update_cases tables _ _ _ _ hu with ⟨h0, -, -⟩ | ⟨-, -, -, -, hn⟩
        · exact absurd h0 (by decide)
        · intro hc0
          apply hn
          unfold lunix_chrdev_state_needs_refresh at hc0 ⊢
          exact hc0
      · rw [zero_add] at hret
        rw [hbuf, hret]
  · exact absurd rfl hne

set_option maxRecDepth 8000 in
/-- A full read of 64 bytes of a fresh TEMP handle. -/
theorem auto_rewind_witness :
    ∃ r1 : read_result, lunix_chrdev_read
        { lookup_voltage := fun _ => 0, lookup_temperature := fun n => 25000 + n,
          lookup_light := fun _ => 0 }
        false false false [] [lunix_sensor_update zero_sensor 400 123 7 1000]
        { type := TEMP, sensor := 0, buf_lim := 1, buf_data := List.replicate 200 0,
          buf_timestamp := 0 } 64 0 = outcome.returned r1 ∧
      r1.ret = 7 ∧ r1.f_pos = 0 ∧ r1.state.lock = false := by
  have hr : ∃ r, lunix_chrdev_read
        { lookup_voltage := fun _ => 0, lookup_temperature := fun n => 25000 + n,
          lookup_light := fun _ => 0 }
        false false false [] [lunix_sensor_update zero_sensor 400 123 7 1000]
        { type := TEMP, sensor := 0, buf_lim := 1, buf_data := List.replicate 200 0,
          buf_timestamp := 0 } 64 0 = outcome.returned r ∧ r.ret = 7 :=
    ⟨_, rfl, by decide⟩
  obtain ⟨r, e, hret⟩ := hr
  obtain ⟨h1, h2, -⟩ := auto_rewind _ false false false [] _ _ 64 0 r rfl e
    (by rw [hret]; decide)
  exact ⟨r, e, hret, h1, h2⟩

/-! ## Locks -/

/-- C17: with each lock as a flag, `lunix_chrdev_read` returns with the
semaphore of the handle free whenever it was free on entry, whatever the
return value (data, -EAGAIN, -ERESTARTSYS, -EFAULT); entered on a held
semaphore, an acquisition that a signal interrupts returns -ERESTARTSYS and
leaves the flag as it was.  `lunix_chrdev_state_update` and
`lunix_sensor_update`, entered with the spinlock of the record free, return
with it free, with the results of the functions without the flag. -/
theorem locks_released :
    (∀ (tables : lookup_tables) (O_NONBLOCK signal copy_fails : Bool)
      (waits : List wait_answer) (lunix_sensors : List lunix_sensor_struct)
      (h : lunix_chrdev_state_struct) (cnt : Nat) (f_pos : Int) (r : read_result),
      h.lock = false →
      lunix_chrdev_read tables O_NONBLOCK signal copy_fails waits lunix_sensors h cnt
        f_pos = outcome.returned r →
      r.state.lock = false) ∧
    (∀ (tables : lookup_tables) (O_NONBLOCK copy_fails : Bool)
      (waits : List wait_answer) (lunix_sensors : List lunix_sensor_struct)
      (h : lunix_chrdev_state_struct) (cnt : Nat) (f_pos : Int) (r : read_result),
      h.lock = true →
      lunix_chrdev_read tables O_NONBLOCK true copy_fails waits lunix_sensors h cnt
        f_pos = outcome.returned r →
      r.ret = -ERESTARTSYS ∧ r.state = h ∧ r.usrbuf = none) ∧
    (∀ (tables : lookup_tables) (lunix_sensors : List lunix_sensor_struct)
      (h : lunix_chrdev_state_struct),
      lunix_chrdev_state_update_locked false tables lunix_sensors h =
        (lunix_chrdev_state_update tables lunix_sensors h).map
          (fun x => (false, x.1, x.2))) ∧
    (∀ (s : lunix_sensor_struct) (batt temp light now : Nat),
      lunix_sensor_update_locked false s batt temp light now =
        some (false, lunix_sensor_update s batt temp light now)) := by
  refine ⟨?_, ?_, ?_, ?_⟩
  · intro tables nb sig cf waits sensors h cnt f_pos r hfree hr
    rcases read_cases tables nb sig cf waits sensors h cnt f_pos r hfree hr
      with ⟨-, ⟨-, -, -, hs⟩ | ⟨state1, -, hc⟩⟩ | ⟨-, hc⟩
    · rw [hs]; exact hfree
    · rw [(read_copy_cases cf _ _ state1 cnt f_pos r hc).1]
    · rw [(read_copy_cases cf _ _ _ cnt f_pos r hc).1]
  · intro tables nb cf waits sensors h cnt f_pos r hheld hr
    unfold lunix_chrdev_read at hr
    cases hg : sensors.get? h.sensor with
    | none => rw [hg] at hr; cases hr
    | some sensor =>
      rw [hg] at hr
      simp only [] at hr
      cases hm : msr_data sensor h.type with
      | none => rw [hm] at hr; cases hr
      | some msr =>
        rw [hm] at hr
        have hd : down_interruptible true true = (-EINTR, true) := rfl
        simp only [hheld, hd] at hr
        rw [if_pos (by decide)] at hr
        simp only [outcome.returned.injEq] at hr
        subst hr
        exact ⟨rfl, state_eta_lock h true hheld, rfl⟩
  · intro tables sensors h
    unfold lunix_chrdev_state_update_locked lunix_chrdev_state_update
    cases lunix_chrdev_state_needs_refresh sensors h with
    | none => rfl
    | some n =>
      simp only []
      by_cases h0 : n = 0
      · rw [if_pos h0, if_pos h0]
        rfl
      · rw [if_neg h0, if_neg h0]
        have hl : spin_lock false = some true := rfl
        simp only [hl]
        cases sensors.get? h.sensor with
        | none => rfl
        | some sensor =>
          simp only []
          cases msr_data sensor h.type with
          | none => rfl
          | some msr =>
            simp only []
            split <;> rfl
  · intro s b t l now
    rfl

set_option maxRecDepth 8000 in
/-- A read that a signal ends while it waits for a measurement. -/
theorem locks_released_witness :
    ∃ r : read_result, lunix_chrdev_read
        { lookup_voltage := fun _ => 0, lookup_temperature := fun n => 25000 + n,
          lookup_light := fun _ => 0 }
        false false false [wait_answer.signal] [zero_sensor]
        { type := TEMP, sensor := 0, buf_lim := 1, buf_data := List.replicate 200 0,
          buf_timestamp := 0 } 64 0 = outcome.returned r ∧
      r.ret = -ERESTARTSYS ∧ r.state.lock = false := by
  have hr : ∃ r, lunix_chrdev_read
        { lookup_voltage := fun _ => 0, lookup_temperature := fun n => 25000 + n,
          lookup_light := fun _ => 0 }
        false false false [wait_answer.signal] [zero_sensor]
        { type := TEMP, sensor := 0, buf_lim := 1, buf_data := List.replicate 200 0,
          buf_timestamp := 0 } 64 0 = outcome.returned r ∧ r.ret = -ERESTARTSYS :=
    ⟨_, rfl, by decide⟩
  obtain ⟨r, e, hret⟩ := hr
  exact ⟨r, e, hret, locks_released.1 _ false false false _ _ _ 64 0 r rfl e⟩

/-! ## Rollback of the initialisation -/

/-- C18: with one record and the second `get_zeroed_page` of its
`lunix_sensor_init` failing (request 0 is the `kzalloc` of the table),
`lunix_module_init` returns -ENOMEM with the first page of the record, at
address 2, still in use: the loop at `out_with_sensors` calls
`lunix_sensor_destroy` for the records that were initialised in full only.
The same holds for a failure at the third page, and for the second record
of two.  After a failure at the first page of a record every page has been
freed. -/
theorem rollback_leaks_pages :
    lunix_module_init (fun n => n == 2) 1 0 0 { live := [], requests := 0 } =
      (-ENOMEM, { live := [2], requests := 3 }) ∧
    lunix_module_init (fun n => n == 3) 1 0 0 { live := [], requests := 0 } =
      (-ENOMEM, { live := [3, 2], requests := 4 }) ∧
    lunix_module_init (fun n => n == 5) 2 0 0 { live := [], requests := 0 } =
      (-ENOMEM, { live := [5], requests := 6 }) ∧
    lunix_module_init (fun n => n == 1) 1 0 0 { live := [], requests := 0 } =
      (-ENOMEM, { live := [], requests := 2 }) ∧
    lunix_module_init (fun n => n == 4) 2 0 0 { live := [], requests := 0 } =
      (-ENOMEM, { live := [], requests := 5 }) := by
  refine ⟨?_, ?_, ?_, ?_, ?_⟩ <;> decide

/-! ## The handle of a minor -/

theorem mem_init_minors (lunix_sensor_cnt : Int) (minor : Nat) :
    minor ∈ lunix_chrdev_init_minors lunix_sensor_cnt ↔
      ∃ i j, i < lunix_sensor_cnt.toNat ∧ j < 3 ∧ minor = i * 8 + j := by
  unfold lunix_chrdev_init_minors
  simp only [List.mem_flatten, List.mem_map, List.mem_range]
  constructor
  · rintro ⟨l, ⟨i, hi, rfl⟩, hm⟩
    simp only [List.mem_map, List.mem_range] at hm
    obtain ⟨j, hj, rfl⟩ := hm
    exact ⟨i, j, hi, hj, rfl⟩
  · rintro ⟨i, j, hi, hj, rfl⟩
    refine ⟨_, ⟨i, hi, rfl⟩, ?_⟩
    simp only [List.mem_map, List.mem_range]
    exact ⟨j, hj, rfl⟩

theorem minor_fields (i j : Nat) (hj : j < 3) :
    (i * 8 + j) &&& 7 = j ∧ (i * 8 + j - ((i * 8 + j) &&& 7)) >>> 3 = i ∧
    (i * 8 + j) >>> 3 = i := by
  have h7 : (i * 8 + j) &&& 7 = (i * 8 + j) % 8 := Nat.and_pow_two_sub_one_eq_mod _ 3
  have hs : ∀ n : Nat, n >>> 3 = n / 8 := fun n => Nat.shiftRight_eq_div_pow n 3
  rw [h7, hs, hs]
  omega

/-- C19: the minors for which an open reaches `lunix_chrdev_open` are those
that `lunix_chrdev_init` has added.  For each of them and whatever `kmalloc`
gives, an open that succeeds returns 0 and a handle whose quantity selector
`minor & 7` is BATT, TEMP or LIGHT and whose node index `minor >> 3` is
below `lunix_sensor_cnt`.  For `i < lunix_sensor_cnt` and `j < 3` the minor
`8 * i + j` is one of those minors, an open of it that succeeds gives the
handle of node `i` and quantity `j` with last-observed timestamp 0, and the
open succeeds whenever `kmalloc` gives a block. -/
theorem handle_addressing (lunix_sensor_cnt : Int) :
    (∀ (minor : Nat) (kmalloc : Option (List (Fin 256))) (ret : Int)
      (h : lunix_chrdev_state_struct),
      minor ∈ lunix_chrdev_init_minors lunix_sensor_cnt →
      lunix_chrdev_open minor kmalloc = some (ret, h) →
      ret = 0 ∧ (h.type = BATT ∨ h.type = TEMP ∨ h.type = LIGHT) ∧ h.type = minor &&& 7 ∧
        h.sensor = minor >>> 3 ∧ (h.sensor : Int) < lunix_sensor_cnt) ∧
    (∀ (i j : Nat), (i : Int) < lunix_sensor_cnt → j < 3 →
      8 * i + j ∈ lunix_chrdev_init_minors lunix_sensor_cnt ∧
      (∀ (kmalloc : Option (List (Fin 256))) (ret : Int) (h : lunix_chrdev_state_struct),
        lunix_chrdev_open (8 * i + j) kmalloc = some (ret, h) →
        ret = 0 ∧ h.type = j ∧ h.sensor = i ∧ h.buf_timestamp = 0 ∧ h.buf_lim = 1 ∧
          h.lock = false) ∧
      (∀ mem : List (Fin 256),
        lunix_chrdev_open (8 * i + j) (some mem) =
          some (0, { type := j, sensor := i, buf_lim := 1, buf_data := mem.set 0 0,
                     buf_timestamp := 0, lock := false }))) := by
  constructor
  · intro minor kmalloc ret h hm hopen
    obtain ⟨i, j, hi, hj, rfl⟩ := (mem_init_minors lunix_sensor_cnt minor).mp hm
    obtain ⟨e1, e2, e3⟩ := minor_fields i j hj
    cases kmalloc with
    | none => cases hopen
    | some mem =>
      unfold lunix_chrdev_open at hopen
      simp only [Option.some.injEq, Prod.mk.injEq] at hopen
      obtain ⟨hret, hh⟩ := hopen
      subst hh
      refine ⟨hret.symm, ?_, rfl, ?_, ?_⟩
      · show (i * 8 + j) &&& 7 = BATT ∨ (i * 8 + j) &&& 7 = TEMP ∨
          (i * 8 + j) &&& 7 = LIGHT
        rw [e1]
        unfold BATT TEMP LIGHT
        omega
      · show (i * 8 + j - ((i * 8 + j) &&& 7)) >>> 3 = (i * 8 + j) >>> 3
        rw [e2, e3]
      · show (((i * 8 + j - ((i * 8 + j) &&& 7)) >>> 3 : Nat) : Int) < lunix_sensor_cnt
        rw [e2]
        omega
  · intro i j hi hj
    have hm : 8 * i + j ∈ lunix_chrdev_init_minors lunix_sensor_cnt :=
      (mem_init_minors lunix_sensor_cnt _).mpr ⟨i, j, by omega, hj, by omega⟩
    have e : 8 * i + j = i * 8 + j := by omega
    obtain ⟨e1, e2, -⟩ := minor_fields i j hj
    rw [e1] at e2
    have hopen : ∀ mem : List (Fin 256),
        lunix_chrdev_open (8 * i + j) (some mem) =
          some (0, { type := j, sensor := i, buf_lim := 1, buf_data := mem.set 0 0,
                     buf_timestamp := 0, lock := false }) := by
      intro mem
      unfold lunix_chrdev_open
      simp only [e, e1, e2]
    refine ⟨hm, ?_, hopen⟩
    intro kmalloc ret h hk
    cases kmalloc with
    | none => cases hk
    | some mem =>
      rw [hopen mem] at hk
      simp only [Option.some.injEq, Prod.mk.injEq] at hk
      obtain ⟨hret, hh⟩ := hk
      subst hh
      exact ⟨hret.symm, rfl, rfl, rfl, rfl, rfl⟩

/-- The minor 9 in a system of two records is one that `lunix_chrdev_init`
has added, and its open gives the handle of node 1, quantity TEMP. -/
theorem handle_addressing_witness :
    9 ∈ lunix_chrdev_init_minors 2 ∧
    (∃ h, lunix_chrdev_open 9 (some (List.replicate 200 7)) = some (0, h) ∧
      (h.type = BATT ∨ h.type = TEMP ∨ h.type = LIGHT) ∧ h.type = 9 &&& 7 ∧
      h.sensor = 9 >>> 3 ∧ (h.sensor : Int) < 2) ∧
    lunix_chrdev_open (8 * 1 + 1) (some (List.replicate 200 7)) =
      some (0, { type := 1, sensor := 1, buf_lim := 1,
                 buf_data := (List.replicate 200 7).set 0 0,
                 buf_timestamp := 0, lock := false }) := by
  have h9 : 9 ∈ lunix_chrdev_init_minors 2 := by decide
  have h1 := (handle_addressing 2).1 9 (some (List.replicate 200 7)) 0 _ h9 rfl
  have h2 := ((handle_addressing 2).2 1 1 (by decide) (by decide)).2.2
    (List.replicate 200 7)
  exact ⟨h9, ⟨_, rfl, h1.2⟩, h2⟩

/-! ## Resumption across calls -/

theorem fields_eq_run (LUNIX_DEBUG : Bool) (st : lunix_protocol_state_struct)
    (buf : List (Fin 256)) :
    received_buf_fields LUNIX_DEBUG st buf = run_phases LUNIX_DEBUG field_phases (st, buf) := by
  unfold received_buf_fields field_phases
  simp only [run_phases, Option.bind_assoc]
  congr 1
  funext c1
  congr 1
  funext c2
  congr 1
  funext c3
  congr 1
  funext c4
  congr 1
  funext c5
  congr 1
  funext c6
  congr 1
  funext c7
  cases phase LUNIX_DEBUG SEEKING_CRC 1 (fun s => some (set_state s SEEKING_END_BYTE 1 0)) c7
    <;> rfl

theorem parse_state_cons (use_specials : Int) (iter : Nat) (st : lunix_protocol_state_struct)
    (d : Fin 256) (l : List (Fin 256)) :
    lunix_protocol_parse_state false use_specials iter st (d :: l) =
      if st.bytes_read < st.bytes_to_read then
        if st.pos = MAX_PACKET_LEN then some (-1, { st with pos := 0 }, d :: l)
        else (loop_body use_specials st d).bind
          (fun s => lunix_protocol_parse_state false use_specials (iter + 1) s l)
      else some (if st.bytes_read = st.bytes_to_read then 1 else 0, st, d :: l) := by
  conv_lhs => unfold lunix_protocol_parse_state
  by_cases hlt : st.bytes_read < st.bytes_to_read
  · rw [if_pos hlt, if_pos hlt, if_neg (by rintro ⟨h, -⟩; cases h)]
    by_cases hp : st.pos = MAX_PACKET_LEN
    · rw [if_pos hp, if_pos hp]
    · rw [if_neg hp, if_neg hp]
      unfold loop_body
      by_cases hu : use_specials = 1
      · rw [if_pos hu, if_pos hu]
        by_cases hn : st.next_is_special ≠ 0
        · rw [if_pos hn, if_pos hn]
          cases (if (0x7E : Fin 256) = st.next_is_special
              then packet_store st.packet st.pos d else some st.packet) with
          | none => rfl
          | some p1 =>
            simp only []
            cases (if (0x7D : Fin 256) = st.next_is_special
                then packet_store p1 st.pos (d ^^^ 0x20) else some p1) with
            | none => rfl
            | some p2 => rfl
        · rw [if_neg hn, if_neg hn]
          by_cases hd : (0x7E : Fin 256) = d ∨ (0x7D : Fin 256) = d
          · rw [if_pos hd, if_pos hd]
            rfl
          · rw [if_neg hd, if_neg hd]
            cases packet_store st.packet st.pos d <;> rfl
      · rw [if_neg hu, if_neg hu]
        cases packet_store st.packet st.pos d <;> rfl
  · rw [if_neg hlt, if_neg hlt]

theorem loop_body_inv (use_specials : Int) (st : lunix_protocol_state_struct) (d : Fin 256)
    (h : Inv st) (hlt : st.bytes_read < st.bytes_to_read) :
    ∃ s, loop_body use_specials st d = some s ∧ Inv s ∧ s.state = st.state := by
  have hp := Inv_pos st h
  have hpos : st.pos < 300 := by omega
  have hs := fun p n => Inv_stored st p n h hlt
  unfold loop_body
  by_cases hu : use_specials = 1
  · rw [if_pos hu]
    by_cases hn : st.next_is_special ≠ 0
    · rw [if_pos hn]
      by_cases h7e : (0x7E : Fin 256) = st.next_is_special
      · have h7d : ¬ (0x7D : Fin 256) = st.next_is_special := by
          rw [← h7e]; decide
        simp only [if_pos h7e, if_neg h7d, packet_store_some _ _ _ hp.1 hpos]
        exact ⟨_, rfl, (hs _ 0).1, rfl⟩
      · by_cases h7d : (0x7D : Fin 256) = st.next_is_special
        · simp only [if_neg h7e, if_pos h7d, packet_store_some _ _ _ hp.1 hpos]
          exact ⟨_, rfl, (hs _ 0).1, rfl⟩
        · simp only [if_neg h7e, if_neg h7d]
          exact ⟨_, rfl, (hs _ 0).1, rfl⟩
    · rw [if_neg hn]
      by_cases hsp : (0x7E : Fin 256) = d ∨ (0x7D : Fin 256) = d
      · rw [if_pos hsp]
        exact ⟨_, rfl, h, rfl⟩
      · rw [if_neg hsp, packet_store_some _ _ _ hp.1 hpos]
        exact ⟨_, rfl, (hs _ 0).2, rfl⟩
  · rw [if_neg hu, packet_store_some _ _ _ hp.1 hpos]
    exact ⟨_, rfl, (hs _ 0).2, rfl⟩

theorem parse_state_iter (use_specials : Int) (l : List (Fin 256)) :
    ∀ (i j : Nat) (st : lunix_protocol_state_struct),
      lunix_protocol_parse_state false use_specials i st l =
        lunix_protocol_parse_state false use_specials j st l := by
  induction l with
  | nil => intro i j st; rw [parse_state_nil, parse_state_nil]
  | cons d l ih =>
    intro i j st
    rw [parse_state_cons, parse_state_cons]
    have : (fun s => lunix_protocol_parse_state false use_specials (i + 1) s l) =
        (fun s => lunix_protocol_parse_state false use_specials (j + 1) s l) := by
      funext s
      exact ih _ _ s
    rw [this]

/-- Without LUNIX_DEBUG and from a state with the invariant, the loop on
`a ++ b` goes on from where the loop on `a` stops; it stops before the end of
`a` only with the field complete. -/
theorem parse_state_append (use_specials : Int) (b : List (Fin 256)) (a : List (Fin 256)) :
    ∀ (iter : Nat) (st : lunix_protocol_state_struct) (r : Int)
      (st' : lunix_protocol_state_struct) (rest : List (Fin 256)),
      Inv st →
      lunix_protocol_parse_state false use_specials iter st a = some (r, st', rest) →
      lunix_protocol_parse_state false use_specials iter st (a ++ b) =
        lunix_protocol_parse_state false use_specials 0 st' (rest ++ b) ∧
      (r = 1 ∨ (r ≠ 1 ∧ rest = [])) := by
  induction a with
  | nil =>
    intro iter st r st' rest hI h
    rw [parse_state_nil] at h
    simp only [Option.some.injEq, Prod.mk.injEq] at h
    obtain ⟨h1, h2, h3⟩ := h
    subst h2
    subst h3
    refine ⟨parse_state_iter _ _ _ _ _, ?_⟩
    by_cases e : st.bytes_read = st.bytes_to_read
    · rw [if_pos e] at h1
      exact Or.inl h1.symm
    · rw [if_neg e] at h1
      exact Or.inr ⟨by rw [← h1]; decide, rfl⟩
  | cons d a ih =>
    intro iter st r st' rest hI h
    rw [parse_state_cons] at h
    rw [List.cons_append, parse_state_cons]
    by_cases hlt : st.bytes_read < st.bytes_to_read
    · have hp := Inv_pos st hI
      have hne : ¬ st.pos = MAX_PACKET_LEN := by unfold MAX_PACKET_LEN; omega
      rw [if_pos hlt, if_neg hne] at h ⊢
      obtain ⟨s, es, hs, -⟩ := loop_body_inv use_specials st d hI hlt
      rw [es, Option.some_bind] at h ⊢
      exact ih (iter + 1) s r st' rest hs h
    · rw [if_neg hlt] at h ⊢
      simp only [Option.some.injEq, Prod.mk.injEq] at h
      obtain ⟨h1, h2, h3⟩ := h
      subst h2
      subst h3
      have e : st.bytes_read = st.bytes_to_read := by
        have := hI.2.1
        omega
      rw [if_pos e] at h1 ⊢
      refine ⟨?_, Or.inl h1.symm⟩
      rw [List.cons_append, parse_state_done false use_specials 0 st _ e]

/-- The three ways one `if` statement can go from a state with the invariant:
skipped, stopped at the end of the input, or completed. -/
theorem phase_cases (p : phase_spec) (hok : phase_ok p) (st : lunix_protocol_state_struct)
    (a : List (Fin 256)) (hI : Inv st) :
    (st.state ≠ p.tag ∧
      ∀ l, phase false p.tag p.use_specials p.done (st, l) = some (st, l)) ∨
    (st.state = p.tag ∧ ∃ st', phase false p.tag p.use_specials p.done (st, a) = some (st', []) ∧
      Inv st' ∧ st'.state = p.tag ∧
      ∀ b, phase false p.tag p.use_specials p.done (st, a ++ b) =
        phase false p.tag p.use_specials p.done (st', b)) ∨
    (st.state = p.tag ∧ ∃ s' rest,
      phase false p.tag p.use_specials p.done (st, a) = some (s', rest) ∧
      Inv s' ∧ p.tag < s'.state ∧
      ∀ b, phase false p.tag p.use_specials p.done (st, a ++ b) = some (s', rest ++ b)) := by
  by_cases ht : st.state = p.tag
  · right
    obtain ⟨r, st', rest, e, hi, hst, hr⟩ := parse_state_inv false p.use_specials a 0 st hI
    obtain ⟨happ, hrest⟩ := parse_state_append p.use_specials [] a 0 st r st' rest hI e
    have happ := fun b => (parse_state_append p.use_specials b a 0 st r st' rest hI e).1
    by_cases h1 : r = 1
    · right
      obtain ⟨s', es, hs', hlt⟩ := hok st' hi (hst.trans ht) (hr h1)
      refine ⟨ht, s', rest, ?_, hs', hlt, ?_⟩
      · unfold phase
        simp only [if_pos ht, e, if_pos h1, es, Option.map_some']
      · intro b
        unfold phase
        simp only [if_pos ht, happ b, parse_state_done false p.use_specials 0 st' _ (hr h1),
          if_pos, es, Option.map_some']
    · left
      have hnil : rest = [] := by
        rcases hrest with h | ⟨-, h⟩
        · exact absurd h h1
        · exact h
      subst hnil
      refine ⟨ht, st', ?_, hi, hst.trans ht, ?_⟩
      · unfold phase
        simp only [if_pos ht, e, if_neg h1]
      · intro b
        unfold phase
        simp only [if_pos ht, if_pos (hst.trans ht), happ b, List.nil_append]
  · left
    exact ⟨ht, fun l => phase_skip false p.tag p.use_specials p.done (st, l) ht⟩

theorem run_skip (ps : List phase_spec) (st : lunix_protocol_state_struct)
    (l : List (Fin 256)) (h : ∀ q ∈ ps, st.state ≠ q.tag) :
    run_phases false ps (st, l) = some (st, l) := by
  induction ps with
  | nil => rfl
  | cons p ps ih =>
    unfold run_phases
    rw [phase_skip false p.tag p.use_specials p.done (st, l) (h p (List.mem_cons_self _ _)),
      Option.some_bind]
    exact ih (fun q hq => h q (List.mem_cons_of_mem _ hq))

theorem run_state_ne (k : Int) (ps : List phase_spec) (hk : ∀ q ∈ ps, k < q.tag)
    (hok : ∀ q ∈ ps, phase_ok q) :
    ∀ (st : lunix_protocol_state_struct) (a : List (Fin 256))
      (c : lunix_protocol_state_struct × List (Fin 256)),
      Inv st → st.state ≠ k → run_phases false ps (st, a) = some c →
        c.1.state ≠ k ∧ Inv c.1 := by
  induction ps with
  | nil =>
    intro st a c hI hne h
    cases h
    exact ⟨hne, hI⟩
  | cons p ps ih =>
    intro st a c hI hne h
    have ih := ih (fun q hq => hk q (List.mem_cons_of_mem _ hq))
      (fun q hq => hok q (List.mem_cons_of_mem _ hq))
    have hkp := hk p (List.mem_cons_self _ _)
    unfold run_phases at h
    rcases phase_cases p (hok p (List.mem_cons_self _ _)) st a hI with
      ⟨-, e⟩ | ⟨-, st', e, hi', ht', -⟩ | ⟨-, s', rest, e, hi', ht', -⟩
    · rw [e a, Option.some_bind] at h
      exact ih st a c hI hne h
    · rw [e, Option.some_bind] at h
      exact ih st' [] c hi' (by omega) h
    · rw [e, Option.some_bind] at h
      exact ih s' rest c hi' (by omega) h

/-- After the list of phases either the input is used up or the state is
none of the list. -/
theorem run_rest (ps : List phase_spec) (hs : ps.Pairwise (fun p q => p.tag < q.tag))
    (hok : ∀ q ∈ ps, phase_ok q) :
    ∀ (st : lunix_protocol_state_struct) (a : List (Fin 256))
      (c : lunix_protocol_state_struct × List (Fin 256)),
      Inv st → run_phases false ps (st, a) = some c →
        c.2 = [] ∨ ∀ q ∈ ps, c.1.state ≠ q.tag := by
  induction ps with
  | nil =>
    intro st a c hI h
    exact Or.inr (fun q hq => absurd hq (List.not_mem_nil q))
  | cons p ps ih =>
    intro st a c hI h
    rw [List.pairwise_cons] at hs
    have hok' := fun q hq => hok q (List.mem_cons_of_mem p hq)
    have ih := ih hs.2 hok'
    have hne := run_state_ne p.tag ps hs.1 hok'
    unfold run_phases at h
    have hall : ∀ (s : lunix_protocol_state_struct) (l : List (Fin 256)), Inv s →
        s.state ≠ p.tag → run_phases false ps (s, l) = some c →
        c.2 = [] ∨ ∀ q ∈ p :: ps, c.1.state ≠ q.tag := by
      intro s l hi hn hr
      rcases ih s l c hi hr with h0 | h0
      · exact Or.inl h0
      · right
        intro q hq
        rcases List.mem_cons.1 hq with rfl | hq
        · exact (hne s l c hi hn hr).1
        · exact h0 q hq
    rcases phase_cases p (hok p (List.mem_cons_self _ _)) st a hI with
      ⟨hn, e⟩ | ⟨-, st', e, hi', ht', -⟩ | ⟨-, s', rest, e, hi', ht', -⟩
    · rw [e a, Option.some_bind] at h
      exact hall st a hI hn h
    · rw [e, Option.some_bind, run_skip ps st' []
        (fun q hq => by have := hs.1 q hq; omega)] at h
      cases h
      exact Or.inl rfl
    · rw [e, Option.some_bind] at h
      exact hall s' rest hi' (by omega) h

theorem run_phases_cons (LUNIX_DEBUG : Bool) (p : phase_spec) (ps : List phase_spec)
    (c : lunix_protocol_state_struct × List (Fin 256)) :
    run_phases LUNIX_DEBUG (p :: ps) c =
      (phase LUNIX_DEBUG p.tag p.use_specials p.done c).bind (run_phases LUNIX_DEBUG ps) := rfl

/-- The list of phases on `a ++ b` is the list on `a` followed by the list
on what `a` left and `b`. -/
theorem run_append (b : List (Fin 256)) (ps : List phase_spec)
    (hs : ps.Pairwise (fun p q => p.tag < q.tag)) (hok : ∀ q ∈ ps, phase_ok q) :
    ∀ (st : lunix_protocol_state_struct) (a : List (Fin 256)), Inv st →
      run_phases false ps (st, a ++ b) =
        (run_phases false ps (st, a)).bind (fun c => run_phases false ps (c.1, c.2 ++ b)) := by
  induction ps with
  | nil =>
    intro st a hI
    rfl
  | cons p ps ih =>
    intro st a hI
    rw [List.pairwise_cons] at hs
    have hok' := fun q hq => hok q (List.mem_cons_of_mem p hq)
    have ih := ih hs.2 hok'
    have hne := run_state_ne p.tag ps hs.1 hok'
    have hall : ∀ (s : lunix_protocol_state_struct) (l : List (Fin 256)), Inv s →
        s.state ≠ p.tag →
        run_phases false ps (s, l ++ b) =
          (run_phases false ps (s, l)).bind
            (fun c => run_phases false (p :: ps) (c.1, c.2 ++ b)) := by
      intro s l hi hn
      rw [ih s l hi]
      cases hr : run_phases false ps (s, l) with
      | none => rfl
      | some c =>
        rw [Option.some_bind, Option.some_bind, run_phases_cons,
          phase_skip false p.tag p.use_specials p.done (c.1, c.2 ++ b)
            (hne s l c hi hn hr).1, Option.some_bind]
    rw [run_phases_cons false p ps (st, a ++ b), run_phases_cons false p ps (st, a)]
    rcases phase_cases p (hok p (List.mem_cons_self _ _)) st a hI with
      ⟨hn, e⟩ | ⟨-, st', e, hi', ht', e'⟩ | ⟨-, s', rest, e, hi', ht', e'⟩
    · rw [e (a ++ b), Option.some_bind, hall st a hI hn, e a, Option.some_bind]
    · rw [e' b, e, Option.some_bind, run_skip ps st' []
        (fun q hq => by have := hs.1 q hq; omega), Option.some_bind, run_phases_cons]
      rfl
    · rw [e' b, Option.some_bind, hall s' rest hi' (by omega), e, Option.some_bind]

theorem field_phases_sorted : field_phases.Pairwise (fun p q => p.tag < q.tag) := by
  unfold field_phases
  simp only [List.pairwise_cons, List.mem_cons, List.mem_singleton, forall_eq_or_imp, forall_eq,
    List.not_mem_nil, List.Pairwise.nil, false_imp_iff, implies_true, and_true]
  decide

theorem set_state_ok (tag next btr : Int) (us : Int) (hnext : tag < next)
    (hf : ∀ pos : Int, 0 ≤ pos → (∀ br btr0, Inv_fields tag br btr0 pos → br = btr0 →
      Inv_fields next 0 btr pos)) :
    phase_ok { tag := tag, use_specials := us, done := fun s => some (set_state s next btr 0) } := by
  intro s hs ht hb
  refine ⟨_, rfl, Inv_set_state s _ _ ?_, hnext⟩
  have hp := Inv_pos s hs
  have hs' : Inv_fields tag s.bytes_read s.bytes_to_read s.pos := by
    have := hs
    unfold Inv at this
    rw [show s.state = tag from ht] at this
    exact this
  exact hf s.pos hp.1 _ _ hs' hb

theorem field_phases_ok : ∀ q ∈ field_phases, phase_ok q := by
  intro q hq
  unfold field_phases at hq
  simp only [List.mem_cons, List.mem_singleton, List.not_mem_nil, or_false] at hq
  rcases hq with rfl | rfl | rfl | rfl | rfl | rfl | rfl | rfl
  · refine set_state_ok _ _ _ _ (by decide) ?_
    rintro pos hpos br btr0 ⟨a1, a2, a3, a4⟩ rfl
    unfold SEEKING_START_BYTE at a4
    refine ⟨le_refl _, by decide, hpos, Or.inr (Or.inl ⟨rfl, rfl, ?_⟩)⟩
    rcases a4 with a | a | a | a | a | a | a | a | a <;> omega
  · refine set_state_ok _ _ _ _ (by decide) ?_
    rintro pos hpos br btr0 ⟨a1, a2, a3, a4⟩ rfl
    unfold SEEKING_PACKET_TYPE at a4
    refine ⟨le_refl _, by decide, hpos, Or.inr (Or.inr (Or.inl ⟨rfl, rfl, ?_⟩))⟩
    rcases a4 with a | a | a | a | a | a | a | a | a <;> omega
  · refine set_state_ok _ _ _ _ (by decide) ?_
    rintro pos hpos br btr0 ⟨a1, a2, a3, a4⟩ rfl
    unfold SEEKING_DESTINATION_ADDRESS at a4
    refine ⟨le_refl _, by decide, hpos, Or.inr (Or.inr (Or.inr (Or.inl ⟨rfl, rfl, ?_⟩)))⟩
    rcases a4 with a | a | a | a | a | a | a | a | a <;> omega
  · refine set_state_ok _ _ _ _ (by decide) ?_
    rintro pos hpos br btr0 ⟨a1, a2, a3, a4⟩ rfl
    unfold SEEKING_AM_TYPE at a4
    refine ⟨le_refl _, by decide, hpos,
      Or.inr (Or.inr (Or.inr (Or.inr (Or.inl ⟨rfl, rfl, ?_⟩))))⟩
    rcases a4 with a | a | a | a | a | a | a | a | a <;> omega
  · refine set_state_ok _ _ _ _ (by decide) ?_
    rintro pos hpos br btr0 ⟨a1, a2, a3, a4⟩ rfl
    unfold SEEKING_AM_GROUP at a4
    refine ⟨le_refl _, by decide, hpos,
      Or.inr (Or.inr (Or.inr (Or.inr (Or.inr (Or.inl ⟨rfl, rfl, ?_⟩)))))⟩
    rcases a4 with a | a | a | a | a | a | a | a | a <;> omega
  · intro s hs ht hb
    have hp := Inv_pos s hs
    obtain ⟨a1, a2, a3, a4⟩ := hs
    change s.state = SEEKING_PAYLOAD_LENGTH at ht
    unfold SEEKING_PAYLOAD_LENGTH at ht
    have hpos : 1 ≤ s.pos ∧ s.pos ≤ 7 := by
      rcases a4 with a | a | a | a | a | a | a | a | a <;> omega
    have hl : packet_load s.packet (s.pos - 1) = some (s.packet (s.pos - 1)) := by
      unfold packet_load MAX_PACKET_LEN
      rw [if_pos ⟨by omega, by omega⟩]
    refine ⟨set_state s SEEKING_PAYLOAD ((s.packet (s.pos - 1)).val : Int) 0, ?_, ?_, ?_⟩
    · show payload_length_done s = _
      unfold payload_length_done
      rw [hl]
      rfl
    · have hv := (s.packet (s.pos - 1)).isLt
      exact Inv_set_state s _ _ ⟨le_refl _, by omega, hp.1,
        Or.inr (Or.inr (Or.inr (Or.inr (Or.inr (Or.inr (Or.inl
          ⟨rfl, by omega, by omega⟩))))))⟩
    · show SEEKING_PAYLOAD_LENGTH < SEEKING_PAYLOAD
      decide
  · refine set_state_ok _ _ _ _ (by decide) ?_
    rintro pos hpos br btr0 ⟨a1, a2, a3, a4⟩ rfl
    unfold SEEKING_PAYLOAD at a4
    refine ⟨le_refl _, by decide, hpos,
      Or.inr (Or.inr (Or.inr (Or.inr (Or.inr (Or.inr (Or.inr (Or.inl ⟨rfl, rfl, ?_⟩)))))))⟩
    rcases a4 with a | a | a | a | a | a | a | a | a <;> omega
  · refine set_state_ok _ _ _ _ (by decide) ?_
    rintro pos hpos br btr0 ⟨a1, a2, a3, a4⟩ rfl
    unfold SEEKING_CRC at a4
    refine ⟨le_refl _, by decide, hpos,
      Or.inr (Or.inr (Or.inr (Or.inr (Or.inr (Or.inr (Or.inr (Or.inr ⟨rfl, rfl, ?_⟩)))))))⟩
    rcases a4 with a | a | a | a | a | a | a | a | a <;> omega

/-- The first eight `if` statements on `a ++ b`, without LUNIX_DEBUG. -/
theorem fields_append (st : lunix_protocol_state_struct) (a b : List (Fin 256)) (hI : Inv st) :
    received_buf_fields false st (a ++ b) =
      (received_buf_fields false st a).bind
        (fun c => received_buf_fields false c.1 (c.2 ++ b)) := by
  rw [fields_eq_run, fields_eq_run, run_append b field_phases field_phases_sorted
    field_phases_ok st a hI]
  congr 1
  funext c
  rw [fields_eq_run]

/-- The first eight `if` statements leave input unread only in SEEKING_END_BYTE. -/
theorem fields_rest (st : lunix_protocol_state_struct) (a : List (Fin 256)) (hI : Inv st)
    (c : lunix_protocol_state_struct × List (Fin 256))
    (h : received_buf_fields false st a = some c) (hi : Inv c.1) :
    c.2 = [] ∨ c.1.state = SEEKING_END_BYTE := by
  rw [fields_eq_run] at h
  rcases run_rest field_phases field_phases_sorted field_phases_ok st a c hI h with h0 | h0
  · exact Or.inl h0
  · right
    have t1 := h0 _ (List.mem_cons_self _ _)
    have t2 := h0 _ (List.mem_cons_of_mem _ (List.mem_cons_self _ _))
    have t3 := h0 _ (List.mem_cons_of_mem _ (List.mem_cons_of_mem _ (List.mem_cons_self _ _)))
    have t4 := h0 _ (List.mem_cons_of_mem _ (List.mem_cons_of_mem _
      (List.mem_cons_of_mem _ (List.mem_cons_self _ _))))
    have t5 := h0 _ (List.mem_cons_of_mem _ (List.mem_cons_of_mem _
      (List.mem_cons_of_mem _ (List.mem_cons_of_mem _ (List.mem_cons_self _ _)))))
    have t6 := h0 _ (List.mem_cons_of_mem _ (List.mem_cons_of_mem _
      (List.mem_cons_of_mem _ (List.mem_cons_of_mem _ (List.mem_cons_of_mem _
        (List.mem_cons_self _ _))))))
    have t7 := h0 _ (List.mem_cons_of_mem _ (List.mem_cons_of_mem _
      (List.mem_cons_of_mem _ (List.mem_cons_of_mem _ (List.mem_cons_of_mem _
        (List.mem_cons_of_mem _ (List.mem_cons_self _ _)))))))
    have t8 := h0 _ (List.mem_cons_of_mem _ (List.mem_cons_of_mem _
      (List.mem_cons_of_mem _ (List.mem_cons_of_mem _ (List.mem_cons_of_mem _
        (List.mem_cons_of_mem _ (List.mem_cons_of_mem _ (List.mem_cons_self _ _))))))))
    change c.1.state ≠ 1 at t1
    change c.1.state ≠ 2 at t2
    change c.1.state ≠ 3 at t3
    change c.1.state ≠ 4 at t4
    change c.1.state ≠ 5 at t5
    change c.1.state ≠ 6 at t6
    change c.1.state ≠ 7 at t7
    change c.1.state ≠ 8 at t8
    obtain ⟨-, -, -, a4⟩ := hi
    unfold SEEKING_END_BYTE
    rcases a4 with a | a | a | a | a | a | a | a | a <;> omega

theorem received_buf_congr (LUNIX_DEBUG : Bool) (lunix_sensor_cnt : Int) (now : Nat)
    (st1 st2 : lunix_protocol_state_struct) (lunix_sensors : List lunix_sensor_struct)
    (l1 l2 : List (Fin 256))
    (h : received_buf_fields LUNIX_DEBUG st1 l1 = received_buf_fields LUNIX_DEBUG st2 l2) :
    lunix_protocol_received_buf LUNIX_DEBUG lunix_sensor_cnt now st1 lunix_sensors l1 =
      lunix_protocol_received_buf LUNIX_DEBUG lunix_sensor_cnt now st2 lunix_sensors l2 := by
  unfold lunix_protocol_received_buf
  rw [h]

/-- C20 (LUNIX_DEBUG not set): from every parser state reached from
`lunix_protocol_init` by calls of `lunix_protocol_received_buf`, a call on
`a` returns; if it hands no frame to the dispatcher, the call on `b` that
follows returns exactly what one call on `a ++ b` returns from the first
state: the same parser state (tag, counters, `pos`, `next_is_special`,
`packet`), the same sensor records and the same dispatch; and that call
returns too.  The split may fall anywhere, also after an escape byte. -/
theorem resume_across_calls (lunix_sensor_cnt : Int) (s0 : lunix_protocol_state_struct)
    (sensors0 : List lunix_sensor_struct) (history : List (Nat × List (Fin 256)))
    (st : lunix_protocol_state_struct) (lunix_sensors : List lunix_sensor_struct)
    (ds : List lunix_protocol_state_struct)
    (hlen : (sensors0.length : Int) = lunix_sensor_cnt)
    (hreach : feed false lunix_sensor_cnt (lunix_protocol_init s0) sensors0 history =
      some (st, lunix_sensors, ds))
    (now1 now2 : Nat) (a b : List (Fin 256)) :
    ∃ r1 r, lunix_protocol_received_buf false lunix_sensor_cnt now1 st lunix_sensors a =
        some r1 ∧
      lunix_protocol_received_buf false lunix_sensor_cnt now2 st lunix_sensors (a ++ b) =
        some r ∧
      (r1.dispatched = none →
        lunix_protocol_received_buf false lunix_sensor_cnt now2 r1.state r1.lunix_sensors b =
          some r) := by
  obtain ⟨st', sn', ds', ef, hI, hl⟩ :=
    feed_inv false lunix_sensor_cnt history (lunix_protocol_init s0) sensors0 (Inv_init s0) hlen
  rw [hreach] at ef
  simp only [Option.some.injEq, Prod.mk.injEq] at ef
  obtain ⟨rfl, rfl, rfl⟩ := ef
  obtain ⟨r1, e1, -, -⟩ := received_buf_inv false lunix_sensor_cnt now1 st lunix_sensors a hI hl
  obtain ⟨r, e, -, -⟩ :=
    received_buf_inv false lunix_sensor_cnt now2 st lunix_sensors (a ++ b) hI hl
  refine ⟨r1, r, e1, e, ?_⟩
  intro hd
  rw [← e]
  obtain ⟨⟨st8, rest8⟩, e8, h8⟩ := received_buf_fields_inv false st a hI
  have happ := fields_append st a b hI
  rw [e8, Option.some_bind] at happ
  have hrest := fields_rest st a hI (st8, rest8) e8 h8
  unfold lunix_protocol_received_buf at e1
  rw [e8] at e1
  simp only [] at e1
  by_cases ht : st8.state = SEEKING_END_BYTE
  · rw [if_pos ht] at e1
    obtain ⟨q, st9, rest9, e9, h9, hst9, -⟩ := parse_state_inv false 0 rest8 0 st8 h8
    obtain ⟨hp, hq⟩ := parse_state_append 0 b rest8 0 st8 q st9 rest9 h8 e9
    rw [e9] at e1
    simp only [] at e1
    by_cases h1 : q = 1
    · rw [if_pos h1] at e1
      obtain ⟨sn, es, -⟩ := update_sensors_total lunix_sensor_cnt st9 lunix_sensors now1 hl
      rw [es] at e1
      simp only [Option.some.injEq] at e1
      rw [← e1] at hd
      cases hd
    · rw [if_neg h1] at e1
      simp only [Option.some.injEq] at e1
      subst e1
      have hnil : rest9 = [] := by
        rcases hq with h | ⟨-, h⟩
        · exact absurd h h1
        · exact h
      subst hnil
      show lunix_protocol_received_buf false lunix_sensor_cnt now2 st9 lunix_sensors b = _
      unfold lunix_protocol_received_buf
      rw [happ, fields_skip false st9 b (hst9.trans ht),
        fields_skip false st8 (rest8 ++ b) ht]
      simp only [if_pos ht, if_pos (hst9.trans ht), hp, List.nil_append]
  · rw [if_neg ht] at e1
    simp only [Option.some.injEq] at e1
    subst e1
    have hnil : rest8 = [] := by
      rcases hrest with h | h
      · exact h
      · exact absurd h ht
    subst hnil
    exact received_buf_congr false lunix_sensor_cnt now2 st8 st lunix_sensors b (a ++ b)
      happ.symm

set_option maxRecDepth 8000 in
/-- The frame `sample` split after the escape byte 0x7D of its first DEST
byte: the first call hands nothing to the dispatcher, and the second call on
the rest gives what one call on the whole frame gives. -/
theorem resume_across_calls_witness :
    ∃ (r1 r : received),
      lunix_protocol_received_buf false 1 5 (lunix_protocol_init zero_state) [zero_sensor]
        [0x7E, 0x42, 0x7D] = some r1 ∧
      lunix_protocol_received_buf false 1 6 (lunix_protocol_init zero_state) [zero_sensor]
        ([0x7E, 0x42, 0x7D] ++ sample.wire.drop 3) = some r ∧
      r1.dispatched = none ∧ r1.state.next_is_special = 0x7D ∧
      lunix_protocol_received_buf false 1 6 r1.state r1.lunix_sensors (sample.wire.drop 3) =
        some r := by
  obtain ⟨r1, r, e1, e, h⟩ := resume_across_calls 1 zero_state [zero_sensor] []
    (lunix_protocol_init zero_state) [zero_sensor] [] rfl rfl 5 6 [0x7E, 0x42, 0x7D]
    (sample.wire.drop 3)
  have hv : (lunix_protocol_received_buf false 1 5 (lunix_protocol_init zero_state)
      [zero_sensor] [0x7E, 0x42, 0x7D]).map
        (fun x => (x.dispatched.isSome, x.state.next_is_special)) = some (false, 0x7D) := by
    decide
  rw [e1] at hv
  simp only [Option.map_some', Option.some.injEq, Prod.mk.injEq] at hv
  have hd : r1.dispatched = none := by
    cases hdd : r1.dispatched with
    | none => rfl
    | some d =>
      rw [hdd] at hv
      exact absurd hv.1 (fun hh => Bool.noConfusion hh)
  exact ⟨r1, r, e1, e, hd, hv.2, h hd⟩

/-! ## Bytes left by earlier frames -/

set_option maxRecDepth 8000 in
/-- C21: the same 14-byte frame `short_frame` for node 1, fed at clock 200
after three histories since `lunix_protocol_init`.  After a 27-byte frame
with raw values 10, 20, 30 the dispatcher writes 10, 20, 30 to the record;
after a 27-byte frame with raw values 11, 21, 31 (for node 2, so that the
record of node 1 is untouched before) it writes 11, 21, 31; with no earlier
frame it writes 0, 0, 0.  The state handed to the dispatcher has `pos = 14`
each time: the values come from `packet[18 .. 23]`, which the frame did not
write. -/
theorem stale_bytes_dispatched :
    ((feed false 2 (lunix_protocol_init zero_state) [zero_sensor, zero_sensor]
        [(100, sample_frame 2 10 20 30), (200, short_frame)]).map
      (fun r => (r.2.1, r.2.2.map (fun d => d.pos))))
      = some ([lunix_sensor_update zero_sensor 10 20 30 200,
               lunix_sensor_update zero_sensor 10 20 30 100], [27, 14]) ∧
    ((feed false 2 (lunix_protocol_init zero_state) [zero_sensor, zero_sensor]
        [(100, sample_frame 2 11 21 31), (200, short_frame)]).map
      (fun r => (r.2.1, r.2.2.map (fun d => d.pos))))
      = some ([lunix_sensor_update zero_sensor 11 21 31 200,
               lunix_sensor_update zero_sensor 11 21 31 100], [27, 14]) ∧
    ((feed false 2 (lunix_protocol_init zero_state) [zero_sensor, zero_sensor]
        [(200, short_frame)]).map
      (fun r => (r.2.1, r.2.2.map (fun d => d.pos))))
      = some ([lunix_sensor_update zero_sensor 0 0 0 200, zero_sensor], [14]) ∧
    lunix_sensor_update zero_sensor 10 20 30 200 ≠
      lunix_sensor_update zero_sensor 11 21 31 200 := by
  refine ⟨?_, ?_, ?_, ?_⟩ <;> decide

/-! ## Two updates within one second -/

set_option maxRecDepth 8000 in
/-- C22, as stated, fails: a TEMP handle just opened, refreshed on a record
updated at clock 1000 with raw temperature 123, holds the text `"25.123\n"`
and the timestamp 1000.  A second `lunix_sensor_update` at the same clock
value 1000 writes the raw temperature 1505, whose text is `"26.505\n"`.
After it the handle has refreshed once, `lunix_chrdev_state_needs_refresh`
returns 0 and `lunix_chrdev_state_update` returns -EAGAIN with the handle as
it was: the cached text is still `"25.123\n"`. -/
theorem stale_within_one_second :
    ∃ h1, lunix_chrdev_state_update
        { lookup_voltage := fun _ => 0, lookup_temperature := fun n => 25000 + n,
          lookup_light := fun _ => 0 }
        [lunix_sensor_update zero_sensor 400 123 7 1000]
        { type := TEMP, sensor := 0, buf_lim := 1, buf_data := List.replicate 200 0,
          buf_timestamp := 0 } = some (0, h1) ∧
      h1.buf_timestamp = 1000 ∧ h1.buf_lim = 7 ∧
      h1.buf_data.take 7 = ascii "25.123\n" ∧
      (lunix_sensor_update (lunix_sensor_update zero_sensor 400 123 7 1000)
        400 1505 7 1000).temp.values0 = 1505 ∧
      lunix_chrdev_state_needs_refresh
        [lunix_sensor_update (lunix_sensor_update zero_sensor 400 123 7 1000) 400 1505 7 1000]
        h1 = some 0 ∧
      (lunix_chrdev_state_update
        { lookup_voltage := fun _ => 0, lookup_temperature := fun n => 25000 + n,
          lookup_light := fun _ => 0 }
        [lunix_sensor_update (lunix_sensor_update zero_sensor 400 123 7 1000) 400 1505 7 1000]
        h1).map (fun r => (r.1, r.2.buf_lim, r.2.buf_data.take 7, r.2.buf_timestamp)) =
        some (-EAGAIN, 7, ascii "25.123\n", 1000) ∧
      lunix_chrdev_format (25000 + 1505) = ascii "26.505\n" ∧
      h1.buf_data.take 7 ≠ lunix_chrdev_format (25000 + 1505) := by
  refine ⟨_, rfl, ?_, ?_, ?_, ?_, ?_, ?_, ?_, ?_⟩ <;> decide

/-! ## Freshness over sequences of updates and refreshes -/

theorem msr_data_type (rec : lunix_sensor_struct) (type : Nat) (msr : lunix_msr_data_struct)
    (h : msr_data rec type = some msr) : type = BATT ∨ type = TEMP ∨ type = LIGHT := by
  unfold msr_data at h
  by_cases h0 : type = BATT
  · exact Or.inl h0
  · by_cases h1 : type = TEMP
    · exact Or.inr (Or.inl h1)
    · by_cases h2 : type = LIGHT
      · exact Or.inr (Or.inr h2)
      · rw [if_neg h0, if_neg h1, if_neg h2] at h
        cases h

/-- The two returns of `lunix_chrdev_state_update` on a handle whose record
holds a raw value below 65536. -/
theorem state_update_total (tables : lookup_tables) (lunix_sensors : List lunix_sensor_struct)
    (st : lunix_chrdev_state_struct) (rec : lunix_sensor_struct) (msr : lunix_msr_data_struct)
    (hrec : lunix_sensors.get? st.sensor = some rec) (hmsr : msr_data rec st.type = some msr)
    (hv : msr.values0 < 65536) :
    (st.buf_timestamp = msr.last_update ∧
      lunix_chrdev_state_needs_refresh lunix_sensors st = some 0 ∧
      lunix_chrdev_state_update tables lunix_sensors st = some (-EAGAIN, st)) ∨
    (st.buf_timestamp ≠ msr.last_update ∧
      lunix_chrdev_state_needs_refresh lunix_sensors st = some 1 ∧
      ∃ st', lunix_chrdev_state_update tables lunix_sensors st = some (0, st') ∧
        st'.buf_timestamp = msr.last_update ∧ st'.type = st.type ∧ st'.sensor = st.sensor ∧
        cached st' (lunix_chrdev_format (table_entry tables st.type msr.values0))) := by
  have hq := msr_data_type rec st.type msr hmsr
  have hload :
      (if st.type = BATT then lookup_load tables.lookup_voltage msr.values0
       else if st.type = TEMP then lookup_load tables.lookup_temperature msr.values0
       else if st.type = LIGHT then lookup_load tables.lookup_light msr.values0
       else none) = some (table_entry tables st.type msr.values0) := by
    unfold table_entry lookup_load
    rw [if_pos hv, if_pos hv, if_pos hv]
    rcases hq with h | h | h <;> rw [h] <;> simp [BATT, TEMP, LIGHT]
  have hfit : (lunix_chrdev_format (table_entry tables st.type msr.values0)).length <
      LUNIX_CHRDEV_BUFSZ := by
    have := lunix_chrdev_format_length (table_entry tables st.type msr.values0)
    have : LUNIX_CHRDEV_BUFSZ = 200 := rfl
    omega
  have hsn := snprintf_fits st.buf_data
    (lunix_chrdev_format (table_entry tables st.type msr.values0)) hfit
  by_cases hts : st.buf_timestamp = msr.last_update
  · left
    have hneed : lunix_chrdev_state_needs_refresh lunix_sensors st = some 0 := by
      unfold lunix_chrdev_state_needs_refresh
      simp only [hrec, hmsr, if_pos hts]
    refine ⟨hts, hneed, ?_⟩
    unfold lunix_chrdev_state_update
    rw [hneed]
    rfl
  · right
    have hneed : lunix_chrdev_state_needs_refresh lunix_sensors st = some 1 := by
      unfold lunix_chrdev_state_needs_refresh
      simp only [hrec, hmsr, if_neg hts]
    refine ⟨hts, hneed,
      { st with buf_timestamp := msr.last_update,
                buf_data := (snprintf st.buf_data LUNIX_CHRDEV_BUFSZ
                  (lunix_chrdev_format (table_entry tables st.type msr.values0))).1,
                buf_lim := (snprintf st.buf_data LUNIX_CHRDEV_BUFSZ
                  (lunix_chrdev_format (table_entry tables st.type msr.values0))).2 },
      ?_, rfl, rfl, rfl, hsn.2, hsn.1⟩
    unfold lunix_chrdev_state_update
    rw [hneed]
    simp only [hrec, hmsr, hload]
    simp

/-- The invariant of a sequence of events whose updates fall in different
seconds: once the handle has refreshed, its timestamp is at most that of the
record, and when the two are equal the handle holds the text of the current
raw value. -/
theorem run_events_fresh (tables : lookup_tables) (es : List event) :
    ∀ (s : session) (rec : lunix_sensor_struct) (msr : lunix_msr_data_struct),
      s.lunix_sensors.get? s.state.sensor = some rec →
      msr_data rec s.state.type = some msr →
      msr.values0 < 65536 →
      seconds_increase msr.last_update es →
      (s.refreshed = true → s.state.buf_timestamp ≤ msr.last_update ∧
        (s.state.buf_timestamp = msr.last_update →
          cached s.state (lunix_chrdev_format
            (table_entry tables s.state.type msr.values0)))) →
      ∃ s' rec' msr', run_events tables s es = some s' ∧
        s'.lunix_sensors.get? s'.state.sensor = some rec' ∧
        msr_data rec' s'.state.type = some msr' ∧
        (s'.refreshed = true → s'.state.buf_timestamp ≤ msr'.last_update ∧
          (s'.state.buf_timestamp = msr'.last_update →
            cached s'.state (lunix_chrdev_format
              (table_entry tables s'.state.type msr'.values0)))) := by
  induction es with
  | nil =>
    intro s rec msr hrec hmsr _ _ hinv
    exact ⟨s, rec, msr, rfl, hrec, hmsr, hinv⟩
  | cons e es ih =>
    intro s rec msr hrec hmsr hv hinc hinv
    cases e with
    | update batt temp light now =>
      obtain ⟨hlt, hinc'⟩ := hinc
      have hq := msr_data_type rec s.state.type msr hmsr
      have hidx : s.state.sensor < s.lunix_sensors.length := by
        rcases Nat.lt_or_ge s.state.sensor s.lunix_sensors.length with h | h
        · exact h
        · rw [List.get?_eq_none.mpr h] at hrec
          cases hrec
      have hstep : run_event tables s (event.update batt temp light now) =
          some { s with
            lunix_sensors :=
              s.lunix_sensors.set s.state.sensor
                (lunix_sensor_update rec batt.val temp.val light.val now) } := by
        unfold run_event
        simp only [hrec]
      have hget : (s.lunix_sensors.set s.state.sensor
          (lunix_sensor_update rec batt.val temp.val light.val now)).get? s.state.sensor =
          some (lunix_sensor_update rec batt.val temp.val light.val now) := by
        rw [List.get?_eq_getElem?, List.getElem?_set_self hidx]
      have hm := msr_data_update rec batt.val temp.val light.val now s.state.type hq
      have hval : (if s.state.type = BATT then batt.val
          else if s.state.type = TEMP then temp.val else light.val) < 65536 := by
        have h1 := batt.isLt
        have h2 := temp.isLt
        have h3 := light.isLt
        split
        · exact h1
        · split
          · exact h2
          · exact h3
      obtain ⟨s', rec', msr', hr, h1, h2, h3⟩ := ih
        { s with
          lunix_sensors :=
            s.lunix_sensors.set s.state.sensor
              (lunix_sensor_update rec batt.val temp.val light.val now) }
        _ _ hget hm hval hinc'
        (fun hre => by
          obtain ⟨hle, -⟩ := hinv hre
          have hlt' : s.state.buf_timestamp < now % 2 ^ 32 := Nat.lt_of_le_of_lt hle hlt
          exact ⟨Nat.le_of_lt hlt', fun heq => absurd heq (Nat.ne_of_lt hlt')⟩)
      refine ⟨s', rec', msr', ?_, h1, h2, h3⟩
      show (match run_event tables s (event.update batt temp light now) with
        | none => none
        | some s1 => run_events tables s1 es) = some s'
      rw [hstep]
      exact hr
    | refresh =>
      have hinc' : seconds_increase msr.last_update es := hinc
      rcases state_update_total tables s.lunix_sensors s.state rec msr hrec hmsr hv with
        ⟨hts, -, hu⟩ | ⟨hts, -, st', hu, ht1, ht2, ht3, hc⟩
      · have hstep : run_event tables s event.refresh = some s := by
          unfold run_event
          simp only [hu]
          have : decide ((-EAGAIN : Int) = 0) = false := by decide
          rw [this, Bool.or_false]
        obtain ⟨s', rec', msr', hr, h1, h2, h3⟩ := ih s rec msr hrec hmsr hv hinc' hinv
        refine ⟨s', rec', msr', ?_, h1, h2, h3⟩
        show (match run_event tables s event.refresh with
          | none => none
          | some s1 => run_events tables s1 es) = some s'
        rw [hstep]
        exact hr
      · have hstep : run_event tables s event.refresh =
            some { s with state := st', refreshed := true } := by
          unfold run_event
          simp only [hu, decide_True, Bool.or_true]
        obtain ⟨s', rec', msr', hr, h1, h2, h3⟩ := ih
          { s with state := st', refreshed := true } rec msr
          (by show s.lunix_sensors.get? st'.sensor = some rec; rw [ht3]; exact hrec)
          (by show msr_data rec st'.type = some msr; rw [ht2]; exact hmsr)
          hv hinc'
          (fun _ => ⟨by show st'.buf_timestamp ≤ msr.last_update; rw [ht1], fun _ => by
            show cached st' (lunix_chrdev_format (table_entry tables st'.type msr.values0))
            rw [ht2]
            exact hc⟩)
        refine ⟨s', rec', msr', ?_, h1, h2, h3⟩
        show (match run_event tables s event.refresh with
          | none => none
          | some s1 => run_events tables s1 es) = some s'
        rw [hstep]
        exact hr

/-- C22, amended: a sequence of `lunix_sensor_update` calls on the record
of a handle, each with a 32-bit timestamp later than the one the record held
before it, and of `lunix_chrdev_state_update` calls on the handle, runs to
its end; and if by then the handle has refreshed at least once and
`lunix_chrdev_state_needs_refresh` returns 0, the handle holds the text that
the code prints for the table entry of its quantity at the raw value the
record holds now. -/
theorem fresh_when_seconds_differ (tables : lookup_tables)
    (lunix_sensors : List lunix_sensor_struct) (h : lunix_chrdev_state_struct)
    (rec : lunix_sensor_struct) (msr : lunix_msr_data_struct) (es : List event)
    (hrec : lunix_sensors.get? h.sensor = some rec)
    (hmsr : msr_data rec h.type = some msr)
    (hv : msr.values0 < 65536)
    (hinc : seconds_increase msr.last_update es) :
    ∃ s', run_events tables
        { lunix_sensors := lunix_sensors, state := h, refreshed := false } es = some s' ∧
      (s'.refreshed = true →
        lunix_chrdev_state_needs_refresh s'.lunix_sensors s'.state = some 0 →
        ∃ rec' msr', s'.lunix_sensors.get? s'.state.sensor = some rec' ∧
          msr_data rec' s'.state.type = some msr' ∧
          cached s'.state (lunix_chrdev_format
            (table_entry tables s'.state.type msr'.values0))) := by
  obtain ⟨s', rec', msr', hr, h1, h2, h3⟩ := run_events_fresh tables es
    { lunix_sensors := lunix_sensors, state := h, refreshed := false } rec msr hrec hmsr hv
    hinc (fun hre => Bool.noConfusion hre)
  refine ⟨s', hr, fun hre hneed => ⟨rec', msr', h1, h2, ?_⟩⟩
  unfold lunix_chrdev_state_needs_refresh at hneed
  simp only [h1, h2] at hneed
  by_cases hts : s'.state.buf_timestamp = msr'.last_update
  · exact (h3 hre).2 hts
  · rw [if_neg hts] at hneed
    simp only [Option.some.injEq] at hneed
    exact absurd hneed (by decide)

set_option maxRecDepth 8000 in
/-- A TEMP handle just opened on a record as `lunix_sensor_init` leaves it:
an update at clock 1000, a refresh, an update at clock 1001 with raw
temperature 1505, a refresh.  The handle has refreshed, `needs_refresh`
returns 0 and the text is `"26.505\n"`, that of the raw value 1505. -/
theorem fresh_when_seconds_differ_witness :
    ∃ s, run_events
        { lookup_voltage := fun _ => 0, lookup_temperature := fun n => 25000 + n,
          lookup_light := fun _ => 0 }
        { lunix_sensors := [zero_sensor],
          state := { type := TEMP, sensor := 0, buf_lim := 1,
                     buf_data := List.replicate 200 0, buf_timestamp := 0 },
          refreshed := false }
        [event.update 400 123 7 1000, event.refresh, event.update 400 1505 7 1001,
         event.refresh] = some s ∧
      s.refreshed = true ∧
      lunix_chrdev_state_needs_refresh s.lunix_sensors s.state = some 0 ∧
      s.state.buf_data.take 7 = ascii "26.505\n" ∧
      (∃ rec msr, s.lunix_sensors.get? s.state.sensor = some rec ∧
        msr_data rec s.state.type = some msr ∧
        cached s.state (lunix_chrdev_format
          (table_entry
            { lookup_voltage := fun _ => 0, lookup_temperature := fun n => 25000 + n,
              lookup_light := fun _ => 0 } s.state.type msr.values0))) := by
  have hr : ∃ s, run_events
        { lookup_voltage := fun _ => 0, lookup_temperature := fun n => 25000 + n,
          lookup_light := fun _ => 0 }
        { lunix_sensors := [zero_sensor],
          state := { type := TEMP, sensor := 0, buf_lim := 1,
                     buf_data := List.replicate 200 0, buf_timestamp := 0 },
          refreshed := false }
        [event.update 400 123 7 1000, event.refresh, event.update 400 1505 7 1001,
         event.refresh] = some s ∧
      s.refreshed = true ∧
      lunix_chrdev_state_needs_refresh s.lunix_sensors s.state = some 0 ∧
      s.state.buf_data.take 7 = ascii "26.505\n" :=
    ⟨_, rfl, by decide, by decide, by decide⟩
  obtain ⟨s, e, h1, h2, h3⟩ := hr
  obtain ⟨s', e', hfresh⟩ := fresh_when_seconds_differ
    { lookup_voltage := fun _ => 0, lookup_temperature := fun n => 25000 + n,
      lookup_light := fun _ => 0 }
    [zero_sensor]
    { type := TEMP, sensor := 0, buf_lim := 1, buf_data := List.replicate 200 0,
      buf_timestamp := 0 }
    zero_sensor zero_msr
    [event.update 400 123 7 1000, event.refresh, event.update 400 1505 7 1001,
     event.refresh]
    rfl rfl (by decide) ⟨by decide, by decide, trivial⟩
  rw [e] at e'
  simp only [Option.some.injEq] at e'
  subst e'
  exact ⟨s, e, h1, h2, h3, hfresh h1 h2⟩

/-! ## A frame longer than the accumulation buffer -/

end Lunix
